import Mathlib

/-!
# PointerEvent.js: a shallow embedding

The engine of `src/PointerEvent.js` is embedded as pure functions over an explicit
state.  The process-wide statics `_pointerId`, `_pointers`, `_T2P`, `_MSP2P` and
`_TCurrentTouch` form the record `Engine`; every handler takes the engine before the
occurrence and returns an `Outcome` holding the engine afterwards together with the
events it dispatched, in order.

Conventions of the embedding:

* JavaScript values that the code passes around without fixing their type (the
  `props` of the constructor, the fields of a synthesized event) are `JSVal`s.
  Numbers are integers: the code copies numeric fields or tests them for
  truthiness and computes only with the buttons bitmask and the identity counter.
* An object used as a dictionary is an association list in insertion order
  (`Dict`); reading a missing key gives `none`, the `undefined` of the source.
* An element (an `EventTarget`) is a natural-number reference.
* The host delivers a dispatched event to listeners the engine does not see.  Their
  only feedback into the handler is the `defaultPrevented` flag read after
  `dispatchEvent`.  A `Listeners` oracle says whether a listener calls
  `preventDefault()` on the event; the host sets the flag only when the event is
  cancelable.  Listeners are taken not to call back into the engine during a dispatch.
* The constants `POINTER_OVER`, `POINTER_TYPE_TOUCH`, ... are taken at the value
  their descriptor documents as `@default`.
* A native event is a `RawEvent`: the results of the three `instanceof` tests of the
  constructor are fields of it, next to the properties the source reads.  The globals
  `MouseEvent` and `TouchEvent` exist (the constructor names them unguarded);
  `window.MSPointerEvent` and `window.TouchEvent`, which the source tests, are fields of
  `Host`.
* The source is not strict-mode code.  On a host whose `MouseEvent` has the `buttons`
  attribute (a getter without a setter, on the prototype), the assignment
  `pointerEvent.buttons = ...` is ignored and the created event keeps the 0 it reads
  after `initMouseEvent`; on a host without the attribute the assignment creates the
  property.  Which of the two the host is, is a field of `Host`.
* A handler reads its configuration from `e.currentTarget._pointerEvent`.  The
  listeners `InterpretEvents` registers sit on the element it stored the
  configuration on; the three gesture listeners sit on the `e.target` of the
  touch-start, which has a configuration only if it was attached itself.
* A `TypeError` (a property read on `undefined`) and a `throw` end the handler; its
  outcome then has `threw` set and holds what the handler had done up to there.
* The pointer id handed to the capture calls is a number.
-/

namespace PointerEventJS

/-! ## JavaScript values -/

/-- A JavaScript value: `undefined`, `null`, a boolean, a number, a string or a
reference to an object. -/
inductive JSVal where
  | undefined
  | null
  | bool (b : Bool)
  | num (n : Int)
  | str (s : String)
  | obj (ref : Nat)
  deriving DecidableEq, Repr

namespace JSVal

/-- The result of `ToBoolean`: `undefined`, `null`, `false`, `0` and `""` are falsy. -/
def truthy : JSVal → Bool
  | undefined => false
  | null => false
  | bool b => b
  | num n => n != 0
  | str s => s != ""
  | obj _ => true

/-- The operator `a || b`. -/
def or (a b : JSVal) : JSVal := if a.truthy then a else b

/-- The operator `a === b`: same type and same value (objects by reference). -/
def strictEq (a b : JSVal) : Bool := decide (a = b)

/-- A number-typed host field that may be absent. -/
def ofOptInt : Option Int → JSVal
  | none => undefined
  | some n => num n

/-- An element-or-null host field. -/
def ofOptRef : Option Nat → JSVal
  | none => null
  | some r => obj r

/-- An optional boolean property. -/
def ofOptBool : Option Bool → JSVal
  | none => undefined
  | some b => bool b

end JSVal

/-! ## Dictionaries -/

/-- An object used as a dictionary: its own properties in insertion order. -/
abbrev Dict (κ α : Type) := List (κ × α)

namespace Dict

variable {κ α : Type} [DecidableEq κ]

/-- The read `d[k]`; `none` stands for `undefined`. -/
def get : Dict κ α → κ → Option α
  | [], _ => none
  | (k', v) :: d, k => if k' = k then some v else get d k

/-- The test `k in d`. -/
def has (d : Dict κ α) (k : κ) : Bool := (get d k).isSome

/-- The write `d[k] = v`: an existing property keeps its place, a new one goes last. -/
def set : Dict κ α → κ → α → Dict κ α
  | [], k, v => [(k, v)]
  | (k', v') :: d, k, v => if k' = k then (k', v) :: d else (k', v') :: set d k v

/-- The statement `delete d[k]`. -/
def del : Dict κ α → κ → Dict κ α
  | [], _ => []
  | (k', v) :: d, k => if k' = k then del d k else (k', v) :: del d k

end Dict

/-! ## Constants -/

def POINTER_TYPE_UNAVAILABLE : String := ""
def POINTER_TYPE_TOUCH : String := "touch"
def POINTER_TYPE_PEN : String := "pen"
def POINTER_TYPE_MOUSE : String := "mouse"

def POINTER_OVER : String := "pointerover"
def POINTER_ENTER : String := "pointerenter"
def POINTER_DOWN : String := "pointerdown"
def POINTER_MOVE : String := "pointermove"
def POINTER_UP : String := "pointerup"
def POINTER_CANCEL : String := "pointercancel"
def POINTER_OUT : String := "pointerout"
def POINTER_LEAVE : String := "pointerleave"
def GOT_POINTER_CAPTURE : String := "gotpointercapture"
def LOST_POINTER_CAPTURE : String := "lostpointercapture"

/-- The ten canonical event kinds, the string constants of the class. -/
def canonicalKinds : List String :=
  [POINTER_OVER, POINTER_ENTER, POINTER_DOWN, POINTER_MOVE, POINTER_UP, POINTER_CANCEL,
   POINTER_OUT, POINTER_LEAVE, GOT_POINTER_CAPTURE, LOST_POINTER_CAPTURE]

/-- Microsoft pointer event names to w3c event names. -/
def _MS2W3C : Dict String String :=
  [("MSPointerDown", "pointerdown"), ("MSPointerUp", "pointerup"),
   ("MSPointerCancel", "pointercancel"), ("MSPointerMove", "pointermove"),
   ("MSPointerOver", "pointerover"), ("MSPointerOut", "pointerout"),
   ("MSPointerEnter", "pointerenter"), ("MSPointerLeave", "pointerleave"),
   ("MSGotPointerCapture", "gotpointercapture"),
   ("MSLostPointerCapture", "lostpointercapture")]

/-- MouseEvent names to w3c pointer event names. -/
def _ME2W3C : Dict String String :=
  [("mousedown", "pointerdown"), ("mouseup", "pointerup"), ("mousemove", "pointermove"),
   ("mouseenter", "pointerenter"), ("mouseover", "pointerover"), ("mouseout", "pointerout"),
   ("mouseleave", "pointerleave")]

/-- The `button` of a mouse event to its bit of the `buttons` bitmask. -/
def _mouseButton2Bitmask : Dict Int Int := [(0, 1), (1, 4), (2, 2)]

/-- A table read `table[name]` as the value the source obtains. -/
def kindOf (table : Dict String String) (name : String) : JSVal :=
  match Dict.get table name with
  | none => JSVal.undefined
  | some k => JSVal.str k

/-! ## The engine state -/

/-- One entry of `_pointers`.  The source creates `{capturePointer: null}` for the mouse
and `{touchIdentifier, capturePointer: null}` for a contact; `buttons` and
`mouseCanceled` appear when they are first assigned. -/
structure PointerState where
  /-- The element capturing the pointer, or `null`. -/
  capturePointer : Option Nat
  /-- The host touch identifier this state was created for. -/
  touchIdentifier : Option Int
  /-- The mouse buttons bitmask; `none` until the first toggle. -/
  buttons : Option Int
  /-- The prevented status of the contact's pointerdown, once recorded. -/
  mouseCanceled : Option Bool
  deriving DecidableEq, Repr

/-- The statics of the class. -/
structure Engine where
  _pointerId : Nat
  _pointers : Dict Nat PointerState
  /-- Touch identifier to pointerId. -/
  _T2P : Dict Int Nat
  /-- MSPointerEvent pointerId to pointerId. -/
  _MSP2P : Dict Int Nat
  _TCurrentTouch : Nat
  deriving DecidableEq, Repr

/-- The statics as the class declaration leaves them. -/
def Engine.init : Engine where
  _pointerId := 2
  _pointers := [(1, ⟨none, none, none, none⟩)]
  _T2P := []
  _MSP2P := []
  _TCurrentTouch := 0

/-- What the host provides: whether `window.MSPointerEvent` and `window.TouchEvent`
exist, and whether `MouseEvent.prototype` has the read-only attribute `buttons`.  On a
host that has it every MouseEvent, native or created, has a `buttons`, and an
assignment to it is ignored; on a host without it no MouseEvent has the property until
one is assigned. -/
structure Host where
  hasMSPointerEvent : Bool
  hasTouchEvent : Bool
  hasMouseEventButtons : Bool
  deriving DecidableEq, Repr

/-! ## Raw occurrences -/

/-- One entry of `changedTouches`.  The radii and the force are not provided by every
host, so they may be absent. -/
structure Touch where
  identifier : Int
  target : Nat
  screenX : Int
  screenY : Int
  clientX : Int
  clientY : Int
  radiusX : Option Int
  radiusY : Option Int
  force : Option Int
  deriving DecidableEq, Repr

/-- A native event as a handler or the constructor receives it.  The three `is...`
fields are the results of the `instanceof` tests of the constructor; the other fields
are the properties the source reads, each meaningful for the shapes that carry it. -/
structure RawEvent where
  /-- The test `e instanceof MouseEvent`. -/
  isMouseEvent : Bool
  /-- The test `e instanceof TouchEvent`. -/
  isTouchEvent : Bool
  /-- The test `e instanceof MSPointerEvent`. -/
  isMSPointerEvent : Bool
  type : String
  target : Nat
  bubbles : Bool
  cancelable : Bool
  view : JSVal
  detail : Int
  screenX : Int
  screenY : Int
  clientX : Int
  clientY : Int
  ctrlKey : Bool
  altKey : Bool
  shiftKey : Bool
  metaKey : Bool
  button : Int
  /-- The native `buttons`; `none` when the event has no such property. -/
  buttons : Option Int
  relatedTarget : Option Nat
  changedTouches : List Touch
  /-- The vendor payload of an MSPointerEvent. -/
  pointerId : Int
  width : Int
  height : Int
  pressure : Int
  tiltX : Int
  tiltY : Int
  pointerType : JSVal
  isPrimary : Bool
  deriving DecidableEq, Repr

/-- The second argument of the constructor; a property that was not supplied reads
`undefined` (`none` for the two object-valued ones). -/
structure Props where
  baseEvent : Option RawEvent
  touch : Option Touch
  bubbles : JSVal
  cancelable : JSVal
  relatedTarget : JSVal
  pointerId : JSVal
  width : JSVal
  height : JSVal
  pressure : JSVal
  tiltX : JSVal
  tiltY : JSVal
  pointerType : JSVal
  isPrimary : JSVal
  deriving DecidableEq, Repr

/-- The empty object `{}` that replaces a missing `props`. -/
def Props.empty : Props :=
  ⟨none, none, .undefined, .undefined, .undefined, .undefined, .undefined, .undefined,
   .undefined, .undefined, .undefined, .undefined, .undefined⟩

/-- The `props` the touch handlers build: `{baseEvent: e, touch: touch}`. -/
def Props.ofTouch (e : RawEvent) (touch : Touch) : Props :=
  { Props.empty with baseEvent := some e, touch := some touch }

/-! ## Synthesized events -/

/-- The event the constructor returns: the arguments it passed to `initMouseEvent`,
what its `buttons` reads and the eight read-only properties it defined. -/
structure CanonicalEvent where
  /-- The kind handed to `initMouseEvent`; `undefined` when the caller had none. -/
  type : JSVal
  bubbles : Bool
  cancelable : Bool
  view : JSVal
  detail : JSVal
  screenX : JSVal
  screenY : JSVal
  clientX : JSVal
  clientY : JSVal
  ctrlKey : Bool
  altKey : Bool
  shiftKey : Bool
  metaKey : Bool
  button : JSVal
  relatedTarget : JSVal
  buttons : JSVal
  pointerId : JSVal
  width : JSVal
  height : JSVal
  pressure : JSVal
  tiltX : JSVal
  tiltY : JSVal
  pointerType : JSVal
  isPrimary : JSVal
  baseEvent : Option RawEvent
  deriving DecidableEq, Repr

/-- The reference of the global `window`. -/
def window : JSVal := JSVal.obj 0

/-- A property name that is an array index: the numeral of an integer from 0 to
2^32 - 2.  A `for ... in` loop visits such names first, in ascending order. -/
def isArrayIndex (k : Int) : Bool := decide (0 ≤ k ∧ k < 4294967295)

/-- The first property name a `for (var key in d)` loop visits: the least array index
if there is one, else the oldest property. -/
def firstKey (d : Dict Int Nat) : Option Int :=
  match (d.map Prod.fst).filter isArrayIndex with
  | [] => (d.map Prod.fst).head?
  | k :: ks => some (ks.foldl min k)

/-- The event `document.createEvent("MouseEvent")` returns, with the eight locals of
the constructor still unset.  Its `buttons` reads 0 where the host's MouseEvent has the
attribute and `undefined` where it has not. -/
def createEvent (host : Host) : CanonicalEvent where
  type := .str ""
  bubbles := false
  cancelable := false
  view := .null
  detail := .num 0
  screenX := .num 0
  screenY := .num 0
  clientX := .num 0
  clientY := .num 0
  ctrlKey := false
  altKey := false
  shiftKey := false
  metaKey := false
  button := .num 0
  relatedTarget := .null
  buttons := if host.hasMouseEventButtons then .num 0 else .undefined
  pointerId := .undefined
  width := .undefined
  height := .undefined
  pressure := .undefined
  tiltX := .undefined
  tiltY := .undefined
  pointerType := .undefined
  isPrimary := .undefined
  baseEvent := none

/-- The branch `baseEvent instanceof MouseEvent` of the constructor.  The read of
`_pointers[1].buttons` happens only when the native `buttons` is falsy, and raises
when the registry has no entry 1 (`none`).  The value is assigned to
`pointerEvent.buttons`: where the host's MouseEvent has the read-only attribute the
assignment is ignored and `buttons` stays as `initMouseEvent` left it. -/
def mouseBranch (host : Host) (s : Engine) (type : JSVal) (bubbles cancelable : Bool)
    (props : Props) (e : RawEvent) (ev : CanonicalEvent) : Option CanonicalEvent :=
  let ev1 : CanonicalEvent :=
    { ev with
      type := type, bubbles := bubbles, cancelable := cancelable,
      view := e.view, detail := .num e.detail,
      screenX := .num e.screenX, screenY := .num e.screenY,
      clientX := .num e.clientX, clientY := .num e.clientY,
      ctrlKey := e.ctrlKey, altKey := e.altKey, shiftKey := e.shiftKey, metaKey := e.metaKey,
      button := .num e.button,
      relatedTarget := (props.relatedTarget.or (JSVal.ofOptRef e.relatedTarget)).or .null }
  let fixed (buttons : JSVal) : CanonicalEvent :=
    { ev1 with
      buttons := if host.hasMouseEventButtons then ev1.buttons else buttons,
      pointerId := .num 1, width := .num 1, height := .num 1,
      pointerType := .str POINTER_TYPE_MOUSE, isPrimary := .bool true }
  if (JSVal.ofOptInt e.buttons).truthy then some (fixed (JSVal.ofOptInt e.buttons))
  else
    match Dict.get s._pointers 1 with
    | none => none
    | some mouse => some (fixed (JSVal.ofOptInt mouse.buttons))

/-- The property `touch.identifier` of `props.touch || {}`. -/
def touchIdentifierOf : Option Touch → JSVal
  | none => .undefined
  | some t => .num t.identifier

/-- The read `PointerEvent._T2P[touch.identifier]`. -/
def touchPointerId (s : Engine) : Option Touch → JSVal
  | none => .undefined
  | some t =>
    match Dict.get s._T2P t.identifier with
    | none => .undefined
    | some p => .num p

/-- The loop `for(var key in _T2P){ isPrimary = touch.identifier === key; break; }`:
the key is a property name, a string. -/
def primaryLoop (s : Engine) (touch : Option Touch) (isPrimary : JSVal) : JSVal :=
  match firstKey s._T2P with
  | none => isPrimary
  | some key => .bool ((touchIdentifierOf touch).strictEq (.str (toString key)))

/-- The branch `baseEvent instanceof TouchEvent` of the constructor. -/
def touchBranch (s : Engine) (type : JSVal) (bubbles cancelable : Bool) (props : Props)
    (e : RawEvent) (ev : CanonicalEvent) : CanonicalEvent :=
  let coord (f : Touch → Int) : JSVal :=
    match props.touch with
    | none => .undefined
    | some t => .num (f t)
  let opt (f : Touch → Option Int) : JSVal :=
    match props.touch with
    | none => .undefined
    | some t => JSVal.ofOptInt (f t)
  { ev with
    type := type, bubbles := bubbles, cancelable := cancelable,
    view := window, detail := .num 1,
    screenX := coord Touch.screenX, screenY := coord Touch.screenY,
    clientX := coord Touch.clientX, clientY := coord Touch.clientY,
    ctrlKey := e.ctrlKey, altKey := e.altKey, shiftKey := e.shiftKey, metaKey := e.metaKey,
    button := .num 0,
    relatedTarget := props.relatedTarget.or .null,
    pointerId := touchPointerId s props.touch,
    pointerType := .str POINTER_TYPE_TOUCH,
    width := opt Touch.radiusX,
    height := opt Touch.radiusY,
    pressure := opt Touch.force,
    isPrimary := primaryLoop s props.touch ev.isPrimary }

/-- The `switch(baseEvent.pointerType)` of the vendor branch; a code other than 1 to 4
leaves `pointerType` as it was. -/
def vendorPointerType (code current : JSVal) : JSVal :=
  if code.strictEq (.num 1) then .str POINTER_TYPE_UNAVAILABLE
  else if code.strictEq (.num 2) then .str POINTER_TYPE_TOUCH
  else if code.strictEq (.num 3) then .str POINTER_TYPE_PEN
  else if code.strictEq (.num 4) then .str POINTER_TYPE_MOUSE
  else current

/-- The branch `window.MSPointerEvent && baseEvent instanceof MSPointerEvent`. -/
def vendorBranch (s : Engine) (e : RawEvent) (ev : CanonicalEvent) : CanonicalEvent :=
  { ev with
    pointerId := JSVal.ofOptInt ((Dict.get s._MSP2P e.pointerId).map Int.ofNat),
    width := .num e.width, height := .num e.height, pressure := .num e.pressure,
    tiltX := .num e.tiltX, tiltY := .num e.tiltY,
    pointerType := vendorPointerType e.pointerType ev.pointerType,
    isPrimary := .bool e.isPrimary }

/-- The created event together with the eight locals as the `var` statement of the
constructor initialises them from `props`. -/
def defaultsOf (host : Host) (props : Props) : CanonicalEvent :=
  { createEvent host with
    pointerId := props.pointerId.or (.num 0),
    width := props.width.or (.num 0),
    height := props.height.or (.num 0),
    pressure := props.pressure.or (.num 0),
    tiltX := props.tiltX.or (.num 0),
    tiltY := props.tiltY.or (.num 0),
    pointerType := props.pointerType.or (.str POINTER_TYPE_UNAVAILABLE),
    isPrimary := props.isPrimary.or (.bool false),
    baseEvent := props.baseEvent }

/-- The constructor `PointerEvent(type, props)`.  The result is `none` when the
constructor raises. -/
def PointerEvent (host : Host) (s : Engine) (type : JSVal) (props? : Option Props) :
    Option CanonicalEvent :=
  let props := props?.getD Props.empty
  let bubbles := props.bubbles.truthy
  let cancelable := props.cancelable.truthy
  let ev0 : CanonicalEvent := defaultsOf host props
  match props.baseEvent with
  | none => some ev0
  | some e =>
    let ev1? : Option CanonicalEvent :=
      if e.isMouseEvent then mouseBranch host s type bubbles cancelable props e ev0
      else if e.isTouchEvent then some (touchBranch s type bubbles cancelable props e ev0)
      else some ev0
    match ev1? with
    | none => none
    | some ev1 =>
      if host.hasMSPointerEvent && e.isMSPointerEvent then some (vendorBranch s e ev1)
      else some ev1

/-! ## Targets, listeners and outcomes -/

/-- The options object of `InterpretEvents`; a property that was not supplied reads
`undefined`. -/
structure Options where
  stopBaseEvent : JSVal
  stopCompatibilityEvents : JSVal
  deriving DecidableEq, Repr

/-- The object `element._pointerEvent`: `{opts: options}`, to which the touch handlers
add `lastTouch`. -/
structure TargetData where
  opts : Options
  /-- The time of the last touch occurrence; `none` until one is handled. -/
  lastTouch : Option Int
  deriving DecidableEq, Repr

/-- The handlers of the class that get registered as listeners. -/
inductive HandlerName where
  | _msPointerCatch
  | _mouseCatch
  | _mouseClick
  | _touchStart
  | _touchMove
  | _touchEnd
  | _touchCancel
  deriving DecidableEq, Repr

/-- One registration `addEventListener(type, handler, useCapture)`. -/
structure Listener where
  type : String
  handler : HandlerName
  useCapture : Bool
  deriving DecidableEq, Repr

/-- The host's `addEventListener`: a registration already present is not repeated. -/
def addEventListener (ls : List Listener) (l : Listener) : List Listener :=
  if l ∈ ls then ls else ls ++ [l]

/-- The host's `removeEventListener`. -/
def removeEventListener (ls : List Listener) (l : Listener) : List Listener :=
  ls.erase l

/-- An element as the attach and detach operations see it. -/
structure Element where
  /-- The test `element instanceof EventTarget`. -/
  isEventTarget : Bool
  /-- The property `_pointerEvent`, absent until an attach stores it. -/
  _pointerEvent : Option TargetData
  /-- The property `_pointerEventOpts`, which only `RemoveInterpretation` mentions. -/
  _pointerEventOpts : Option Options
  listeners : List Listener
  deriving DecidableEq, Repr

/-- The host's listeners, seen through their feedback: `L target eve` says whether a
listener reached by `target.dispatchEvent(eve)` calls `eve.preventDefault()`. -/
abbrev Listeners := Nat → CanonicalEvent → Bool

/-- The read `eve.defaultPrevented` after `target.dispatchEvent(eve)`: the host sets the
flag when a listener calls `preventDefault()` and the event is cancelable. -/
def defaultPreventedAfter (L : Listeners) (target : Nat) (eve : CanonicalEvent) : Bool :=
  eve.cancelable && L target eve

/-- One call `target.dispatchEvent(event)`. -/
structure Dispatched where
  target : Nat
  event : CanonicalEvent
  deriving DecidableEq, Repr

/-- What a raw-occurrence handler did. -/
structure Outcome where
  /-- The statics when the handler returned or raised. -/
  state : Engine
  /-- The object `e.currentTarget._pointerEvent` afterwards; `none` when the element has
  no such property. -/
  data : Option TargetData
  /-- The listeners registered on `e.target` afterwards. -/
  targetListeners : List Listener
  /-- The synthesized events, in dispatch order. -/
  dispatched : List Dispatched
  /-- Whether `e.preventDefault()` was called. -/
  defaultPrevented : Bool
  /-- Whether `e.stopImmediatePropagation()` was called. -/
  propagationStopped : Bool
  /-- Whether the handler raised instead of returning. -/
  threw : Bool
  deriving DecidableEq, Repr

/-- The kinds of the dispatched events, in order. -/
def Outcome.kinds (o : Outcome) : List JSVal := o.dispatched.map (fun d => d.event.type)

/-! ## Bit operations -/

/-- The 32-bit pattern `ToInt32` gives an operand of `^`; `undefined` converts to 0. -/
def toUint32 : Option Int → Nat
  | none => 0
  | some n => (n % 4294967296).toNat

/-- The signed reading of a 32-bit pattern. -/
def ofUint32 (u : Nat) : Int :=
  if u < 2147483648 then (u : Int) else (u : Int) - 4294967296

/-- The operator `a ^ b`. -/
def xor32 (a b : Option Int) : Int := ofUint32 (toUint32 a ^^^ toUint32 b)

/-! ## Attach and detach -/

/-- What `InterpretEvents` or `RemoveInterpretation` did to the element. -/
structure AttachOutcome where
  element : Element
  threw : Bool
  deriving DecidableEq, Repr

/-- The names `InterpretEvents` registers `_msPointerCatch` for. -/
def msPointerNames : List String :=
  ["MSPointerOver", "MSPointerDown", "MSPointerMove", "MSPointerCancel", "MSPointerOut",
   "MSPointerUp"]

/-- The names `InterpretEvents` registers `_mouseCatch` for. -/
def mouseNames : List String :=
  ["mousedown", "mousemove", "mouseenter", "mouseover", "mouseout", "mouseleave", "mouseup",
   "click"]

/-- The names `RemoveInterpretation` unregisters `_mouseCatch` for. -/
def mouseNamesRemoved : List String :=
  ["mousedown", "mousemove", "mouseover", "mouseout", "mouseup", "click"]

/-- Registers `handler` for each of `names`, capturing. -/
def addAll (ls : List Listener) (names : List String) (handler : HandlerName) :
    List Listener :=
  names.foldl (fun acc n => addEventListener acc ⟨n, handler, true⟩) ls

/-- Unregisters `handler` for each of `names`, capturing. -/
def removeAll (ls : List Listener) (names : List String) (handler : HandlerName) :
    List Listener :=
  names.foldl (fun acc n => removeEventListener acc ⟨n, handler, true⟩) ls

/-- The defaulting `(v !== undefined) ? v : true` of one option. -/
def optionOrTrue (v : JSVal) : JSVal := if v.strictEq .undefined then .bool true else v

/-- The method `InterpretEvents(element, options)`. -/
def InterpretEvents (host : Host) (element : Element) (options? : Option Options) :
    AttachOutcome :=
  let options := options?.getD ⟨.undefined, .undefined⟩
  let options : Options :=
    ⟨optionOrTrue options.stopBaseEvent, optionOrTrue options.stopCompatibilityEvents⟩
  if !element.isEventTarget then ⟨element, true⟩
  else
    let ls := element.listeners
    let ls := if host.hasMSPointerEvent then addAll ls msPointerNames ._msPointerCatch else ls
    let ls := if host.hasTouchEvent then addAll ls ["touchstart"] ._touchStart else ls
    let ls := addAll ls mouseNames ._mouseCatch
    ⟨{ element with _pointerEvent := some ⟨options, none⟩, listeners := ls }, false⟩

/-- The method `RemoveInterpretation(element)`. -/
def RemoveInterpretation (host : Host) (element : Element) : AttachOutcome :=
  match element._pointerEventOpts with
  | none => ⟨element, false⟩
  | some _ =>
    let ls := element.listeners
    let ls :=
      if host.hasMSPointerEvent then removeAll ls msPointerNames ._msPointerCatch
      else if host.hasTouchEvent then removeAll ls ["touchstart"] ._touchStart
      else ls
    let ls := removeAll ls mouseNamesRemoved ._mouseCatch
    ⟨{ element with _pointerEventOpts := none, listeners := ls }, false⟩

/-! ## Capture -/

/-- What `_bindPointer` or `_unbindPointer` did: the statics afterwards, the
notifications dispatched as (element, event name) and whether the call raised. -/
structure CaptureOutcome where
  state : Engine
  notified : List (Nat × String)
  threw : Bool
  deriving DecidableEq, Repr

/-- The method `_bindPointer(pointerId, element)`. -/
def _bindPointer (s : Engine) (pointerId : Nat) (element : Nat) : CaptureOutcome :=
  match Dict.get s._pointers pointerId with
  | none => ⟨s, [], true⟩
  | some st =>
    ⟨{ s with _pointers := Dict.set s._pointers pointerId { st with capturePointer := some element } },
     [(element, "gotpointercapture")], false⟩

/-- The method `_unbindPointer(pointerId, element)`. -/
def _unbindPointer (s : Engine) (pointerId : Nat) (element : Nat) : CaptureOutcome :=
  match Dict.get s._pointers pointerId with
  | none => ⟨s, [], true⟩
  | some st =>
    ⟨{ s with _pointers := Dict.set s._pointers pointerId { st with capturePointer := none } },
     [(element, "lostpointercapture")], false⟩

/-- The method `Element.prototype.setPointerCapture`, called on `element`. -/
def setPointerCapture (s : Engine) (element : Nat) (pointerId : Nat) : CaptureOutcome :=
  _bindPointer s pointerId element

/-- The method `Element.prototype.releasePointerCapture`, called on `element`. -/
def releasePointerCapture (s : Engine) (element : Nat) (pointerId : Nat) : CaptureOutcome :=
  _unbindPointer s pointerId element

/-! ## Event catchers -/

/-- The handler `_msPointerCatch`; `d` is `e.currentTarget._pointerEvent`, which
`InterpretEvents` stored on the element it registered the listener on. -/
def _msPointerCatch (host : Host) (L : Listeners) (s : Engine) (d : TargetData)
    (ls : List Listener) (e : RawEvent) : Outcome :=
  let stopped := d.opts.stopBaseEvent.truthy
  let props : Props :=
    { Props.empty with
      bubbles := .bool e.bubbles, cancelable := .bool e.cancelable, baseEvent := some e }
  match PointerEvent host s (kindOf _MS2W3C e.type) (some props) with
  | none => ⟨s, some d, ls, [], false, stopped, true⟩
  | some eve =>
    ⟨s, some d, ls, [⟨e.target, eve⟩], defaultPreventedAfter L e.target eve, stopped, false⟩

/-- The test `Date.now() - _pointerEvent.lastTouch < 400`.  Without a recorded
`lastTouch` the difference is `NaN`, which is not less than 400. -/
def isCompatibility (now : Int) (lastTouch : Option Int) : Bool :=
  match lastTouch with
  | none => false
  | some t => decide (now - t < 400)

/-- The statement `_pointers[1].buttons ^= _mouseButton2Bitmask[e.button]`, executed when
the event has no `buttons` and is a mousedown or a mouseup; `none` when it raises. -/
def trackButtons (s : Engine) (e : RawEvent) : Option Engine :=
  if e.buttons.isNone && (e.type == "mousedown" || e.type == "mouseup") then
    match Dict.get s._pointers 1 with
    | none => none
    | some mouse =>
      some { s with
        _pointers := Dict.set s._pointers 1
          { mouse with
            buttons := some (xor32 mouse.buttons (Dict.get _mouseButton2Bitmask e.button)) } }
  else some s

/-- The handler `_mouseCatch`; `d` is `e.currentTarget._pointerEvent`, which
`InterpretEvents` stored on the element it registered the listener on. -/
def _mouseCatch (host : Host) (L : Listeners) (now : Int) (s : Engine) (d : TargetData)
    (ls : List Listener) (e : RawEvent) : Outcome :=
  if isCompatibility now d.lastTouch then
    ⟨s, some d, ls, [], false, d.opts.stopCompatibilityEvents.truthy, false⟩
  else
    let stopped := d.opts.stopBaseEvent.truthy
    match trackButtons s e with
    | none => ⟨s, some d, ls, [], false, stopped, true⟩
    | some s1 =>
      match Dict.get s1._pointers 1 with
      | none => ⟨s1, some d, ls, [], false, stopped, true⟩
      | some mouse =>
        let target := mouse.capturePointer.getD e.target
        let props : Props :=
          { Props.empty with
            baseEvent := some e, bubbles := .bool e.bubbles, cancelable := .bool e.cancelable,
            relatedTarget := if target ≠ e.target then .null else .undefined }
        match PointerEvent host s1 (kindOf _ME2W3C e.type) (some props) with
        | none => ⟨s1, some d, ls, [], false, stopped, true⟩
        | some eve =>
          ⟨s1, some d, ls, [⟨target, eve⟩], defaultPreventedAfter L target eve, stopped, false⟩

/-- The handler `_mouseClick`, which no registration uses. -/
def _mouseClick (now : Int) (s : Engine) (d : TargetData) (ls : List Listener) : Outcome :=
  ⟨s, some d, ls, [], false,
   (isCompatibility now d.lastTouch && d.opts.stopCompatibilityEvents.truthy)
     || d.opts.stopBaseEvent.truthy, false⟩

/-! ## Touch listeners -/

/-- The three registrations `_touchStart` makes on `e.target`. -/
def gestureListeners : List Listener :=
  [⟨"touchmove", ._touchMove, true⟩, ⟨"touchend", ._touchEnd, true⟩,
   ⟨"touchcancel", ._touchCancel, true⟩]

/-- The statement `_TCurrentTouch++` that ends one round of a touch loop. -/
def Engine.next (s : Engine) : Engine := { s with _TCurrentTouch := s._TCurrentTouch + 1 }

/-- The start of every touch handler: stop the raw event if configured, record
`lastTouch`, and enter the loop with `_TCurrentTouch = 0`. -/
def touchEntry (now : Int) (s : Engine) (d : TargetData) (ls : List Listener) : Outcome :=
  ⟨{ s with _TCurrentTouch := 0 }, some { d with lastTouch := some now }, ls, [], false,
   d.opts.stopBaseEvent.truthy, false⟩

/-- What `_touchStart` has done when it enters its loop: the common start, and the three
gesture listeners registered on `e.target`. -/
def touchStartEntry (now : Int) (s : Engine) (d : TargetData) (ls : List Listener) : Outcome :=
  { touchEntry now s d ls with
    targetListeners := gestureListeners.foldl addEventListener ls }

/-- The loop of `_touchStart` over the contacts of `changedTouches` not yet visited. -/
def touchStartLoop (host : Host) (L : Listeners) (e : RawEvent) :
    List Touch → Outcome → Outcome
  | [], o => o
  | touch :: rest, o =>
    let s := o.state
    if Dict.has s._T2P touch.identifier then touchStartLoop host L e rest { o with state := s.next }
    else
      let s1 : Engine :=
        { s with
          _T2P := Dict.set s._T2P touch.identifier s._pointerId, _pointerId := s._pointerId + 1 }
      let pointer : PointerState := ⟨none, some touch.identifier, none, none⟩
      let s2 : Engine :=
        { s1 with _pointers := Dict.set s1._pointers (s1._pointerId - 1) pointer }
      match PointerEvent host s2 (.str POINTER_OVER) (some (Props.ofTouch e touch)),
            PointerEvent host s2 (.str POINTER_DOWN) (some (Props.ofTouch e touch)) with
      | some pO, some pD =>
        let target := pointer.capturePointer.getD e.target
        let prevented := defaultPreventedAfter L target pD
        -- `pointer` is the object stored at `_pointers[_pointerId-1]`
        let s3 : Engine :=
          { s2 with
            _pointers := Dict.set s2._pointers (s2._pointerId - 1)
              { pointer with mouseCanceled := some prevented } }
        touchStartLoop host L e rest
          { o with
            state := s3.next,
            dispatched := o.dispatched ++ [⟨e.target, pO⟩, ⟨target, pD⟩],
            defaultPrevented := o.defaultPrevented || prevented }
      | _, _ => { o with state := s2, threw := true }

/-- The handler `_touchStart`; `d` is `e.currentTarget._pointerEvent`, which
`InterpretEvents` stored on the element it registered the listener on, and `ls` are the
listeners of `e.target`. -/
def _touchStart (host : Host) (L : Listeners) (now : Int) (s : Engine) (d : TargetData)
    (ls : List Listener) (e : RawEvent) : Outcome :=
  touchStartLoop host L e e.changedTouches (touchStartEntry now s d ls)

/-- The read `_pointers[_T2P[touch.identifier]]`; `none` stands for `undefined`. -/
def pointerOf (s : Engine) (touch : Touch) : Option PointerState :=
  (Dict.get s._T2P touch.identifier).bind (Dict.get s._pointers)

/-- The loop of `_touchMove`. -/
def touchMoveLoop (host : Host) (L : Listeners) (e : RawEvent) :
    List Touch → Outcome → Outcome
  | [], o => o
  | touch :: rest, o =>
    let s := o.state
    match PointerEvent host s (.str POINTER_MOVE) (some (Props.ofTouch e touch)) with
    | none => { o with threw := true }
    | some pM =>
      match pointerOf s touch with
      | none => { o with threw := true }
      | some pointer =>
        let target := pointer.capturePointer.getD touch.target
        touchMoveLoop host L e rest
          { o with
            state := s.next,
            dispatched := o.dispatched ++ [⟨target, pM⟩],
            defaultPrevented := o.defaultPrevented || defaultPreventedAfter L target pM }

/-- What a handler leaves when its first statements raise: `e.currentTarget` has no
`_pointerEvent`, so the read `_pointerEvent.opts` is a property read on `undefined`. -/
def raisedAtEntry (s : Engine) (ls : List Listener) : Outcome :=
  ⟨s, none, ls, [], false, false, true⟩

/-- The handler `_touchMove`; `d?` is `e.currentTarget._pointerEvent`, where
`e.currentTarget` is the element `_touchStart` registered the listener on: `none` when
that element has no such property, and the handler then raises at once. -/
def _touchMove (host : Host) (L : Listeners) (now : Int) (s : Engine)
    (d? : Option TargetData) (ls : List Listener) (e : RawEvent) : Outcome :=
  match d? with
  | none => raisedAtEntry s ls
  | some d => touchMoveLoop host L e e.changedTouches (touchEntry now s d ls)

/-- The two statements `delete _pointers[_T2P[touch.identifier]]` and
`delete _T2P[touch.identifier]`, for a contact whose identity is `p`. -/
def release (s : Engine) (touch : Touch) (p : Nat) : Engine :=
  { s with _pointers := Dict.del s._pointers p, _T2P := Dict.del s._T2P touch.identifier }

/-- The loop of `_touchEnd`.  Reading `pointer.capturePointer` raises when the contact
has no registry entry, before anything is constructed for it. -/
def touchEndLoop (host : Host) (L : Listeners) (e : RawEvent) :
    List Touch → Outcome → Outcome
  | [], o => o
  | touch :: rest, o =>
    let s := o.state
    match Dict.get s._T2P touch.identifier with
    | none => { o with threw := true }
    | some p =>
      match Dict.get s._pointers p with
      | none => { o with threw := true }
      | some pointer =>
        let target := pointer.capturePointer.getD touch.target
        match PointerEvent host s (.str POINTER_UP) (some (Props.ofTouch e touch)),
              PointerEvent host s (.str POINTER_OUT) (some (Props.ofTouch e touch)) with
        | some pU, some pO =>
          touchEndLoop host L e rest
            { o with
              state := (release s touch p).next,
              dispatched := o.dispatched ++ [⟨target, pU⟩, ⟨target, pO⟩],
              defaultPrevented := o.defaultPrevented ||
                (defaultPreventedAfter L target pU || defaultPreventedAfter L target pO) }
        | _, _ => { o with threw := true }

/-- The handler `_touchEnd`; `d?` is `e.currentTarget._pointerEvent`, `none` when the
element the listener sits on has no such property. -/
def _touchEnd (host : Host) (L : Listeners) (now : Int) (s : Engine)
    (d? : Option TargetData) (ls : List Listener) (e : RawEvent) : Outcome :=
  match d? with
  | none => raisedAtEntry s ls
  | some d =>
    let o := touchEntry now s d ls
    touchEndLoop host L e e.changedTouches
      { o with targetListeners := gestureListeners.foldl removeEventListener o.targetListeners }

/-- The loop of `_touchCancel`. -/
def touchCancelLoop (host : Host) (e : RawEvent) : List Touch → Outcome → Outcome
  | [], o => o
  | touch :: rest, o =>
    let s := o.state
    match Dict.get s._T2P touch.identifier with
    | none => { o with threw := true }
    | some p =>
      match Dict.get s._pointers p with
      | none => { o with threw := true }
      | some pointer =>
        let target := pointer.capturePointer.getD touch.target
        match PointerEvent host s (.str POINTER_UP) (some (Props.ofTouch e touch)),
              PointerEvent host s (.str POINTER_OUT) (some (Props.ofTouch e touch)),
              PointerEvent host s (.str POINTER_CANCEL) (some (Props.ofTouch e touch)) with
        | some pU, some pO, some pC =>
          touchCancelLoop host e rest
            { o with
              state := (release s touch p).next,
              dispatched := o.dispatched ++ [⟨target, pU⟩, ⟨target, pO⟩, ⟨target, pC⟩] }
        | _, _, _ => { o with threw := true }

/-- The handler `_touchCancel`; `d?` is `e.currentTarget._pointerEvent`, `none` when the
element the listener sits on has no such property.  It reads no `defaultPrevented`, so
the listeners' feedback does not enter. -/
def _touchCancel (host : Host) (now : Int) (s : Engine) (d? : Option TargetData)
    (ls : List Listener) (e : RawEvent) : Outcome :=
  match d? with
  | none => raisedAtEntry s ls
  | some d =>
    let o := touchEntry now s d ls
    touchCancelLoop host e e.changedTouches
      { o with targetListeners := gestureListeners.foldl removeEventListener o.targetListeners }

/-! ## Operations and reachable states -/

/-- One operation on the engine: a raw occurrence delivered to a handler, or a capture
call. -/
inductive Op where
  | touchStart (now : Int) (d : TargetData) (ls : List Listener) (e : RawEvent)
  | touchMove (now : Int) (d? : Option TargetData) (ls : List Listener) (e : RawEvent)
  | touchEnd (now : Int) (d? : Option TargetData) (ls : List Listener) (e : RawEvent)
  | touchCancel (now : Int) (d? : Option TargetData) (ls : List Listener) (e : RawEvent)
  | mouse (now : Int) (d : TargetData) (ls : List Listener) (e : RawEvent)
  | msPointer (d : TargetData) (ls : List Listener) (e : RawEvent)
  | setCapture (element pointerId : Nat)
  | releaseCapture (element pointerId : Nat)

/-- The statics after one operation (also when the operation raised part-way). -/
def Op.run (host : Host) (L : Listeners) (s : Engine) : Op → Engine
  | .touchStart now d ls e => (_touchStart host L now s d ls e).state
  | .touchMove now d ls e => (_touchMove host L now s d ls e).state
  | .touchEnd now d ls e => (_touchEnd host L now s d ls e).state
  | .touchCancel now d ls e => (_touchCancel host now s d ls e).state
  | .mouse now d ls e => (_mouseCatch host L now s d ls e).state
  | .msPointer d ls e => (_msPointerCatch host L s d ls e).state
  | .setCapture element pointerId => (setPointerCapture s element pointerId).state
  | .releaseCapture element pointerId => (releasePointerCapture s element pointerId).state

/-- The states the engine can be in: the initial statics, and what any operation makes
of a reachable state, whatever the host and the listeners do. -/
inductive Reachable : Engine → Prop where
  | init : Reachable Engine.init
  | step (host : Host) (L : Listeners) (s : Engine) (op : Op) :
      Reachable s → Reachable (op.run host L s)

/-! ## Observations and the state invariant -/

/-- The read `_pointers[1].buttons`; `none` when it gives `undefined`. -/
def mouseButtons (s : Engine) : Option Int :=
  (Dict.get s._pointers 1).bind PointerState.buttons

/-- The number the operator `^=` reads from a stored bitmask: `undefined` reads as 0. -/
def buttonsValue (buttons : Option Int) : Int := buttons.getD 0

/-- The bit of the `buttons` bitmask the table `_mouseButton2Bitmask` gives buttons 0, 1
and 2. -/
def buttonBit (b : Int) : Nat := if b = 0 then 1 else if b = 1 then 4 else 2

/-- The invariant of the statics. -/
structure Inv (s : Engine) : Prop where
  /-- Identity 1 is registered, and its bitmask, once set, is one of 0 to 7. -/
  mouse : ∃ m, Dict.get s._pointers 1 = some m ∧ ∀ v, m.buttons = some v → 0 ≤ v ∧ v < 8
  /-- The counter is above 1 and above every registered identity. -/
  counter : 2 ≤ s._pointerId ∧ ∀ k st, Dict.get s._pointers k = some st → k < s._pointerId
  /-- Every touch-map value is a registered identity above 1 whose state records the
  contact it is mapped from. -/
  touch : ∀ c p, Dict.get s._T2P c = some p →
    2 ≤ p ∧ ∃ st, Dict.get s._pointers p = some st ∧ st.touchIdentifier = some c
  /-- Nothing ever writes the vendor map. -/
  vendor : s._MSP2P = []

/-- Whether the mouse branch of the constructor runs for these `props`. -/
def Props.runsMouseBranch (p : Props) : Bool :=
  match p.baseEvent with
  | none => false
  | some e => e.isMouseEvent

/-- Whether the touch branch of the constructor runs for these `props`. -/
def Props.runsTouchBranch (p : Props) : Bool :=
  match p.baseEvent with
  | none => false
  | some e => !e.isMouseEvent && e.isTouchEvent

/-- Whether the vendor branch of the constructor runs for these `props`. -/
def Props.runsVendorBranch (host : Host) (p : Props) : Bool :=
  match p.baseEvent with
  | none => false
  | some e => host.hasMSPointerEvent && e.isMSPointerEvent

/-- The event the constructor builds from `{baseEvent: e, touch: touch}` when only its
touch branch runs. -/
def touchEventOf (host : Host) (s : Engine) (type : JSVal) (e : RawEvent) (touch : Touch) :
    CanonicalEvent :=
  touchBranch s type false false (Props.ofTouch e touch) e
    (defaultsOf host (Props.ofTouch e touch))

/-- A TouchEvent: an instance of `TouchEvent` that the constructor takes neither for a
MouseEvent nor, on this host, for a vendor pointer event. -/
def RawEvent.isTouchShaped (host : Host) (e : RawEvent) : Bool :=
  !e.isMouseEvent && e.isTouchEvent && !(host.hasMSPointerEvent && e.isMSPointerEvent)

/-- The statics after `_touchStart` gave the counter to `touch`, created its registry
entry and recorded `canceled` as its `mouseCanceled`. -/
def allocated (s : Engine) (touch : Touch) (canceled : Option Bool) : Engine :=
  { s with
    _T2P := Dict.set s._T2P touch.identifier s._pointerId,
    _pointerId := s._pointerId + 1,
    _pointers := Dict.set s._pointers s._pointerId ⟨none, some touch.identifier, none, canceled⟩ }

/-! ## Sample inputs -/

/-- A host with touch events and without the vendor pointer events, whose MouseEvent
has the `buttons` attribute. -/
def touchHost : Host := ⟨false, true, true⟩

/-- A host with the vendor pointer events, whose MouseEvent has the `buttons`
attribute. -/
def vendorHost : Host := ⟨true, false, true⟩

/-- A host with touch events whose MouseEvent has no `buttons`: its native mouse events
carry none, and the engine tracks the bitmask itself. -/
def legacyHost : Host := ⟨false, true, false⟩

/-- Listeners that never call `preventDefault()`. -/
def quiet : Listeners := fun _ _ => false

/-- Listeners that call `preventDefault()` on every event they receive; the host sets
the flag of the cancelable ones. -/
def preventing : Listeners := fun _ _ => true

/-- An element that is an EventTarget and was never attached: it has no `_pointerEvent`
and no listeners. -/
def plainElement : Element := ⟨true, none, none, []⟩

/-- The configuration an attach with default options stores. -/
def defaultData : TargetData := ⟨⟨.bool true, .bool true⟩, none⟩

/-- A mouse event on element 10 at (3, 4). -/
def sampleMouse (type : String) (button : Int) (buttons : Option Int) : RawEvent where
  isMouseEvent := true
  isTouchEvent := false
  isMSPointerEvent := false
  type := type
  target := 10
  bubbles := true
  cancelable := true
  view := window
  detail := 1
  screenX := 3
  screenY := 4
  clientX := 3
  clientY := 4
  ctrlKey := false
  altKey := false
  shiftKey := false
  metaKey := false
  button := button
  buttons := buttons
  relatedTarget := none
  changedTouches := []
  pointerId := 0
  width := 0
  height := 0
  pressure := 0
  tiltX := 0
  tiltY := 0
  pointerType := .undefined
  isPrimary := false

/-- A contact on element 10 at (10, 20) with radii 5 and 6 and force 1. -/
def sampleTouch (identifier : Int) : Touch :=
  ⟨identifier, 10, 10, 20, 10, 20, some 5, some 6, some 1⟩

/-- A contact on element 10 at (10, 20) from a host that reports no radii and no force. -/
def bareTouch (identifier : Int) : Touch :=
  ⟨identifier, 10, 10, 20, 10, 20, none, none, none⟩

/-- A touch event on element 10 with the given changed contacts. -/
def sampleTouchEvent (type : String) (touches : List Touch) : RawEvent :=
  { sampleMouse type 0 none with
    isMouseEvent := false, isTouchEvent := true, detail := 0, changedTouches := touches }

/-- A vendor pointer event on element 10; the host makes it a MouseEvent as well. -/
def sampleMSPointer (type : String) (pointerId : Int) (code : JSVal) : RawEvent :=
  { sampleMouse type 0 (some 0) with
    isMSPointerEvent := true, pointerId := pointerId, width := 7, height := 8, pressure := 1,
    pointerType := code, isPrimary := true }

/-- A contact on element 11, a descendant of the attached element 10 that was not
attached itself. -/
def descendantTouch (identifier : Int) : Touch :=
  { sampleTouch identifier with target := 11 }

/-- A touch event whose target is element 11. -/
def descendantTouchEvent (type : String) (touches : List Touch) : RawEvent :=
  { sampleTouchEvent type touches with target := 11 }

/-- The touch-start of contact 7 on element 11, handled in the initial state by the
`_touchStart` listener of the attached element 10: `e.currentTarget` is element 10, with
the default configuration, and `e.target` is element 11, which had no listeners. -/
def descendantStarted : Outcome :=
  _touchStart touchHost quiet 1000 Engine.init defaultData plainElement.listeners
    (descendantTouchEvent "touchstart" [descendantTouch 7])

/-! ## Traces -/

/-- The synthesized events one operation dispatched.  The capture calls dispatch
notifications only, which `CaptureOutcome.notified` holds. -/
def Op.dispatched (host : Host) (L : Listeners) (s : Engine) : Op → List Dispatched
  | .touchStart now d ls e => (_touchStart host L now s d ls e).dispatched
  | .touchMove now d ls e => (_touchMove host L now s d ls e).dispatched
  | .touchEnd now d ls e => (_touchEnd host L now s d ls e).dispatched
  | .touchCancel now d ls e => (_touchCancel host now s d ls e).dispatched
  | .mouse now d ls e => (_mouseCatch host L now s d ls e).dispatched
  | .msPointer d ls e => (_msPointerCatch host L s d ls e).dispatched
  | .setCapture _ _ => []
  | .releaseCapture _ _ => []

/-- Operations handled one after the other: the statics at the end and the events
dispatched, in order. -/
def runOps (host : Host) (L : Listeners) : Engine → List Op → Engine × List Dispatched
  | s, [] => (s, [])
  | s, op :: ops =>
    ((runOps host L (op.run host L s) ops).1,
     op.dispatched host L s ++ (runOps host L (op.run host L s) ops).2)

/-- A touch-move occurrence, a TouchEvent whose only changed contact has identifier `c`,
delivered on an element that has a configuration. -/
def Op.isMoveOf (host : Host) (c : Int) : Op → Prop
  | .touchMove _ d? _ e =>
    d?.isSome = true ∧
      e.isTouchShaped host = true ∧ ∃ t, e.changedTouches = [t] ∧ t.identifier = c
  | _ => False

/-! ## Dictionary lemmas -/

namespace Dict

variable {κ α : Type} [DecidableEq κ]

theorem get_set (d : Dict κ α) (k k' : κ) (v : α) :
    get (set d k v) k' = if k = k' then some v else get d k' := by
  induction d with
  | nil =>
    by_cases h : k = k' <;> simp [set, get, h]
  | cons p d ih =>
    obtain ⟨k0, v0⟩ := p
    by_cases h0 : k0 = k
    · subst h0
      by_cases h : k0 = k' <;> simp [set, get, h]
    · by_cases h : k = k'
      · subst h
        simp [set, get, h0, ih]
      · simp [set, get, h0, ih, h]

theorem get_set_same (d : Dict κ α) (k : κ) (v : α) : get (set d k v) k = some v := by
  simp [get_set]

theorem get_set_ne (d : Dict κ α) {k k' : κ} (v : α) (h : k ≠ k') :
    get (set d k v) k' = get d k' := by
  simp [get_set, h]

theorem get_del (d : Dict κ α) (k k' : κ) :
    get (del d k) k' = if k = k' then none else get d k' := by
  induction d with
  | nil => simp [del, get]
  | cons p d ih =>
    obtain ⟨k0, v0⟩ := p
    by_cases h : k = k'
    · subst h
      by_cases h0 : k0 = k
      · simpa [del, h0] using ih
      · simpa [del, get, h0] using ih
    · by_cases h0 : k0 = k
      · subst h0
        simpa [del, get, h] using ih
      · simp [del, get, h0, ih, h]

theorem get_del_same (d : Dict κ α) (k : κ) : get (del d k) k = none := by
  simp [get_del]

theorem get_del_ne (d : Dict κ α) {k k' : κ} (h : k ≠ k') : get (del d k) k' = get d k' := by
  simp [get_del, h]

theorem set_of_get_none (d : Dict κ α) (k : κ) (v : α) (h : get d k = none) :
    set d k v = d ++ [(k, v)] := by
  induction d with
  | nil => rfl
  | cons p d ih =>
    obtain ⟨k0, v0⟩ := p
    by_cases h0 : k0 = k
    · simp [get, h0] at h
    · simp only [get, h0, if_false] at h
      simp [set, h0, ih h]

end Dict

/-! ## Attach -/

/-- C11: `InterpretEvents(element, options)` raises exactly when `element` is not an
EventTarget, and then leaves the element as it was (no configuration stored, no listener
registered).  Otherwise it stores a configuration whose `stopBaseEvent` is the supplied
value whenever one was supplied (any value other than `undefined`, an explicit `false`
included) and `true` when none was, and likewise for `stopCompatibilityEvents`. -/
theorem InterpretEvents_fails_iff_not_target (host : Host) (element : Element)
    (options? : Option Options) :
    ((InterpretEvents host element options?).threw = true ↔ element.isEventTarget = false) ∧
    (element.isEventTarget = false →
      (InterpretEvents host element options?).element = element) ∧
    (element.isEventTarget = true →
      ∃ d, (InterpretEvents host element options?).element._pointerEvent = some d ∧
        (∀ o, options? = some o → o.stopBaseEvent ≠ .undefined →
          d.opts.stopBaseEvent = o.stopBaseEvent) ∧
        (∀ o, options? = some o → o.stopBaseEvent = .bool false →
          d.opts.stopBaseEvent = .bool false) ∧
        ((options? = none ∨ ∃ o, options? = some o ∧ o.stopBaseEvent = .undefined) →
          d.opts.stopBaseEvent = .bool true) ∧
        (∀ o, options? = some o → o.stopCompatibilityEvents ≠ .undefined →
          d.opts.stopCompatibilityEvents = o.stopCompatibilityEvents) ∧
        (∀ o, options? = some o → o.stopCompatibilityEvents = .bool false →
          d.opts.stopCompatibilityEvents = .bool false) ∧
        ((options? = none ∨ ∃ o, options? = some o ∧ o.stopCompatibilityEvents = .undefined) →
          d.opts.stopCompatibilityEvents = .bool true)) := by
  refine ⟨?_, ?_, ?_⟩
  · cases h : element.isEventTarget <;> simp [InterpretEvents, h]
  · intro h
    simp [InterpretEvents, h]
  · intro h
    refine ⟨_, by simp [InterpretEvents, h]; rfl, ?_, ?_, ?_, ?_, ?_, ?_⟩
    · rintro o rfl ho
      simp [optionOrTrue, JSVal.strictEq, ho]
    · rintro o rfl ho
      simp [optionOrTrue, JSVal.strictEq, ho]
    · rintro (rfl | ⟨o, rfl, ho⟩)
      · simp [optionOrTrue, JSVal.strictEq]
      · simp [optionOrTrue, JSVal.strictEq, ho]
    · rintro o rfl ho
      simp [optionOrTrue, JSVal.strictEq, ho]
    · rintro o rfl ho
      simp [optionOrTrue, JSVal.strictEq, ho]
    · rintro (rfl | ⟨o, rfl, ho⟩)
      · simp [optionOrTrue, JSVal.strictEq]
      · simp [optionOrTrue, JSVal.strictEq, ho]


/-! ## The invariant -/

theorem Inv.init : Inv Engine.init := by
  refine ⟨⟨_, rfl, by simp⟩, ⟨le_refl _, ?_⟩, ?_, rfl⟩
  · intro k st h
    simp only [Engine.init, Dict.get] at h
    split_ifs at h with hk
    · simp only [Engine.init]
      omega
  · intro c p h
    simp [Engine.init, Dict.get] at h

theorem Inv.congr {s s' : Engine} (h : Inv s) (h1 : s'._pointerId = s._pointerId)
    (h2 : s'._pointers = s._pointers) (h3 : s'._T2P = s._T2P) (h4 : s'._MSP2P = s._MSP2P) :
    Inv s' := by
  obtain ⟨hm, hc, ht, hv⟩ := h
  exact ⟨by rw [h2]; exact hm, by rw [h1, h2]; exact hc, by rw [h2, h3]; exact ht,
    by rw [h4]; exact hv⟩

theorem Inv.next {s : Engine} (h : Inv s) : Inv s.next := h.congr rfl rfl rfl rfl

/-- Allocating the counter to an untracked contact keeps the invariant, whatever is
recorded as `mouseCanceled`. -/
theorem Inv.allocate {s : Engine} (h : Inv s) (c : Int) (mc : Option Bool) :
        Inv { s with
      _T2P := Dict.set s._T2P c s._pointerId,
      _pointerId := s._pointerId + 1,
      _pointers := Dict.set s._pointers s._pointerId ⟨none, some c, none, mc⟩ } := by
  obtain ⟨⟨m, hm, hmb⟩, ⟨h2, hk⟩, ht, hv⟩ := h
  have h1 : s._pointerId ≠ 1 := by omega
  refine ⟨⟨m, ?_, hmb⟩, ⟨by simp; omega, ?_⟩, ?_, hv⟩
  · simp [Dict.get_set, h1, hm]
  · intro k st hget
    simp only [Dict.get_set] at hget
    split_ifs at hget with hk'
    · simp; omega
    · have := hk k st hget
      simp; omega
  · intro c' p hget
    simp only [Dict.get_set] at hget ⊢
    split_ifs at hget with hc'
    · subst hc'
      simp at hget
      subst hget
      exact ⟨h2, by simp⟩
    · obtain ⟨hp2, st, hst, hid⟩ := ht c' p hget
      have hlt := hk p st hst
      have hne : s._pointerId ≠ p := by omega
      exact ⟨hp2, st, by simp [hne, hst], hid⟩

/-- Releasing a tracked contact keeps the invariant. -/
theorem Inv.released {s : Engine} (h : Inv s) (touch : Touch) (p : Nat)
    (hp : Dict.get s._T2P touch.identifier = some p) : Inv (release s touch p) := by
  obtain ⟨⟨m, hm, hmb⟩, ⟨h2, hk⟩, ht, hv⟩ := h
  obtain ⟨hp2, stp, hstp, hidp⟩ := ht _ _ hp
  have h1 : p ≠ 1 := by omega
  refine ⟨⟨m, ?_, hmb⟩, ⟨h2, ?_⟩, ?_, hv⟩
  · simp [PointerEventJS.release, Dict.get_del, h1, hm]
  · intro k st hget
    simp only [PointerEventJS.release, Dict.get_del] at hget
    split_ifs at hget with hk'
    exact hk k st hget
  · intro c' p' hget
    simp only [PointerEventJS.release, Dict.get_del] at hget ⊢
    split_ifs at hget with hc'
    obtain ⟨hp2', st, hst, hid⟩ := ht c' p' hget
    have hne : p ≠ p' := by
      rintro rfl
      rw [hstp] at hst
      cases hst
      rw [hidp] at hid
      exact hc' (by simpa using hid)
    exact ⟨hp2', st, by simp [hne, hst], hid⟩

/-- Rewriting a registered state keeps the invariant when the touch identifier stays and
the new bitmask, if this is identity 1, is one of 0 to 7. -/
theorem Inv.update {s : Engine} (h : Inv s) (k : Nat) (st st' : PointerState)
    (hk : Dict.get s._pointers k = some st)
    (hid : st'.touchIdentifier = st.touchIdentifier)
    (hb : k = 1 → ∀ v, st'.buttons = some v → 0 ≤ v ∧ v < 8) :
    Inv { s with _pointers := Dict.set s._pointers k st' } := by
  obtain ⟨⟨m, hm, hmb⟩, ⟨h2, hkey⟩, ht, hv⟩ := h
  refine ⟨?_, ⟨h2, ?_⟩, ?_, hv⟩
  · by_cases h1 : k = 1
    · exact ⟨st', by simp [Dict.get_set, h1], hb h1⟩
    · exact ⟨m, by simp [Dict.get_set, h1, hm], hmb⟩
  · intro k' st'' hget
    simp only [Dict.get_set] at hget
    split_ifs at hget with hk'
    · subst hk'
      exact hkey _ _ hk
    · exact hkey _ _ hget
  · intro c p hget
    obtain ⟨hp2, stp, hstp, hidp⟩ := ht c p hget
    by_cases hkp : k = p
    · subst hkp
      rw [hk] at hstp
      cases hstp
      exact ⟨hp2, st', by simp [Dict.get_set], by rw [hid]; exact hidp⟩
    · exact ⟨hp2, stp, by simp [Dict.get_set, hkp, hstp], hidp⟩

theorem Dict.set_set {κ α : Type} [DecidableEq κ] (d : Dict κ α) (k : κ) (v v' : α) :
    Dict.set (Dict.set d k v) k v' = Dict.set d k v' := by
  induction d with
  | nil => simp [Dict.set]
  | cons p d ih =>
    obtain ⟨k0, v0⟩ := p
    by_cases h0 : k0 = k
    · simp [Dict.set, h0]
    · simp [Dict.set, h0, ih]

theorem touchStartLoop_inv (host : Host) (L : Listeners) (e : RawEvent) (ts : List Touch) :
    ∀ o : Outcome, Inv o.state → Inv (touchStartLoop host L e ts o).state := by
  induction ts with
  | nil => intro o h; exact h
  | cons touch rest ih =>
    intro o h
    simp only [touchStartLoop]
    split_ifs with htracked
    · exact ih _ h.next
    · split
      · apply ih
        apply Inv.next
        simp only [Nat.add_sub_cancel, Dict.set_set]
        exact h.allocate touch.identifier _
      · simp only [Nat.add_sub_cancel]
        exact h.allocate touch.identifier none

theorem touchMoveLoop_inv (host : Host) (L : Listeners) (e : RawEvent) (ts : List Touch) :
    ∀ o : Outcome, Inv o.state → Inv (touchMoveLoop host L e ts o).state := by
  induction ts with
  | nil => intro o h; exact h
  | cons touch rest ih =>
    intro o h
    simp only [touchMoveLoop]
    split
    · exact h
    · split
      · exact h
      · exact ih _ h.next

theorem touchEndLoop_inv (host : Host) (L : Listeners) (e : RawEvent) (ts : List Touch) :
    ∀ o : Outcome, Inv o.state → Inv (touchEndLoop host L e ts o).state := by
  induction ts with
  | nil => intro o h; exact h
  | cons touch rest ih =>
    intro o h
    simp only [touchEndLoop]
    split
    · exact h
    · rename_i p hp
      split
      · exact h
      · split
        · exact ih _ (h.released touch p hp).next
        · exact h

theorem touchCancelLoop_inv (host : Host) (e : RawEvent) (ts : List Touch) :
    ∀ o : Outcome, Inv o.state → Inv (touchCancelLoop host e ts o).state := by
  induction ts with
  | nil => intro o h; exact h
  | cons touch rest ih =>
    intro o h
    simp only [touchCancelLoop]
    split
    · exact h
    · rename_i p hp
      split
      · exact h
      · split
        · exact ih _ (h.released touch p hp).next
        · exact h

theorem touchEntry_inv {s : Engine} (h : Inv s) (now : Int) (d : TargetData)
    (ls : List Listener) : Inv (touchEntry now s d ls).state :=
  h.congr rfl rfl rfl rfl

/-! ## The buttons bitmask -/

theorem mask_cases (b : Int) :
    Dict.get _mouseButton2Bitmask b =
      if b = 0 then some 1 else if b = 1 then some 4 else if b = 2 then some 2 else none := by
  simp only [_mouseButton2Bitmask, Dict.get]
  by_cases h0 : b = 0
  · simp [h0]
  · by_cases h1 : b = 1
    · simp [h1]
    · by_cases h2 : b = 2
      · simp [h2]
      · have e0 : ¬ (0 : Int) = b := fun h => h0 h.symm
        have e1 : ¬ (1 : Int) = b := fun h => h1 h.symm
        have e2 : ¬ (2 : Int) = b := fun h => h2 h.symm
        simp [h0, h1, h2, e0, e1, e2]

theorem toUint32_of_nonneg (buttons : Option Int) (h0 : 0 ≤ buttonsValue buttons)
    (h1 : buttonsValue buttons < 2147483648) :
    toUint32 buttons = (buttonsValue buttons).toNat := by
  cases buttons with
  | none => rfl
  | some v =>
    simp only [buttonsValue, Option.getD] at h0 h1
    simp only [toUint32, buttonsValue, Option.getD]
    rw [Int.emod_eq_of_lt h0 (by omega)]

theorem xor32_of_nonneg (buttons : Option Int) (m : Nat) (h0 : 0 ≤ buttonsValue buttons)
    (h1 : buttonsValue buttons < 2147483648) (hm : m < 2147483648) :
    xor32 buttons (some (m : Int)) = (((buttonsValue buttons).toNat ^^^ m : Nat) : Int) := by
  have hm' : toUint32 (some (m : Int)) = m := by
    simp only [toUint32]
    rw [Int.emod_eq_of_lt (by omega) (by omega)]
    simp
  have hlt : (buttonsValue buttons).toNat ^^^ m < 2 ^ 31 :=
    Nat.xor_lt_two_pow (by omega) (by omega)
  simp only [xor32, toUint32_of_nonneg buttons h0 h1, hm', ofUint32]
  rw [if_pos (by omega)]

theorem xor32_none_right (buttons : Option Int) (h0 : 0 ≤ buttonsValue buttons)
    (h1 : buttonsValue buttons < 2147483648) :
    xor32 buttons none = buttonsValue buttons := by
  simp only [xor32, toUint32_of_nonneg buttons h0 h1, ofUint32]
  have : toUint32 none = 0 := rfl
  rw [this, Nat.xor_zero, if_pos (by omega)]
  omega

theorem xor_lt_eight (a m : Nat) (ha : a < 8) (hm : m < 8) : a ^^^ m < 8 :=
  Nat.xor_lt_two_pow (n := 3) (by omega) (by omega)

theorem trackButtons_inv {s : Engine} (h : Inv s) (e : RawEvent) :
    ∀ s1, trackButtons s e = some s1 → Inv s1 := by
  intro s1 hs1
  unfold trackButtons at hs1
  split_ifs at hs1 with hc
  · obtain ⟨m, hm, hmb⟩ := h.mouse
    rw [hm] at hs1
    simp only [Option.some.injEq] at hs1
    subst hs1
    refine h.update 1 m _ hm ?_ ?_
    · rfl
    intro _ v hv
    simp only [Option.some.injEq] at hv
    subst hv
    have hb0 : 0 ≤ buttonsValue m.buttons ∧ buttonsValue m.buttons < 8 := by
      cases hbt : m.buttons with
      | none => simp [buttonsValue]
      | some v => simpa [buttonsValue] using hmb v hbt
    rw [mask_cases]
    have key : ∀ k : Nat, k < 8 →
        0 ≤ xor32 m.buttons (some (k : Int)) ∧ xor32 m.buttons (some (k : Int)) < 8 := by
      intro k hk
      rw [xor32_of_nonneg m.buttons k hb0.1 (by omega) (by omega)]
      have := xor_lt_eight (buttonsValue m.buttons).toNat k (by omega) hk
      omega
    split_ifs
    · exact key 1 (by omega)
    · exact key 4 (by omega)
    · exact key 2 (by omega)
    · rw [xor32_none_right m.buttons hb0.1 (by omega)]
      exact hb0
  · simp only [Option.some.injEq] at hs1
    subst hs1
    exact h

theorem _mouseCatch_state (host : Host) (L : Listeners) (now : Int) (s : Engine)
    (d : TargetData) (ls : List Listener) (e : RawEvent) :
    (_mouseCatch host L now s d ls e).state =
      if isCompatibility now d.lastTouch then s else (trackButtons s e).getD s := by
  unfold _mouseCatch
  split_ifs with hc
  · rfl
  · cases ht : trackButtons s e with
    | none => rfl
    | some s1 =>
      simp only [Option.getD]
      split
      · rfl
      · split <;> rfl

theorem _msPointerCatch_state (host : Host) (L : Listeners) (s : Engine)
    (d : TargetData) (ls : List Listener) (e : RawEvent) :
    (_msPointerCatch host L s d ls e).state = s := by
  unfold _msPointerCatch
  dsimp only
  split <;> rfl

theorem _bindPointer_inv {s : Engine} (h : Inv s) (pointerId element : Nat) :
    Inv (_bindPointer s pointerId element).state := by
  unfold _bindPointer
  split
  · exact h
  · rename_i st hst
    dsimp only
    refine h.update pointerId st _ hst ?_ ?_
    · rfl
    intro h1 v hv
    subst h1
    obtain ⟨m, hm, hmb⟩ := h.mouse
    rw [hm] at hst
    cases hst
    exact hmb v hv

theorem _unbindPointer_inv {s : Engine} (h : Inv s) (pointerId element : Nat) :
    Inv (_unbindPointer s pointerId element).state := by
  unfold _unbindPointer
  split
  · exact h
  · rename_i st hst
    dsimp only
    refine h.update pointerId st _ hst ?_ ?_
    · rfl
    intro h1 v hv
    subst h1
    obtain ⟨m, hm, hmb⟩ := h.mouse
    rw [hm] at hst
    cases hst
    exact hmb v hv

theorem Op.run_inv (host : Host) (L : Listeners) {s : Engine} (h : Inv s) (op : Op) :
    Inv (op.run host L s) := by
  cases op with
  | touchStart now d ls e => exact touchStartLoop_inv host L e _ _ (touchEntry_inv h now d ls)
  | touchMove now d? ls e =>
    cases d? with
    | none => exact h
    | some d => exact touchMoveLoop_inv host L e _ _ (touchEntry_inv h now d ls)
  | touchEnd now d? ls e =>
    cases d? with
    | none => exact h
    | some d => exact touchEndLoop_inv host L e _ _ (touchEntry_inv h now d ls)
  | touchCancel now d? ls e =>
    cases d? with
    | none => exact h
    | some d => exact touchCancelLoop_inv host e _ _ (touchEntry_inv h now d ls)
  | mouse now d ls e =>
    simp only [Op.run, _mouseCatch_state]
    split_ifs
    · exact h
    · cases ht : trackButtons s e with
      | none => exact h
      | some s1 => exact trackButtons_inv h e s1 ht
  | msPointer d ls e =>
    simp only [Op.run, _msPointerCatch_state]
    exact h
  | setCapture element pointerId => exact _bindPointer_inv h pointerId element
  | releaseCapture element pointerId => exact _unbindPointer_inv h pointerId element

theorem Reachable.inv {s : Engine} (h : Reachable s) : Inv s := by
  induction h with
  | init => exact Inv.init
  | step host L s op _ ih => exact Op.run_inv host L ih op

theorem mask_of_button (b : Int) (hb : b = 0 ∨ b = 1 ∨ b = 2) :
    Dict.get _mouseButton2Bitmask b = some ((buttonBit b : Nat) : Int) := by
  rcases hb with rfl | rfl | rfl <;> rfl

theorem buttonBit_lt (b : Int) : buttonBit b < 8 := by
  unfold buttonBit
  split_ifs <;> omega

/-- One tracked press or release: the stored bitmask becomes the prior value with the
bit of the button flipped. -/
theorem toggle_step (host : Host) (L : Listeners) (now : Int) (d : TargetData)
    (ls : List Listener) (s : Engine) (mouse : PointerState) (e : RawEvent) (b : Int)
    (hb : b = 0 ∨ b = 1 ∨ b = 2)
    (hmouse : Dict.get s._pointers 1 = some mouse)
    (hprior : 0 ≤ buttonsValue mouse.buttons ∧ buttonsValue mouse.buttons < 2147483648)
    (htype : e.type = "mousedown" ∨ e.type = "mouseup")
    (hbutton : e.button = b) (hnone : e.buttons = none)
    (hc : isCompatibility now d.lastTouch = false) :
    ∃ mouse', Dict.get (_mouseCatch host L now s d ls e).state._pointers 1 = some mouse' ∧
      mouse'.buttons =
        some ((((buttonsValue mouse.buttons).toNat ^^^ buttonBit b : Nat)) : Int) := by
  have hcond : (e.buttons.isNone && (e.type == "mousedown" || e.type == "mouseup")) = true := by
    rcases htype with h | h <;> simp [hnone, h]
  have hbit := buttonBit_lt b
  rw [_mouseCatch_state, hc]
  simp only [Bool.false_eq_true, if_false, trackButtons, hcond, if_true, hmouse, Option.getD]
  refine ⟨_, Dict.get_set_same _ _ _, ?_⟩
  simp only [hbutton, mask_of_button b hb]
  rw [xor32_of_nonneg mouse.buttons (buttonBit b) hprior.1 hprior.2 (by omega)]

/-- C12: a press and the following release of button 0, 1 or 2, both tracked (the source
has no native `buttons`, the occurrence is not suppressed), each flip exactly the bit 1,
4 or 2 of the stored bitmask, so the pair restores the value the bitmask had (an unset
bitmask counts as 0 and is restored as 0); both values are naturals, and in every
reachable state the stored bitmask is non-negative.  From the initial state, a press of
button 0 stores 1 and its release stores 0. -/
theorem mouse_press_release_restores_bitmask (host : Host) (L : Listeners) (now1 now2 : Int)
    (d1 d2 : TargetData) (ls1 ls2 : List Listener) (s : Engine) (mouse : PointerState)
    (e1 e2 : RawEvent) (b : Int)
    (hb : b = 0 ∨ b = 1 ∨ b = 2)
    (hmouse : Dict.get s._pointers 1 = some mouse)
    (hprior : 0 ≤ buttonsValue mouse.buttons ∧ buttonsValue mouse.buttons < 2147483648)
    (hdown : e1.type = "mousedown" ∧ e1.button = b ∧ e1.buttons = none)
    (hup : e2.type = "mouseup" ∧ e2.button = b ∧ e2.buttons = none)
    (hc1 : isCompatibility now1 d1.lastTouch = false)
    (hc2 : isCompatibility now2 d2.lastTouch = false) :
    ∃ v1 : Nat,
      v1 = (buttonsValue mouse.buttons).toNat ^^^ buttonBit b ∧
      mouseButtons (_mouseCatch host L now1 s d1 ls1 e1).state = some (v1 : Int) ∧
      mouseButtons
          (_mouseCatch host L now2 (_mouseCatch host L now1 s d1 ls1 e1).state d2 ls2 e2).state
        = some ((v1 ^^^ buttonBit b : Nat) : Int) ∧
      ((v1 ^^^ buttonBit b : Nat) : Int) = buttonsValue mouse.buttons ∧
      (s = Engine.init → b = 0 → v1 = 1 ∧ v1 ^^^ buttonBit b = 0) ∧
      (∀ s', Reachable s' → ∀ v, mouseButtons s' = some v → 0 ≤ v) := by
  obtain ⟨m1, hm1, hb1⟩ :=
    toggle_step host L now1 d1 ls1 s mouse e1 b hb hmouse hprior (Or.inl hdown.1) hdown.2.1
      hdown.2.2 hc1
  have hbit := buttonBit_lt b
  have hv1 : (buttonsValue mouse.buttons).toNat ^^^ buttonBit b < 2 ^ 31 :=
    Nat.xor_lt_two_pow (by omega) (by omega)
  have hprior1 : 0 ≤ buttonsValue m1.buttons ∧ buttonsValue m1.buttons < 2147483648 := by
    rw [hb1]
    change (0 : Int) ≤ (((buttonsValue mouse.buttons).toNat ^^^ buttonBit b : Nat) : Int) ∧
      (((buttonsValue mouse.buttons).toNat ^^^ buttonBit b : Nat) : Int) < 2147483648
    omega
  obtain ⟨m2, hm2, hb2⟩ :=
    toggle_step host L now2 d2 ls2 _ m1 e2 b hb hm1 hprior1 (Or.inr hup.1) hup.2.1 hup.2.2 hc2
  have hback : ((buttonsValue mouse.buttons).toNat ^^^ buttonBit b) ^^^ buttonBit b
      = (buttonsValue mouse.buttons).toNat := by
    rw [Nat.xor_assoc, Nat.xor_self, Nat.xor_zero]
  refine ⟨_, rfl, ?_, ?_, ?_, ?_, ?_⟩
  · simp [mouseButtons, hm1, hb1]
  · simp only [mouseButtons, hm2, Option.bind, hb2, hb1, buttonsValue, Option.getD,
      Int.toNat_ofNat]
  · rw [hback]
    exact Int.toNat_of_nonneg hprior.1
  · rintro rfl rfl
    simp only [Engine.init, Dict.get, if_true, Option.some.injEq] at hmouse
    subst hmouse
    decide
  · intro s' hs' v hv
    obtain ⟨m, hm, hmb⟩ := hs'.inv.mouse
    simp only [mouseButtons, hm, Option.bind] at hv
    exact (hmb v hv).1

/-! ## The constructor -/

theorem JSVal.or_ne_undefined (a b : JSVal) (hb : b ≠ .undefined) : a.or b ≠ .undefined := by
  unfold JSVal.or
  split_ifs with h
  · rintro rfl
    simp [JSVal.truthy] at h
  · exact hb

theorem JSVal.undefined_or (b : JSVal) : JSVal.undefined.or b = b := rfl

theorem vendorPointerType_ne_undefined (code current : JSVal) (h : current ≠ .undefined) :
    vendorPointerType code current ≠ .undefined := by
  unfold vendorPointerType
  split_ifs <;> simp [h]

theorem primaryLoop_ne_undefined (s : Engine) (touch : Option Touch) (isPrimary : JSVal)
    (h : isPrimary ≠ .undefined) : primaryLoop s touch isPrimary ≠ .undefined := by
  unfold primaryLoop
  split
  · exact h
  · simp

/-- The constructor returns whenever identity 1 is registered. -/
theorem PointerEvent_isSome (host : Host) (s : Engine) (type : JSVal) (props? : Option Props)
    (h1 : ∃ m, Dict.get s._pointers 1 = some m) :
    ∃ ev, PointerEvent host s type props? = some ev := by
  obtain ⟨m, hm⟩ := h1
  unfold PointerEvent defaultsOf
  dsimp only
  cases hbe : (props?.getD Props.empty).baseEvent with
  | none => exact ⟨_, rfl⟩
  | some e =>
    dsimp only
    by_cases hmouse : e.isMouseEvent = true
    · simp only [hmouse, if_true, mouseBranch, hm]
      split_ifs <;> exact ⟨_, rfl⟩
    · simp only [hmouse, Bool.false_eq_true, if_false]
      split_ifs <;> exact ⟨_, rfl⟩

/-- The constructor returns for every source that is not a MouseEvent. -/
theorem PointerEvent_isSome_of_not_mouse (host : Host) (s : Engine) (type : JSVal)
    (props : Props) (h : ∀ e, props.baseEvent = some e → e.isMouseEvent = false) :
    ∃ ev, PointerEvent host s type (some props) = some ev := by
  unfold PointerEvent defaultsOf
  dsimp only [Option.getD]
  cases hbe : props.baseEvent with
  | none => exact ⟨_, rfl⟩
  | some e =>
    dsimp only
    simp only [h e hbe, Bool.false_eq_true, if_false]
    split_ifs <;> exact ⟨_, rfl⟩

/-- Where the defaults of the constructor hold.  The constructor returns in every
reachable state, and of the eight properties it defines, `tiltX`, `tiltY`,
`pointerType` and `isPrimary` are never `undefined`.  When neither the touch branch nor
the vendor branch runs (no source, a mouse-shaped source, or a source of no known
shape), `pointerId`, `width`, `height` and `pressure` are not `undefined` either, and
with no branch at all every property that was not supplied is 0, the empty string or
false.  In the vendor branch `width`, `height` and `pressure` are the source's numbers.
The touch branch overwrites `width`, `height` and `pressure` with the contact's
`radiusX`, `radiusY` and `force` as they are, and `pointerId` with the contact's entry of
the touch map. -/
theorem synthesized_properties_defined (host : Host) (s : Engine) (type : JSVal)
    (props? : Option Props) (hs : Reachable s) :
    ∃ ev, PointerEvent host s type props? = some ev ∧
      (ev.tiltX ≠ .undefined ∧ ev.tiltY ≠ .undefined ∧ ev.pointerType ≠ .undefined ∧
        ev.isPrimary ≠ .undefined) ∧
      ((props?.getD Props.empty).runsTouchBranch = false →
        (props?.getD Props.empty).runsVendorBranch host = false →
        ev.pointerId ≠ .undefined ∧ ev.width ≠ .undefined ∧ ev.height ≠ .undefined ∧
          ev.pressure ≠ .undefined) ∧
      (∀ e, (props?.getD Props.empty).baseEvent = some e →
        (props?.getD Props.empty).runsVendorBranch host = true →
        ev.width = .num e.width ∧ ev.height = .num e.height ∧
          ev.pressure = .num e.pressure) ∧
      ((props?.getD Props.empty).runsMouseBranch = false →
        (props?.getD Props.empty).runsTouchBranch = false →
        (props?.getD Props.empty).runsVendorBranch host = false →
        ((props?.getD Props.empty).pointerId = .undefined → ev.pointerId = .num 0) ∧
        ((props?.getD Props.empty).width = .undefined → ev.width = .num 0) ∧
        ((props?.getD Props.empty).height = .undefined → ev.height = .num 0) ∧
        ((props?.getD Props.empty).pressure = .undefined → ev.pressure = .num 0) ∧
        ((props?.getD Props.empty).tiltX = .undefined → ev.tiltX = .num 0) ∧
        ((props?.getD Props.empty).tiltY = .undefined → ev.tiltY = .num 0) ∧
        ((props?.getD Props.empty).pointerType = .undefined → ev.pointerType = .str "") ∧
        ((props?.getD Props.empty).isPrimary = .undefined → ev.isPrimary = .bool false)) ∧
      ((props?.getD Props.empty).runsTouchBranch = true →
        (props?.getD Props.empty).runsVendorBranch host = false →
        ev.pointerId = touchPointerId s (props?.getD Props.empty).touch ∧
        ev.width = (match (props?.getD Props.empty).touch with
          | none => .undefined
          | some t => JSVal.ofOptInt t.radiusX) ∧
        ev.height = (match (props?.getD Props.empty).touch with
          | none => .undefined
          | some t => JSVal.ofOptInt t.radiusY) ∧
        ev.pressure = (match (props?.getD Props.empty).touch with
          | none => .undefined
          | some t => JSVal.ofOptInt t.force)) := by
  obtain ⟨m, hm, -⟩ := hs.inv.mouse
  have hn0 : JSVal.num 0 ≠ .undefined := by simp
  have hs0 : JSVal.str POINTER_TYPE_UNAVAILABLE ≠ .undefined := by simp
  have hb0 : JSVal.bool false ≠ .undefined := by simp
  unfold PointerEvent defaultsOf
  dsimp only
  generalize props?.getD Props.empty = props
  simp only [Props.runsTouchBranch, Props.runsVendorBranch, Props.runsMouseBranch]
  cases hbe : props.baseEvent with
  | none =>
    refine ⟨_, rfl, ?_⟩
    simp +contextual [JSVal.or_ne_undefined, hn0, hs0, hb0,
      JSVal.undefined_or, POINTER_TYPE_UNAVAILABLE]
  | some e =>
    dsimp only
    cases hM : e.isMouseEvent <;> cases hT : e.isTouchEvent <;>
      cases hV : (host.hasMSPointerEvent && e.isMSPointerEvent)
    all_goals
      simp only [Bool.true_eq_false, Bool.false_eq_true, if_true, if_false, mouseBranch, hm]
    · -- no branch runs
      refine ⟨_, rfl, ?_⟩
      simp +contextual [JSVal.or_ne_undefined, hn0, hs0, hb0, JSVal.undefined_or,
        POINTER_TYPE_UNAVAILABLE]
    · -- the vendor branch alone
      refine ⟨_, rfl, ?_⟩
      simp [vendorBranch, vendorPointerType_ne_undefined, JSVal.or_ne_undefined, hs0]
    · -- the touch branch
      refine ⟨_, rfl, ?_⟩
      simp [touchBranch, primaryLoop_ne_undefined, JSVal.or_ne_undefined, hn0, hb0]
    · -- the touch branch, then the vendor branch
      refine ⟨_, rfl, ?_⟩
      simp [vendorBranch, touchBranch, vendorPointerType_ne_undefined]
    · -- the mouse branch
      split_ifs <;>
        exact ⟨_, rfl, by simp [JSVal.or_ne_undefined, hn0]⟩
    · -- the mouse branch, then the vendor branch
      split_ifs <;>
        exact ⟨_, rfl, by simp [vendorBranch, vendorPointerType_ne_undefined]⟩
    · split_ifs <;>
        exact ⟨_, rfl, by simp [JSVal.or_ne_undefined, hn0]⟩
    · split_ifs <;>
        exact ⟨_, rfl, by simp [vendorBranch, vendorPointerType_ne_undefined]⟩

/-- C13 fails on the code: the touch branch of the constructor overwrites the defaulted
locals with `touch.radiusX`, `touch.radiusY`, `touch.force` and `_T2P[touch.identifier]`
and gives them no default.  The pointerover and pointerdown that a touch-start
dispatches for a contact whose host reports no radii and no force have `width`, `height`
and `pressure` `undefined`, and an event built from a touch source without a contact has
`pointerId` and `width` `undefined`. -/
theorem synthesized_width_undefined_without_radii :
    (_touchStart touchHost quiet 1000 Engine.init defaultData []
        (sampleTouchEvent "touchstart" [bareTouch 7])).dispatched.map
        (fun d => (d.event.type, d.event.width, d.event.height, d.event.pressure))
      = [(.str "pointerover", .undefined, .undefined, .undefined),
         (.str "pointerdown", .undefined, .undefined, .undefined)] ∧
    (PointerEvent touchHost Engine.init (.str "pointermove")
        (some { Props.empty with baseEvent := some (sampleTouchEvent "touchmove" []) })).map
        (fun ev => (ev.pointerId, ev.width))
      = some (.undefined, .undefined) := by
  constructor <;> rfl

/-- The properties that are never `undefined`, at a contact without radii in the initial
state. -/
theorem synthesized_properties_defined_witness :
    Reachable Engine.init ∧
    ∃ ev, PointerEvent touchHost Engine.init (.str "pointerdown")
        (some (Props.ofTouch (sampleTouchEvent "touchstart" [bareTouch 7]) (bareTouch 7)))
        = some ev ∧
      (ev.tiltX ≠ .undefined ∧ ev.tiltY ≠ .undefined ∧ ev.pointerType ≠ .undefined ∧
        ev.isPrimary ≠ .undefined) := by
  refine ⟨Reachable.init, ?_⟩
  obtain ⟨ev, h, h1, -⟩ :=
    synthesized_properties_defined touchHost Engine.init (.str "pointerdown")
      (some (Props.ofTouch (sampleTouchEvent "touchstart" [bareTouch 7]) (bareTouch 7)))
      Reachable.init
  exact ⟨ev, h, h1⟩

/-- C14 fails on the code: nothing writes `_MSP2P`, so in every reachable state the event
`_msPointerCatch` synthesizes for a vendor pointer occurrence has `pointerId` `undefined`,
which is no identity of the registry. -/
theorem vendor_pointerId_undefined (host : Host) (L : Listeners) (s : Engine)
    (d : TargetData) (ls : List Listener) (e : RawEvent) (hs : Reachable s)
    (hhost : host.hasMSPointerEvent = true) (hvendor : e.isMSPointerEvent = true) :
    ∃ eve, (_msPointerCatch host L s d ls e).dispatched = [⟨e.target, eve⟩] ∧
      eve.pointerId = .undefined := by
  have hinv := hs.inv
  obtain ⟨m, hm, -⟩ := hinv.mouse
  have hmsp := hinv.vendor
  unfold _msPointerCatch PointerEvent defaultsOf
  dsimp only [Option.getD, Props.empty]
  cases hM : e.isMouseEvent <;> cases hT : e.isTouchEvent <;>
    simp only [hhost, hvendor, Bool.and_self, Bool.true_eq_false, Bool.false_eq_true, if_true,
      if_false, mouseBranch, hm]
  · exact ⟨_, rfl, by simp [vendorBranch, hmsp, Dict.get, JSVal.ofOptInt]⟩
  · exact ⟨_, rfl, by simp [vendorBranch, hmsp, Dict.get, JSVal.ofOptInt]⟩
  · split_ifs <;> exact ⟨_, rfl, by simp [vendorBranch, hmsp, Dict.get, JSVal.ofOptInt]⟩
  · split_ifs <;> exact ⟨_, rfl, by simp [vendorBranch, hmsp, Dict.get, JSVal.ofOptInt]⟩

/-- The failing input of C14: an MSPointerDown with vendor pointer id 5 in the initial
state is dispatched as a pointerdown whose `pointerId` is `undefined`. -/
theorem vendor_pointerId_undefined_witness :
    Reachable Engine.init ∧
    ∃ eve, (_msPointerCatch vendorHost quiet Engine.init defaultData []
        (sampleMSPointer "MSPointerDown" 5 (.num 2))).dispatched = [⟨10, eve⟩] ∧
      eve.pointerId = .undefined :=
  ⟨Reachable.init,
    vendor_pointerId_undefined vendorHost quiet Engine.init defaultData []
      (sampleMSPointer "MSPointerDown" 5 (.num 2)) Reachable.init rfl rfl⟩

/-- C15: for a mouse-shaped source (a MouseEvent for which the vendor branch does not
run), in every reachable state and whatever `type` and `props` are, the constructor
returns an event with `pointerId` 1, `width` 1, `height` 1, `pointerType` "mouse" and
`isPrimary` true; `pressure`, `tiltX` and `tiltY` are 0 when `props` does not supply
them; the coordinates, the modifier keys, `button` and `detail` are the source's. -/
theorem mouse_source_fixed_fields (host : Host) (s : Engine) (type : JSVal) (props : Props)
    (e : RawEvent) (hs : Reachable s) (hsource : props.baseEvent = some e)
    (hmouse : e.isMouseEvent = true)
    (hvendor : (host.hasMSPointerEvent && e.isMSPointerEvent) = false) :
    ∃ ev, PointerEvent host s type (some props) = some ev ∧
      ev.pointerId = .num 1 ∧ ev.width = .num 1 ∧ ev.height = .num 1 ∧
      ev.pointerType = .str "mouse" ∧ ev.isPrimary = .bool true ∧
      (props.pressure = .undefined → ev.pressure = .num 0) ∧
      (props.tiltX = .undefined → ev.tiltX = .num 0) ∧
      (props.tiltY = .undefined → ev.tiltY = .num 0) ∧
      ev.screenX = .num e.screenX ∧ ev.screenY = .num e.screenY ∧
      ev.clientX = .num e.clientX ∧ ev.clientY = .num e.clientY ∧
      ev.ctrlKey = e.ctrlKey ∧ ev.altKey = e.altKey ∧ ev.shiftKey = e.shiftKey ∧
      ev.metaKey = e.metaKey ∧
      ev.button = .num e.button ∧ ev.detail = .num e.detail := by
  obtain ⟨m, hm, -⟩ := hs.inv.mouse
  unfold PointerEvent defaultsOf
  dsimp only [Option.getD]
  simp only [hsource, hmouse, hvendor, Bool.false_eq_true, if_true, if_false, mouseBranch, hm]
  split_ifs <;>
    exact ⟨_, rfl, by simp +contextual [JSVal.undefined_or, POINTER_TYPE_MOUSE]⟩

/-- C15 at a mousedown in the initial state, with `props` that try to set the fixed
fields. -/
theorem mouse_source_fixed_fields_witness :
    Reachable Engine.init ∧
    ∃ ev, PointerEvent touchHost Engine.init (.str "pointerdown")
        (some { Props.empty with
          baseEvent := some (sampleMouse "mousedown" 0 (some 1)),
          pointerId := .num 9, width := .num 9, pointerType := .str "pen",
          isPrimary := .bool false })
        = some ev ∧
      ev.pointerId = .num 1 ∧ ev.width = .num 1 ∧ ev.height = .num 1 ∧
      ev.pointerType = .str "mouse" ∧ ev.isPrimary = .bool true := by
  refine ⟨Reachable.init, ?_⟩
  obtain ⟨ev, h, h1, h2, h3, h4, h5, -⟩ :=
    mouse_source_fixed_fields touchHost Engine.init (.str "pointerdown")
      { Props.empty with
        baseEvent := some (sampleMouse "mousedown" 0 (some 1)),
        pointerId := .num 9, width := .num 9, pointerType := .str "pen",
        isPrimary := .bool false }
      (sampleMouse "mousedown" 0 (some 1)) Reachable.init rfl rfl rfl
  exact ⟨ev, h, h1, h2, h3, h4, h5⟩

/-- C12 at the initial state: a tracked press of button 0 stores 1, its release 0. -/
theorem mouse_press_release_restores_bitmask_witness :
    Dict.get Engine.init._pointers 1 = some ⟨none, none, none, none⟩ ∧
    isCompatibility 1000 defaultData.lastTouch = false ∧
    mouseButtons (_mouseCatch legacyHost quiet 1000 Engine.init defaultData []
      (sampleMouse "mousedown" 0 none)).state = some 1 ∧
    mouseButtons (_mouseCatch legacyHost quiet 1001
      (_mouseCatch legacyHost quiet 1000 Engine.init defaultData []
        (sampleMouse "mousedown" 0 none)).state defaultData []
      (sampleMouse "mouseup" 0 none)).state = some 0 := by
  obtain ⟨v1, hv1, h1, h2, -, -, -⟩ :=
    mouse_press_release_restores_bitmask legacyHost quiet 1000 1001 defaultData defaultData [] []
      Engine.init ⟨none, none, none, none⟩ (sampleMouse "mousedown" 0 none)
      (sampleMouse "mouseup" 0 none) 0 (Or.inl rfl) rfl (by decide) ⟨rfl, rfl, rfl⟩
      ⟨rfl, rfl, rfl⟩ rfl rfl
  subst hv1
  exact ⟨rfl, rfl, h1, h2⟩

/-- C18 fails on the code for clicks: `InterpretEvents` registers `_mouseCatch` (not
`_mouseClick`) for "click", the table `_ME2W3C` has no entry for it, and a click that is
not suppressed is synthesized with an `undefined` kind and dispatched. -/
theorem click_synthesized_without_kind :
    (⟨"click", HandlerName._mouseCatch, true⟩ : Listener) ∈
      (InterpretEvents touchHost ⟨true, none, none, []⟩ none).element.listeners ∧
    kindOf _ME2W3C "click" = .undefined ∧
    (_mouseCatch touchHost quiet 1000 Engine.init defaultData []
        (sampleMouse "click" 0 (some 0))).dispatched.map (fun x => (x.target, x.event.type))
      = [(10, .undefined)] := by
  refine ⟨by decide, rfl, rfl⟩

/-- C19: in every state reachable from the initial statics by touch-start, touch-move,
touch-end, touch-cancel, mouse, vendor-pointer, setPointerCapture and
releasePointerCapture operations, identity 1 is a key of the registry, the counter is
greater than every key of the registry, and the touch map is injective with every value
an identity of at least 2 that is a key of the registry whose state records the mapped
contact id. -/
theorem reachable_identities_consistent (s : Engine) (hs : Reachable s) :
    Dict.has s._pointers 1 = true ∧
    (∀ k, Dict.has s._pointers k = true → k < s._pointerId) ∧
    (∀ c c' p, Dict.get s._T2P c = some p → Dict.get s._T2P c' = some p → c = c') ∧
    (∀ c p, Dict.get s._T2P c = some p →
      2 ≤ p ∧ ∃ st, Dict.get s._pointers p = some st ∧ st.touchIdentifier = some c) := by
  obtain ⟨⟨m, hm, -⟩, ⟨-, hk⟩, ht, -⟩ := hs.inv
  refine ⟨by simp [Dict.has, hm], ?_, ?_, ht⟩
  · intro k hk'
    simp only [Dict.has, Option.isSome_iff_exists] at hk'
    obtain ⟨st, hst⟩ := hk'
    exact hk k st hst
  · intro c c' p h h'
    obtain ⟨-, st, hst, hid⟩ := ht c p h
    obtain ⟨-, st', hst', hid'⟩ := ht c' p h'
    rw [hst] at hst'
    cases hst'
    rw [hid] at hid'
    exact Option.some.inj hid'

/-- C19 at the state after a touch-start of contacts 7 and 3, a touch-end of contact 7
and a capture of pointer 3. -/
theorem reachable_identities_consistent_witness :
    (Op.run touchHost quiet
      (Op.run touchHost quiet
        (Op.run touchHost quiet Engine.init
          (.touchStart 1000 defaultData []
            (sampleTouchEvent "touchstart" [sampleTouch 7, sampleTouch 3])))
        (.touchEnd 1001 (some defaultData) [] (sampleTouchEvent "touchend" [sampleTouch 7])))
      (.setCapture 10 3))
      = ⟨4, [(1, ⟨none, none, none, none⟩), (3, ⟨some 10, some 3, none, some false⟩)],
          [(3, 3)], [], 1⟩ ∧
    Dict.has ([(1, ⟨none, none, none, none⟩), (3, ⟨some 10, some 3, none, some false⟩)] :
      Dict Nat PointerState) 1 = true ∧
    Dict.get ([(3, 3)] : Dict Int Nat) 3 = some 3 := by
  have h := reachable_identities_consistent _
    (Reachable.step touchHost quiet _ (.setCapture 10 3)
      (Reachable.step touchHost quiet _
        (.touchEnd 1001 (some defaultData) [] (sampleTouchEvent "touchend" [sampleTouch 7]))
        (Reachable.step touchHost quiet _
          (.touchStart 1000 defaultData []
            (sampleTouchEvent "touchstart" [sampleTouch 7, sampleTouch 3]))
          Reachable.init)))
  exact ⟨rfl, h.1, rfl⟩

/-! ## The loop of `_touchStart` -/

theorem PointerEvent_touch (host : Host) (s : Engine) (type : JSVal) (e : RawEvent)
    (touch : Touch) (h : e.isTouchShaped host = true) :
    PointerEvent host s type (some (Props.ofTouch e touch)) = some (touchEventOf host s type e touch) := by
  simp only [RawEvent.isTouchShaped, Bool.and_eq_true, Bool.not_eq_true'] at h
  obtain ⟨⟨hM, hT⟩, hV⟩ := h
  unfold PointerEvent
  simp [Props.ofTouch, hM, hT, hV, touchEventOf, Props.empty, JSVal.truthy]

theorem isMouseEvent_of_touchShaped (host : Host) (e : RawEvent)
    (h : e.isTouchShaped host = true) : e.isMouseEvent = false := by
  simp only [RawEvent.isTouchShaped, Bool.and_eq_true, Bool.not_eq_true'] at h
  exact h.1.1

/-- A round of the loop for a contact that is already tracked: the `continue`. -/
theorem touchStartLoop_cons_tracked (host : Host) (L : Listeners) (e : RawEvent)
    (touch : Touch) (rest : List Touch) (o : Outcome)
    (h : Dict.has o.state._T2P touch.identifier = true) :
    touchStartLoop host L e (touch :: rest) o
      = touchStartLoop host L e rest { o with state := o.state.next } := by
  simp [touchStartLoop, h]

/-- A round of the loop for a contact that is not tracked yet. -/
theorem touchStartLoop_cons_untracked (host : Host) (L : Listeners) (e : RawEvent)
    (touch : Touch) (rest : List Touch) (o : Outcome) (hnm : e.isMouseEvent = false)
    (h : Dict.has o.state._T2P touch.identifier = false) :
    ∃ pO pD,
      PointerEvent host (allocated o.state touch none) (.str POINTER_OVER)
        (some (Props.ofTouch e touch)) = some pO ∧
      PointerEvent host (allocated o.state touch none) (.str POINTER_DOWN)
        (some (Props.ofTouch e touch)) = some pD ∧
      touchStartLoop host L e (touch :: rest) o
        = touchStartLoop host L e rest
            { o with
              state := (allocated o.state touch (some (defaultPreventedAfter L e.target pD))).next,
              dispatched := o.dispatched ++ [⟨e.target, pO⟩, ⟨e.target, pD⟩],
              defaultPrevented := o.defaultPrevented || defaultPreventedAfter L e.target pD } := by
  have hsrc : ∀ e', (Props.ofTouch e touch).baseEvent = some e' → e'.isMouseEvent = false := by
    intro e' he'
    simp only [Props.ofTouch, Option.some.injEq] at he'
    subst he'
    exact hnm
  obtain ⟨pO, hpO⟩ := PointerEvent_isSome_of_not_mouse host (allocated o.state touch none)
    (.str POINTER_OVER) (Props.ofTouch e touch) hsrc
  obtain ⟨pD, hpD⟩ := PointerEvent_isSome_of_not_mouse host (allocated o.state touch none)
    (.str POINTER_DOWN) (Props.ofTouch e touch) hsrc
  refine ⟨pO, pD, hpO, hpD, ?_⟩
  simp only [allocated] at hpO hpD
  simp only [touchStartLoop, h, Bool.false_eq_true, if_false, Nat.add_sub_cancel, hpO, hpD,
    Dict.set_set, Option.getD, allocated]

/-- Induction over the rounds of the loop of `_touchStart`, for a source that is not a
MouseEvent (so that no round raises). -/
theorem touchStartLoop_induction (host : Host) (L : Listeners) (e : RawEvent)
    (hnm : e.isMouseEvent = false) (P : Outcome → Prop) (l : List Touch)
    (htracked : ∀ (o : Outcome) (touch : Touch), touch ∈ l →
      Dict.has o.state._T2P touch.identifier = true → P o → P { o with state := o.state.next })
    (hnew : ∀ (o : Outcome) (touch : Touch) (pO pD : CanonicalEvent), touch ∈ l →
      Dict.has o.state._T2P touch.identifier = false →
      PointerEvent host (allocated o.state touch none) (.str POINTER_OVER)
        (some (Props.ofTouch e touch)) = some pO →
      PointerEvent host (allocated o.state touch none) (.str POINTER_DOWN)
        (some (Props.ofTouch e touch)) = some pD →
      P o →
      P { o with
          state := (allocated o.state touch (some (defaultPreventedAfter L e.target pD))).next,
          dispatched := o.dispatched ++ [⟨e.target, pO⟩, ⟨e.target, pD⟩],
          defaultPrevented := o.defaultPrevented || defaultPreventedAfter L e.target pD }) :
    ∀ o, P o → P (touchStartLoop host L e l o) := by
  induction l with
  | nil => intro o h; exact h
  | cons touch rest ih =>
    intro o h
    have ih' := ih (fun o t ht => htracked o t (List.mem_cons_of_mem _ ht))
      (fun o t pO pD ht => hnew o t pO pD (List.mem_cons_of_mem _ ht))
    cases htr : Dict.has o.state._T2P touch.identifier with
    | true =>
      rw [touchStartLoop_cons_tracked host L e touch rest o htr]
      exact ih' _ (htracked o touch (List.mem_cons_self _ _) htr h)
    | false =>
      obtain ⟨pO, pD, hO, hD, heq⟩ :=
        touchStartLoop_cons_untracked host L e touch rest o hnm htr
      rw [heq]
      exact ih' _ (hnew o touch pO pD (List.mem_cons_self _ _) htr hO hD h)

theorem touchStartLoop_append (host : Host) (L : Listeners) (e : RawEvent)
    (hnm : e.isMouseEvent = false) (l1 l2 : List Touch) :
    ∀ o, touchStartLoop host L e (l1 ++ l2) o
      = touchStartLoop host L e l2 (touchStartLoop host L e l1 o) := by
  induction l1 with
  | nil => intro o; rfl
  | cons touch rest ih =>
    intro o
    cases htr : Dict.has o.state._T2P touch.identifier with
    | true =>
      rw [List.cons_append, touchStartLoop_cons_tracked host L e touch _ o htr,
        touchStartLoop_cons_tracked host L e touch _ o htr, ih]
    | false =>
      obtain ⟨pO, pD, hO, hD, heq⟩ :=
        touchStartLoop_cons_untracked host L e touch (rest ++ l2) o hnm htr
      obtain ⟨pO', pD', hO', hD', heq'⟩ :=
        touchStartLoop_cons_untracked host L e touch rest o hnm htr
      rw [hO] at hO'
      rw [hD] at hD'
      cases hO'
      cases hD'
      rw [List.cons_append, heq, heq', ih]

/-- The loop never raises for a source that is not a MouseEvent. -/
theorem touchStartLoop_threw (host : Host) (L : Listeners) (e : RawEvent)
    (hnm : e.isMouseEvent = false) (l : List Touch) (o : Outcome) :
    (touchStartLoop host L e l o).threw = o.threw :=
  touchStartLoop_induction host L e hnm (fun o' => o'.threw = o.threw) l
    (fun _ _ _ _ h => h) (fun _ _ _ _ _ _ _ _ h => h) o rfl

/-- An identity of the touch map stays through the loop. -/
theorem touchStartLoop_keeps (host : Host) (L : Listeners) (e : RawEvent)
    (hnm : e.isMouseEvent = false) (l : List Touch) (o : Outcome) (c : Int) (p : Nat)
    (h : Dict.get o.state._T2P c = some p) :
    Dict.get (touchStartLoop host L e l o).state._T2P c = some p := by
  refine touchStartLoop_induction host L e hnm (fun o' => Dict.get o'.state._T2P c = some p) l
    (fun _ _ _ _ h => h) ?_ o h
  intro o' touch pO pD _ hun _ _ hP
  have hne : touch.identifier ≠ c := by
    rintro rfl
    simp [Dict.has, hP] at hun
  simp [allocated, Engine.next, Dict.get_set, hne, hP]

/-- A contact that is neither tracked nor in the batch is not tracked after the loop. -/
theorem touchStartLoop_untracked (host : Host) (L : Listeners) (e : RawEvent)
    (hnm : e.isMouseEvent = false) (l : List Touch) (o : Outcome) (c : Int)
    (h : Dict.get o.state._T2P c = none) (hc : c ∉ l.map Touch.identifier) :
    Dict.get (touchStartLoop host L e l o).state._T2P c = none := by
  refine touchStartLoop_induction host L e hnm (fun o' => Dict.get o'.state._T2P c = none) l
    (fun _ _ _ _ h => h) ?_ o h
  intro o' touch pO pD hmem _ _ _ hP
  have hne : touch.identifier ≠ c := by
    rintro rfl
    exact hc (List.mem_map_of_mem _ hmem)
  simp [allocated, Engine.next, Dict.get_set, hne, hP]

/-- Every contact of the batch is tracked after the loop. -/
theorem touchStartLoop_tracks (host : Host) (L : Listeners) (e : RawEvent)
    (hnm : e.isMouseEvent = false) (l : List Touch) :
    ∀ (o : Outcome) (c : Int),
      (Dict.has o.state._T2P c = true ∨ c ∈ l.map Touch.identifier) →
      Dict.has (touchStartLoop host L e l o).state._T2P c = true := by
  have keep : ∀ (l : List Touch) (o : Outcome) (c : Int), Dict.has o.state._T2P c = true →
      Dict.has (touchStartLoop host L e l o).state._T2P c = true := by
    intro l o c h
    simp only [Dict.has, Option.isSome_iff_exists] at h ⊢
    obtain ⟨p, hp⟩ := h
    exact ⟨p, touchStartLoop_keeps host L e hnm l o c p hp⟩
  induction l with
  | nil =>
    intro o c h
    rcases h with h | h
    · exact h
    · simp at h
  | cons touch rest ih =>
    intro o c h
    rcases h with h | h
    · exact keep _ o c h
    · simp only [List.map_cons, List.mem_cons] at h
      rcases h with rfl | h
      · cases htr : Dict.has o.state._T2P touch.identifier with
        | true => exact keep _ o _ htr
        | false =>
          obtain ⟨pO, pD, -, -, heq⟩ :=
            touchStartLoop_cons_untracked host L e touch rest o hnm htr
          rw [heq]
          apply keep
          simp [allocated, Engine.next, Dict.has, Dict.get_set]
      · cases htr : Dict.has o.state._T2P touch.identifier with
        | true =>
          rw [touchStartLoop_cons_tracked host L e touch rest o htr]
          exact ih _ c (Or.inr h)
        | false =>
          obtain ⟨pO, pD, -, -, heq⟩ :=
            touchStartLoop_cons_untracked host L e touch rest o hnm htr
          rw [heq]
          exact ih _ c (Or.inr h)

/-- A batch whose contacts are all tracked only advances the loop index. -/
theorem touchStartLoop_all_tracked (host : Host) (L : Listeners) (e : RawEvent)
    (l : List Touch) :
    ∀ o : Outcome, (∀ t ∈ l, Dict.has o.state._T2P t.identifier = true) →
      touchStartLoop host L e l o
        = { o with state := { o.state with _TCurrentTouch := o.state._TCurrentTouch + l.length } } := by
  induction l with
  | nil => intro o _; rfl
  | cons touch rest ih =>
    intro o h
    rw [touchStartLoop_cons_tracked host L e touch rest o (h touch (List.mem_cons_self _ _))]
    rw [ih { o with state := o.state.next } (fun t ht => h t (List.mem_cons_of_mem _ ht))]
    simp [Engine.next, Nat.add_assoc, Nat.add_comm 1]

/-- C20: in a touch-start (of a source that is not a MouseEvent, so that no round
raises), every identity of the touch map is kept; the round for a changed contact that is
tracked when the loop reaches it (tracked before the call, or allocated earlier in the
same batch) leaves the counter, the touch map and the registry as they are and dispatches
nothing; and handling the same batch a second time leaves the counter, the touch map and
the registry as the first handling left them and dispatches nothing. -/
theorem tracked_contact_keeps_identity (host : Host) (L : Listeners) (now : Int) (s : Engine)
    (d : TargetData) (ls : List Listener) (e : RawEvent) (hnm : e.isMouseEvent = false) :
    (∀ c p, Dict.get s._T2P c = some p →
      Dict.get (_touchStart host L now s d ls e).state._T2P c = some p) ∧
    (∀ pre touch post, e.changedTouches = pre ++ touch :: post →
      (Dict.has s._T2P touch.identifier = true ∨ touch.identifier ∈ pre.map Touch.identifier) →
      (touchStartLoop host L e (pre ++ [touch]) (touchStartEntry now s d ls)).state._pointerId
          = (touchStartLoop host L e pre (touchStartEntry now s d ls)).state._pointerId ∧
        (touchStartLoop host L e (pre ++ [touch]) (touchStartEntry now s d ls)).state._T2P
          = (touchStartLoop host L e pre (touchStartEntry now s d ls)).state._T2P ∧
        (touchStartLoop host L e (pre ++ [touch]) (touchStartEntry now s d ls)).state._pointers
          = (touchStartLoop host L e pre (touchStartEntry now s d ls)).state._pointers ∧
        (touchStartLoop host L e (pre ++ [touch]) (touchStartEntry now s d ls)).dispatched
          = (touchStartLoop host L e pre (touchStartEntry now s d ls)).dispatched ∧
        _touchStart host L now s d ls e
          = touchStartLoop host L e post
              (touchStartLoop host L e (pre ++ [touch]) (touchStartEntry now s d ls))) ∧
    (∀ (L' : Listeners) (now' : Int) (d' : TargetData) (ls' : List Listener),
      (_touchStart host L' now' (_touchStart host L now s d ls e).state d' ls' e).state._pointerId
          = (_touchStart host L now s d ls e).state._pointerId ∧
        (_touchStart host L' now' (_touchStart host L now s d ls e).state d' ls' e).state._T2P
          = (_touchStart host L now s d ls e).state._T2P ∧
        (_touchStart host L' now' (_touchStart host L now s d ls e).state d' ls' e).state._pointers
          = (_touchStart host L now s d ls e).state._pointers ∧
        (_touchStart host L' now' (_touchStart host L now s d ls e).state d' ls' e).dispatched
          = []) := by
  refine ⟨?_, ?_, ?_⟩
  · intro c p h
    exact touchStartLoop_keeps host L e hnm _ _ c p h
  · intro pre touch post hbatch htr
    have hreached :
        Dict.has (touchStartLoop host L e pre (touchStartEntry now s d ls)).state._T2P
          touch.identifier = true :=
      touchStartLoop_tracks host L e hnm pre _ _ htr
    have hround : touchStartLoop host L e (pre ++ [touch]) (touchStartEntry now s d ls)
        = { touchStartLoop host L e pre (touchStartEntry now s d ls) with
            state := (touchStartLoop host L e pre (touchStartEntry now s d ls)).state.next } := by
      rw [touchStartLoop_append host L e hnm, touchStartLoop_cons_tracked host L e touch [] _
        hreached]
      rfl
    refine ⟨by rw [hround]; rfl, by rw [hround]; rfl, by rw [hround]; rfl, by rw [hround], ?_⟩
    unfold _touchStart
    rw [hbatch, ← touchStartLoop_append host L e hnm, List.append_assoc]
    rfl
  · intro L' now' d' ls'
    have hall : ∀ t ∈ e.changedTouches,
        Dict.has (touchStartEntry now' (_touchStart host L now s d ls e).state d' ls').state._T2P
          t.identifier = true := by
      intro t ht
      exact touchStartLoop_tracks host L e hnm e.changedTouches _ _
        (Or.inr (List.mem_map_of_mem _ ht))
    have h2 : _touchStart host L' now' (_touchStart host L now s d ls e).state d' ls' e
        = _ := touchStartLoop_all_tracked host L' e e.changedTouches _ hall
    rw [h2]
    exact ⟨rfl, rfl, rfl, rfl⟩

/-- C20 at a batch that names contact 7 twice, in the initial state: the second entry
changes nothing, and handling the batch again changes nothing. -/
theorem tracked_contact_keeps_identity_witness :
    (sampleTouchEvent "touchstart" [sampleTouch 7, sampleTouch 7]).isMouseEvent = false ∧
    (_touchStart touchHost quiet 1000 Engine.init defaultData []
        (sampleTouchEvent "touchstart" [sampleTouch 7, sampleTouch 7])).state
      = ⟨3, [(1, ⟨none, none, none, none⟩), (2, ⟨none, some 7, none, some false⟩)], [(7, 2)],
          [], 2⟩ ∧
    (_touchStart touchHost quiet 1001
        (_touchStart touchHost quiet 1000 Engine.init defaultData []
          (sampleTouchEvent "touchstart" [sampleTouch 7, sampleTouch 7])).state defaultData []
        (sampleTouchEvent "touchstart" [sampleTouch 7, sampleTouch 7])).state._T2P
      = (_touchStart touchHost quiet 1000 Engine.init defaultData []
          (sampleTouchEvent "touchstart" [sampleTouch 7, sampleTouch 7])).state._T2P ∧
    (_touchStart touchHost quiet 1001
        (_touchStart touchHost quiet 1000 Engine.init defaultData []
          (sampleTouchEvent "touchstart" [sampleTouch 7, sampleTouch 7])).state defaultData []
        (sampleTouchEvent "touchstart" [sampleTouch 7, sampleTouch 7])).dispatched = [] := by
  have h := (tracked_contact_keeps_identity touchHost quiet 1000 Engine.init defaultData []
    (sampleTouchEvent "touchstart" [sampleTouch 7, sampleTouch 7]) rfl).2.2 quiet 1001
    defaultData []
  exact ⟨rfl, rfl, h.2.1, h.2.2.2⟩

theorem touchEventOf_pointerId_allocated (host : Host) (s : Engine) (type : JSVal) (e : RawEvent)
    (touch : Touch) (c : Option Bool) :
    (touchEventOf host (allocated s touch c) type e touch).pointerId = .num s._pointerId := by
  simp [touchEventOf, touchBranch, touchPointerId, Props.ofTouch, allocated, Dict.get_set]

/-- What the loop of `_touchStart` adds to the dispatched events, for a TouchEvent: only
pointerover and pointerdown events, each carrying an identity that the counter passed
during the loop. -/
theorem touchStartLoop_dispatched (host : Host) (L : Listeners) (e : RawEvent)
    (hshape : e.isTouchShaped host = true) (l : List Touch) (o : Outcome) :
    ∃ later, (touchStartLoop host L e l o).dispatched = o.dispatched ++ later ∧
      o.state._pointerId ≤ (touchStartLoop host L e l o).state._pointerId ∧
      ∀ x ∈ later,
        (x.event.type = .str POINTER_OVER ∨ x.event.type = .str POINTER_DOWN) ∧
        ∃ q : Nat, x.event.pointerId = .num q ∧ o.state._pointerId ≤ q ∧
          q < (touchStartLoop host L e l o).state._pointerId := by
  refine touchStartLoop_induction host L e (isMouseEvent_of_touchShaped host e hshape)
    (fun o' => ∃ later, o'.dispatched = o.dispatched ++ later ∧
      o.state._pointerId ≤ o'.state._pointerId ∧
      ∀ x ∈ later,
        (x.event.type = .str POINTER_OVER ∨ x.event.type = .str POINTER_DOWN) ∧
        ∃ q : Nat, x.event.pointerId = .num q ∧ o.state._pointerId ≤ q ∧
          q < o'.state._pointerId) l ?_ ?_ o ⟨[], by simp, le_refl _, by simp⟩
  · rintro o' touch _ _ ⟨later, h1, h2, h3⟩
    exact ⟨later, h1, h2, h3⟩
  · rintro o' touch pO pD _ _ hO hD ⟨later, h1, h2, h3⟩
    rw [PointerEvent_touch host _ _ e touch hshape] at hO hD
    cases hO
    cases hD
    refine ⟨later ++
      [⟨e.target, touchEventOf host (allocated o'.state touch none) (.str POINTER_OVER) e touch⟩,
       ⟨e.target, touchEventOf host (allocated o'.state touch none) (.str POINTER_DOWN) e touch⟩],
      by simp [h1], ?_, ?_⟩
    · simp only [allocated, Engine.next]
      omega
    · intro x hx
      simp only [List.mem_append, List.mem_cons, List.mem_singleton, List.not_mem_nil,
        or_false] at hx
      rcases hx with hx | rfl | rfl
      · obtain ⟨ht, q, hq, hq1, hq2⟩ := h3 x hx
        refine ⟨ht, q, hq, hq1, ?_⟩
        simp only [allocated, Engine.next]
        omega
      · refine ⟨Or.inl rfl, o'.state._pointerId, touchEventOf_pointerId_allocated _ _ _ _ _ _, h2,
          ?_⟩
        simp [allocated, Engine.next]
      · refine ⟨Or.inr rfl, o'.state._pointerId, touchEventOf_pointerId_allocated _ _ _ _ _ _, h2,
          ?_⟩
        simp [allocated, Engine.next]

/-- C16: in a touch-start of a TouchEvent in a reachable state, a changed contact that is
newly allocated (not tracked before the call and not named earlier in the batch) gets
exactly two events, a pointerover directly followed by a pointerdown, both dispatched to
`e.target` and both with `pointerId` the identity `p > 1` the contact has in the touch
map afterwards, `pointerType` "touch", `width`, `height` and `pressure` the contact's
`radiusX`, `radiusY` and `force`, and the screen and client coordinates of the contact; no
other event of the touch-start carries `p`, and every event of the touch-start is a
pointerover or a pointerdown, so none is a pointermove. -/
theorem touchStart_dispatches_over_then_down (host : Host) (L : Listeners) (now : Int)
    (s : Engine) (d : TargetData) (ls : List Listener) (e : RawEvent)
    (pre : List Touch) (touch : Touch) (post : List Touch)
    (hs : Reachable s) (hshape : e.isTouchShaped host = true)
    (hbatch : e.changedTouches = pre ++ touch :: post)
    (hnew : Dict.has s._T2P touch.identifier = false ∧
      touch.identifier ∉ pre.map Touch.identifier) :
    ∃ (p : Nat) (pO pD : CanonicalEvent) (earlier later : List Dispatched),
      (_touchStart host L now s d ls e).dispatched
        = earlier ++ [⟨e.target, pO⟩, ⟨e.target, pD⟩] ++ later ∧
      1 < p ∧
      Dict.get (_touchStart host L now s d ls e).state._T2P touch.identifier = some p ∧
      pO.type = .str "pointerover" ∧ pD.type = .str "pointerdown" ∧
      (∀ ev, ev = pO ∨ ev = pD →
        ev.pointerId = .num p ∧ ev.pointerType = .str "touch" ∧
        ev.width = JSVal.ofOptInt touch.radiusX ∧ ev.height = JSVal.ofOptInt touch.radiusY ∧
        ev.pressure = JSVal.ofOptInt touch.force ∧
        ev.screenX = .num touch.screenX ∧ ev.screenY = .num touch.screenY ∧
        ev.clientX = .num touch.clientX ∧ ev.clientY = .num touch.clientY) ∧
      (∀ x ∈ earlier ++ later, x.event.pointerId ≠ .num p) ∧
      (∀ x ∈ (_touchStart host L now s d ls e).dispatched,
        (x.event.type = .str "pointerover" ∨ x.event.type = .str "pointerdown") ∧
        x.event.type ≠ .str "pointermove") := by
  have hnm := isMouseEvent_of_touchShaped host e hshape
  -- the loop up to the contact
  obtain ⟨earlier, hearlier, -, hbound⟩ :=
    touchStartLoop_dispatched host L e hshape pre (touchStartEntry now s d ls)
  have hinv : Inv (touchStartLoop host L e pre (touchStartEntry now s d ls)).state :=
    touchStartLoop_inv host L e pre _ (touchEntry_inv hs.inv now d ls)
  have hnone : Dict.get s._T2P touch.identifier = none := by
    have := hnew.1
    simpa [Dict.has] using this
  have hun : Dict.has (touchStartLoop host L e pre (touchStartEntry now s d ls)).state._T2P
      touch.identifier = false := by
    have := touchStartLoop_untracked host L e hnm pre (touchStartEntry now s d ls)
      touch.identifier hnone hnew.2
    simp [Dict.has, this]
  -- the round of the contact
  obtain ⟨pO, pD, hO, hD, hround⟩ :=
    touchStartLoop_cons_untracked host L e touch post _ hnm hun
  rw [PointerEvent_touch host _ _ e touch hshape] at hO hD
  cases hO
  cases hD
  -- the rest of the loop
  obtain ⟨later, hlater, -, hbound'⟩ := touchStartLoop_dispatched host L e hshape post
    { touchStartLoop host L e pre (touchStartEntry now s d ls) with
      state := (allocated (touchStartLoop host L e pre (touchStartEntry now s d ls)).state touch
        (some (defaultPreventedAfter L e.target (touchEventOf host
          (allocated (touchStartLoop host L e pre (touchStartEntry now s d ls)).state touch none)
          (.str POINTER_DOWN) e touch)))).next,
      dispatched := (touchStartLoop host L e pre (touchStartEntry now s d ls)).dispatched ++
        [⟨e.target, touchEventOf host
          (allocated (touchStartLoop host L e pre (touchStartEntry now s d ls)).state touch none)
          (.str POINTER_OVER) e touch⟩,
         ⟨e.target, touchEventOf host
          (allocated (touchStartLoop host L e pre (touchStartEntry now s d ls)).state touch none)
          (.str POINTER_DOWN) e touch⟩],
      defaultPrevented :=
        (touchStartLoop host L e pre (touchStartEntry now s d ls)).defaultPrevented ||
          defaultPreventedAfter L e.target (touchEventOf host
            (allocated (touchStartLoop host L e pre (touchStartEntry now s d ls)).state touch none)
            (.str POINTER_DOWN) e touch) }
  have hwhole : _touchStart host L now s d ls e
      = touchStartLoop host L e (touch :: post)
          (touchStartLoop host L e pre (touchStartEntry now s d ls)) := by
    unfold _touchStart
    rw [hbatch, touchStartLoop_append host L e hnm]
  rw [hround] at hwhole
  have hdisp : (_touchStart host L now s d ls e).dispatched
      = earlier ++ [⟨e.target, touchEventOf host
          (allocated (touchStartLoop host L e pre (touchStartEntry now s d ls)).state touch none)
          (.str POINTER_OVER) e touch⟩,
         ⟨e.target, touchEventOf host
          (allocated (touchStartLoop host L e pre (touchStartEntry now s d ls)).state touch none)
          (.str POINTER_DOWN) e touch⟩] ++ later := by
    rw [hwhole, hlater, hearlier]
    simp [touchStartEntry, touchEntry]
  refine ⟨(touchStartLoop host L e pre (touchStartEntry now s d ls)).state._pointerId, _, _,
    earlier, later, hdisp, ?_, ?_, rfl, rfl, ?_, ?_, ?_⟩
  · have := hinv.counter.1
    omega
  · rw [hwhole]
    apply touchStartLoop_keeps host L e hnm
    simp [allocated, Engine.next, Dict.get_set]
  · rintro ev (rfl | rfl)
    · exact ⟨touchEventOf_pointerId_allocated _ _ _ _ _ _, rfl, rfl, rfl, rfl, rfl, rfl, rfl, rfl⟩
    · exact ⟨touchEventOf_pointerId_allocated _ _ _ _ _ _, rfl, rfl, rfl, rfl, rfl, rfl, rfl, rfl⟩
  · intro x hx
    rcases List.mem_append.mp hx with hx | hx
    · obtain ⟨-, q, hq, -, hq2⟩ := hbound x hx
      rw [hq]
      intro h
      simp only [JSVal.num.injEq, Nat.cast_inj] at h
      omega
    · obtain ⟨-, q, hq, hq1, -⟩ := hbound' x hx
      rw [hq]
      intro h
      simp only [JSVal.num.injEq, Nat.cast_inj] at h
      simp only [allocated, Engine.next] at hq1
      omega
  · intro x hx
    rw [hdisp] at hx
    have htype : x.event.type = .str POINTER_OVER ∨ x.event.type = .str POINTER_DOWN := by
      simp only [List.mem_append, List.mem_cons, List.mem_singleton, List.not_mem_nil,
        or_false] at hx
      rcases hx with (hx | rfl | rfl) | hx
      · exact (hbound x hx).1
      · exact Or.inl rfl
      · exact Or.inr rfl
      · exact (hbound' x hx).1
    refine ⟨htype, ?_⟩
    rcases htype with h | h <;> rw [h] <;> decide

/-- C16 at a touch-start of contact 7 in the initial state: the contact gets identity 2,
and the two events are a pointerover and a pointerdown to element 10 with the contact's
radii, force and coordinates. -/
theorem touchStart_dispatches_over_then_down_witness :
    Reachable Engine.init ∧
    (sampleTouchEvent "touchstart" [sampleTouch 7]).isTouchShaped touchHost = true ∧
    (Dict.has Engine.init._T2P (sampleTouch 7).identifier = false ∧
      (sampleTouch 7).identifier ∉ ([] : List Touch).map Touch.identifier) ∧
    (∃ p : Nat, 1 < p ∧
      Dict.get (_touchStart touchHost quiet 1000 Engine.init defaultData []
        (sampleTouchEvent "touchstart" [sampleTouch 7])).state._T2P 7 = some p) ∧
    (_touchStart touchHost quiet 1000 Engine.init defaultData []
        (sampleTouchEvent "touchstart" [sampleTouch 7])).dispatched.map
        (fun x => (x.target, x.event.type, x.event.pointerId, x.event.pointerType,
          x.event.width, x.event.height, x.event.pressure, x.event.clientX, x.event.clientY))
      = [(10, .str "pointerover", .num 2, .str "touch", .num 5, .num 6, .num 1, .num 10, .num 20),
         (10, .str "pointerdown", .num 2, .str "touch", .num 5, .num 6, .num 1, .num 10, .num 20)] := by
  obtain ⟨p, pO, pD, earlier, later, -, hp, hget, -⟩ :=
    touchStart_dispatches_over_then_down touchHost quiet 1000 Engine.init defaultData []
      (sampleTouchEvent "touchstart" [sampleTouch 7]) [] (sampleTouch 7) [] Reachable.init rfl rfl
      ⟨rfl, by simp⟩
  exact ⟨Reachable.init, rfl, ⟨rfl, by simp⟩, ⟨p, hp, hget⟩, rfl⟩

/-! ## Primary pointer -/

theorem firstKey_isSome (d : Dict Int Nat) (h : d ≠ []) : ∃ k, firstKey d = some k := by
  unfold firstKey
  split
  · cases d with
    | nil => exact absurd rfl h
    | cons p d => exact ⟨p.1, rfl⟩
  · exact ⟨_, rfl⟩

/-- C1 fails on the code: the loop `for(var key in _T2P)` compares the numeric
`touch.identifier` with a property name, a string, by `===`, so whenever the touch map is
not empty the event built from a TouchEvent has `isPrimary` false, whichever contact it
is for. -/
theorem touch_isPrimary_false (host : Host) (s : Engine) (type : JSVal) (e : RawEvent)
    (touch : Touch) (hshape : e.isTouchShaped host = true) (htracked : s._T2P ≠ []) :
    ∃ ev, PointerEvent host s type (some (Props.ofTouch e touch)) = some ev ∧
      ev.isPrimary = .bool false := by
  obtain ⟨k, hk⟩ := firstKey_isSome s._T2P htracked
  refine ⟨_, PointerEvent_touch host s type e touch hshape, ?_⟩
  simp [touchEventOf, touchBranch, primaryLoop, hk, touchIdentifierOf, Props.ofTouch,
    JSVal.strictEq]

/-- The failing input of C1: a touch-start of the single contact 7 on the empty touch map
dispatches a pointerover and a pointerdown that both have `isPrimary` false. -/
theorem touch_isPrimary_false_witness :
    (sampleTouchEvent "touchstart" [sampleTouch 7]).isTouchShaped touchHost = true ∧
    (allocated Engine.init (sampleTouch 7) none)._T2P ≠ [] ∧
    (∃ ev, PointerEvent touchHost (allocated Engine.init (sampleTouch 7) none)
        (.str POINTER_DOWN)
        (some (Props.ofTouch (sampleTouchEvent "touchstart" [sampleTouch 7]) (sampleTouch 7)))
        = some ev ∧ ev.isPrimary = .bool false) ∧
    (_touchStart touchHost quiet 1000 Engine.init defaultData []
        (sampleTouchEvent "touchstart" [sampleTouch 7])).dispatched.map
        (fun x => (x.event.type, x.event.isPrimary))
      = [(.str "pointerover", .bool false), (.str "pointerdown", .bool false)] :=
  ⟨rfl, by decide,
    touch_isPrimary_false touchHost (allocated Engine.init (sampleTouch 7) none)
      (.str POINTER_DOWN) (sampleTouchEvent "touchstart" [sampleTouch 7]) (sampleTouch 7) rfl
      (by decide),
    rfl⟩

/-! ## Allocation -/

/-- A registered identity below the counter stays as it is through the loop of
`_touchStart`. -/
theorem touchStartLoop_keeps_pointer (host : Host) (L : Listeners) (e : RawEvent)
    (hnm : e.isMouseEvent = false) (l : List Touch) (o : Outcome) (k : Nat)
    (v : Option PointerState) (h : Dict.get o.state._pointers k = v)
    (hk : k < o.state._pointerId) :
    Dict.get (touchStartLoop host L e l o).state._pointers k = v := by
  have := touchStartLoop_induction host L e hnm
    (fun o' => Dict.get o'.state._pointers k = v ∧ k < o'.state._pointerId) l
    (fun _ _ _ _ h => h) ?_ o ⟨h, hk⟩
  · exact this.1
  · rintro o' touch pO pD _ _ _ _ ⟨h1, h2⟩
    have hne : o'.state._pointerId ≠ k := by omega
    refine ⟨by simp [allocated, Engine.next, Dict.get_set, hne, h1], ?_⟩
    simp only [allocated, Engine.next]
    omega

/-- The loop of `_touchStart` never decreases the counter. -/
theorem touchStartLoop_counter_le (host : Host) (L : Listeners) (e : RawEvent)
    (l : List Touch) :
    ∀ o : Outcome, o.state._pointerId ≤ (touchStartLoop host L e l o).state._pointerId := by
  induction l with
  | nil => intro o; exact le_refl _
  | cons touch rest ih =>
    intro o
    simp only [touchStartLoop]
    split_ifs
    · exact ih { o with state := o.state.next }
    · split
      · rename_i pO pD hO hD
        refine le_trans ?_ (ih _)
        simp [Engine.next]
      · simp

/-- The counter never decreases. -/
theorem Op.run_counter_le (host : Host) (L : Listeners) (s : Engine) (op : Op) :
    s._pointerId ≤ (op.run host L s)._pointerId := by
  have hmove : ∀ (e : RawEvent) (l : List Touch) (o : Outcome),
      (touchMoveLoop host L e l o).state._pointerId = o.state._pointerId := by
    intro e l
    induction l with
    | nil => intro o; rfl
    | cons touch rest ih =>
      intro o
      simp only [touchMoveLoop]
      split
      · rfl
      · split
        · rfl
        · rw [ih]; rfl
  have hend : ∀ (e : RawEvent) (l : List Touch) (o : Outcome),
      (touchEndLoop host L e l o).state._pointerId = o.state._pointerId := by
    intro e l
    induction l with
    | nil => intro o; rfl
    | cons touch rest ih =>
      intro o
      simp only [touchEndLoop]
      split
      · rfl
      · split
        · rfl
        · split
          · rw [ih]; rfl
          · rfl
  have hcancel : ∀ (e : RawEvent) (l : List Touch) (o : Outcome),
      (touchCancelLoop host e l o).state._pointerId = o.state._pointerId := by
    intro e l
    induction l with
    | nil => intro o; rfl
    | cons touch rest ih =>
      intro o
      simp only [touchCancelLoop]
      split
      · rfl
      · split
        · rfl
        · split
          · rw [ih]; rfl
          · rfl
  cases op with
  | touchStart now d ls e =>
    exact touchStartLoop_counter_le host L e e.changedTouches (touchStartEntry now s d ls)
  | touchMove now d? ls e =>
    cases d? with
    | none => exact le_refl _
    | some d => exact le_of_eq (hmove e e.changedTouches (touchEntry now s d ls)).symm
  | touchEnd now d? ls e =>
    cases d? with
    | none => exact le_refl _
    | some d =>
      exact le_of_eq (hend e e.changedTouches
        { touchEntry now s d ls with
          targetListeners :=
            gestureListeners.foldl removeEventListener (touchEntry now s d ls).targetListeners }).symm
  | touchCancel now d? ls e =>
    cases d? with
    | none => exact le_refl _
    | some d =>
      exact le_of_eq (hcancel e e.changedTouches
        { touchEntry now s d ls with
          targetListeners :=
            gestureListeners.foldl removeEventListener (touchEntry now s d ls).targetListeners }).symm
  | mouse now d ls e =>
    simp only [Op.run, _mouseCatch_state]
    split_ifs
    · exact le_refl _
    · unfold trackButtons
      split_ifs
      · split <;> simp
      · simp
  | msPointer d ls e => simp [Op.run, _msPointerCatch_state]
  | setCapture element pointerId =>
    simp only [Op.run, setPointerCapture, _bindPointer]
    split <;> simp
  | releaseCapture element pointerId =>
    simp only [Op.run, releasePointerCapture, _unbindPointer]
    split <;> simp

/-- C2: in a touch-start (of a source that is not a MouseEvent) handled in a reachable
state, a changed contact that is not tracked when the loop reaches it is given the value
`p` the counter has at that moment: `p` is at least the counter before the call and above
1, no key of the registry before the call, above every key of the registry and every
touch-map value at that moment, and the counter ends above `p`; after the call the touch
map sends the contact to `p` and the registry holds for `p` a state with that contact's
identifier and a null capture target.  The counter never decreases in any operation, so
`p` is above every identity handed out earlier. -/
theorem touchStart_allocates_counter (host : Host) (L : Listeners) (now : Int) (s : Engine)
    (d : TargetData) (ls : List Listener) (e : RawEvent)
    (pre : List Touch) (touch : Touch) (post : List Touch)
    (hs : Reachable s) (hnm : e.isMouseEvent = false)
    (hbatch : e.changedTouches = pre ++ touch :: post)
    (hnew : Dict.has s._T2P touch.identifier = false ∧
      touch.identifier ∉ pre.map Touch.identifier) :
    ∃ p : Nat,
      p = (touchStartLoop host L e pre (touchStartEntry now s d ls)).state._pointerId ∧
      Dict.get (_touchStart host L now s d ls e).state._T2P touch.identifier = some p ∧
      1 < p ∧ s._pointerId ≤ p ∧ p < (_touchStart host L now s d ls e).state._pointerId ∧
      Dict.get s._pointers p = none ∧
      (∀ k, Dict.has (touchStartLoop host L e pre (touchStartEntry now s d ls)).state._pointers k
        = true → k < p) ∧
      (∀ c q, Dict.get (touchStartLoop host L e pre (touchStartEntry now s d ls)).state._T2P c
        = some q → q < p) ∧
      (∃ st, Dict.get (_touchStart host L now s d ls e).state._pointers p = some st ∧
        st.touchIdentifier = some touch.identifier ∧ st.capturePointer = none) ∧
      (∀ (host' : Host) (L' : Listeners) (s' : Engine) (op : Op),
        s'._pointerId ≤ (op.run host' L' s')._pointerId) := by
  have hinv : Inv (touchStartLoop host L e pre (touchStartEntry now s d ls)).state :=
    touchStartLoop_inv host L e pre _ (touchEntry_inv hs.inv now d ls)
  have hnone : Dict.get s._T2P touch.identifier = none := by
    have := hnew.1
    simpa [Dict.has] using this
  have hun : Dict.has (touchStartLoop host L e pre (touchStartEntry now s d ls)).state._T2P
      touch.identifier = false := by
    have := touchStartLoop_untracked host L e hnm pre (touchStartEntry now s d ls)
      touch.identifier hnone hnew.2
    simp [Dict.has, this]
  obtain ⟨pO, pD, -, -, hround⟩ :=
    touchStartLoop_cons_untracked host L e touch post _ hnm hun
  have hwhole : _touchStart host L now s d ls e
      = touchStartLoop host L e (touch :: post)
          (touchStartLoop host L e pre (touchStartEntry now s d ls)) := by
    unfold _touchStart
    rw [hbatch, touchStartLoop_append host L e hnm]
  rw [hround] at hwhole
  have hle : s._pointerId
      ≤ (touchStartLoop host L e pre (touchStartEntry now s d ls)).state._pointerId :=
    touchStartLoop_counter_le host L e pre (touchStartEntry now s d ls)
  refine ⟨_, rfl, ?_, ?_, hle, ?_, ?_, ?_, ?_, ?_, ?_⟩
  · rw [hwhole]
    apply touchStartLoop_keeps host L e hnm
    simp [allocated, Engine.next, Dict.get_set]
  · have := hinv.counter.1
    omega
  · rw [hwhole]
    refine lt_of_lt_of_le ?_ (touchStartLoop_counter_le host L e post _)
    simp [allocated, Engine.next]
  · cases hget : Dict.get s._pointers
        (touchStartLoop host L e pre (touchStartEntry now s d ls)).state._pointerId with
    | none => rfl
    | some st =>
      have := hs.inv.counter.2 _ st hget
      omega
  · intro k hk
    simp only [Dict.has, Option.isSome_iff_exists] at hk
    obtain ⟨st, hst⟩ := hk
    exact hinv.counter.2 k st hst
  · intro c q hq
    obtain ⟨-, st, hst, -⟩ := hinv.touch c q hq
    exact hinv.counter.2 q st hst
  · refine ⟨⟨none, some touch.identifier, none, some (defaultPreventedAfter L e.target pD)⟩, ?_, rfl, rfl⟩
    rw [hwhole]
    apply touchStartLoop_keeps_pointer host L e hnm
    · simp [allocated, Engine.next, Dict.get_set]
    · simp [allocated, Engine.next]
  · intro host' L' s' op
    exact Op.run_counter_le host' L' s' op

/-- C2 at a touch-start of contacts 7 and 3 in the initial state: contact 3, reached with
the counter at 3, gets identity 3. -/
theorem touchStart_allocates_counter_witness :
    Reachable Engine.init ∧
    (sampleTouchEvent "touchstart" [sampleTouch 7, sampleTouch 3]).isMouseEvent = false ∧
    (Dict.has Engine.init._T2P (sampleTouch 3).identifier = false ∧
      (sampleTouch 3).identifier ∉ [sampleTouch 7].map Touch.identifier) ∧
    (∃ p : Nat,
      p = (touchStartLoop touchHost quiet
        (sampleTouchEvent "touchstart" [sampleTouch 7, sampleTouch 3]) [sampleTouch 7]
        (touchStartEntry 1000 Engine.init defaultData [])).state._pointerId ∧
      Dict.get (_touchStart touchHost quiet 1000 Engine.init defaultData []
        (sampleTouchEvent "touchstart" [sampleTouch 7, sampleTouch 3])).state._T2P 3 = some p) ∧
    (_touchStart touchHost quiet 1000 Engine.init defaultData []
        (sampleTouchEvent "touchstart" [sampleTouch 7, sampleTouch 3])).state
      = ⟨4, [(1, ⟨none, none, none, none⟩), (2, ⟨none, some 7, none, some false⟩),
            (3, ⟨none, some 3, none, some false⟩)], [(7, 2), (3, 3)], [], 2⟩ := by
  obtain ⟨p, hp, hget, -⟩ :=
    touchStart_allocates_counter touchHost quiet 1000 Engine.init defaultData []
      (sampleTouchEvent "touchstart" [sampleTouch 7, sampleTouch 3]) [sampleTouch 7]
      (sampleTouch 3) [] Reachable.init rfl rfl ⟨rfl, by decide⟩
  exact ⟨Reachable.init, rfl, ⟨rfl, by decide⟩, ⟨p, hp, hget⟩, rfl⟩

/-! ## The lifecycle of one contact -/

theorem touchEventOf_pointerId (host : Host) (s : Engine) (type : JSVal) (e : RawEvent) (touch : Touch)
    (p : Nat) (h : Dict.get s._T2P touch.identifier = some p) :
    (touchEventOf host s type e touch).pointerId = .num p := by
  simp [touchEventOf, touchBranch, touchPointerId, Props.ofTouch, h]

/-- A touch-move of one tracked contact. -/
theorem _touchMove_single (host : Host) (L : Listeners) (now : Int) (s : Engine)
    (d : TargetData) (ls : List Listener) (e : RawEvent) (t : Touch) (p : Nat)
    (st : PointerState) (hshape : e.isTouchShaped host = true) (hbatch : e.changedTouches = [t])
    (hT : Dict.get s._T2P t.identifier = some p) (hreg : Dict.get s._pointers p = some st) :
    ∃ pM, _touchMove host L now s (some d) ls e
        = ⟨{ s with _TCurrentTouch := 1 }, some { d with lastTouch := some now }, ls,
            [⟨st.capturePointer.getD t.target, pM⟩],
            defaultPreventedAfter L (st.capturePointer.getD t.target) pM, d.opts.stopBaseEvent.truthy, false⟩ ∧
      pM.type = .str "pointermove" ∧ pM.pointerId = .num p := by
  refine ⟨touchEventOf host { s with _TCurrentTouch := 0 } (.str POINTER_MOVE) e t, ?_, rfl,
    touchEventOf_pointerId _ _ _ _ _ p hT⟩
  unfold _touchMove
  rw [hbatch]
  simp only [touchMoveLoop, touchEntry, PointerEvent_touch host _ _ e t hshape, pointerOf, hT,
    Option.bind, hreg]
  simp [Engine.next]

/-- A touch-end of one tracked contact. -/
theorem _touchEnd_single (host : Host) (L : Listeners) (now : Int) (s : Engine)
    (d : TargetData) (ls : List Listener) (e : RawEvent) (t : Touch) (p : Nat)
    (st : PointerState) (hshape : e.isTouchShaped host = true) (hbatch : e.changedTouches = [t])
    (hT : Dict.get s._T2P t.identifier = some p) (hreg : Dict.get s._pointers p = some st) :
    ∃ pU pO, _touchEnd host L now s (some d) ls e
        = ⟨{ s with
              _TCurrentTouch := 1, _pointers := Dict.del s._pointers p,
              _T2P := Dict.del s._T2P t.identifier },
            some { d with lastTouch := some now },
            gestureListeners.foldl removeEventListener ls,
            [⟨st.capturePointer.getD t.target, pU⟩, ⟨st.capturePointer.getD t.target, pO⟩],
            (defaultPreventedAfter L (st.capturePointer.getD t.target) pU || defaultPreventedAfter L (st.capturePointer.getD t.target) pO),
            d.opts.stopBaseEvent.truthy, false⟩ ∧
      pU.type = .str "pointerup" ∧ pU.pointerId = .num p ∧
      pO.type = .str "pointerout" ∧ pO.pointerId = .num p := by
  refine ⟨touchEventOf host { s with _TCurrentTouch := 0 } (.str POINTER_UP) e t,
    touchEventOf host { s with _TCurrentTouch := 0 } (.str POINTER_OUT) e t, ?_, rfl,
    touchEventOf_pointerId _ _ _ _ _ p hT, rfl, touchEventOf_pointerId _ _ _ _ _ p hT⟩
  unfold _touchEnd
  rw [hbatch]
  simp only [touchEndLoop, touchEntry, PointerEvent_touch host _ _ e t hshape, hT, hreg]
  simp [Engine.next, release]

/-- A touch-cancel of one tracked contact. -/
theorem _touchCancel_single (host : Host) (now : Int) (s : Engine)
    (d : TargetData) (ls : List Listener) (e : RawEvent) (t : Touch) (p : Nat)
    (st : PointerState) (hshape : e.isTouchShaped host = true) (hbatch : e.changedTouches = [t])
    (hT : Dict.get s._T2P t.identifier = some p) (hreg : Dict.get s._pointers p = some st) :
    ∃ pU pO pC, _touchCancel host now s (some d) ls e
        = ⟨{ s with
              _TCurrentTouch := 1, _pointers := Dict.del s._pointers p,
              _T2P := Dict.del s._T2P t.identifier },
            some { d with lastTouch := some now },
            gestureListeners.foldl removeEventListener ls,
            [⟨st.capturePointer.getD t.target, pU⟩, ⟨st.capturePointer.getD t.target, pO⟩,
             ⟨st.capturePointer.getD t.target, pC⟩],
            false, d.opts.stopBaseEvent.truthy, false⟩ ∧
      pU.type = .str "pointerup" ∧ pU.pointerId = .num p ∧
      pO.type = .str "pointerout" ∧ pO.pointerId = .num p ∧
      pC.type = .str "pointercancel" ∧ pC.pointerId = .num p := by
  refine ⟨touchEventOf host { s with _TCurrentTouch := 0 } (.str POINTER_UP) e t,
    touchEventOf host { s with _TCurrentTouch := 0 } (.str POINTER_OUT) e t,
    touchEventOf host { s with _TCurrentTouch := 0 } (.str POINTER_CANCEL) e t, ?_, rfl,
    touchEventOf_pointerId _ _ _ _ _ p hT, rfl, touchEventOf_pointerId _ _ _ _ _ p hT, rfl,
    touchEventOf_pointerId _ _ _ _ _ p hT⟩
  unfold _touchCancel
  rw [hbatch]
  simp only [touchCancelLoop, touchEntry, PointerEvent_touch host _ _ e t hshape, hT, hreg]
  simp [Engine.next, release]

/-- A touch-start of one untracked contact. -/
theorem _touchStart_single (host : Host) (L : Listeners) (now : Int) (s : Engine)
    (d : TargetData) (ls : List Listener) (e : RawEvent) (t : Touch)
    (hshape : e.isTouchShaped host = true) (hbatch : e.changedTouches = [t])
    (hT : Dict.get s._T2P t.identifier = none) :
    ∃ pO pD, (_touchStart host L now s d ls e).dispatched = [⟨e.target, pO⟩, ⟨e.target, pD⟩] ∧
      (_touchStart host L now s d ls e).state._T2P = Dict.set s._T2P t.identifier s._pointerId ∧
      (_touchStart host L now s d ls e).state._pointers
        = Dict.set s._pointers s._pointerId
            ⟨none, some t.identifier, none, some (defaultPreventedAfter L e.target pD)⟩ ∧
      (_touchStart host L now s d ls e).state._pointerId = s._pointerId + 1 ∧
      (_touchStart host L now s d ls e).threw = false ∧
      pO.type = .str "pointerover" ∧ pO.pointerId = .num s._pointerId ∧
      pD.type = .str "pointerdown" ∧ pD.pointerId = .num s._pointerId := by
  have hun : Dict.has (touchStartEntry now s d ls).state._T2P t.identifier = false := by
    simp [touchStartEntry, touchEntry, Dict.has, hT]
  obtain ⟨pO, pD, hO, hD, hround⟩ :=
    touchStartLoop_cons_untracked host L e t [] _ (isMouseEvent_of_touchShaped host e hshape) hun
  rw [PointerEvent_touch host _ _ e t hshape] at hO hD
  refine ⟨pO, pD, ?_, ?_, ?_, ?_, ?_, ?_, ?_, ?_, ?_⟩
  · unfold _touchStart
    rw [hbatch, hround]
    simp [touchStartLoop, touchStartEntry, touchEntry]
  · unfold _touchStart
    rw [hbatch, hround]
    simp [touchStartLoop, touchStartEntry, touchEntry, allocated, Engine.next]
  · unfold _touchStart
    rw [hbatch, hround]
    simp [touchStartLoop, touchStartEntry, touchEntry, allocated, Engine.next]
  · unfold _touchStart
    rw [hbatch, hround]
    simp [touchStartLoop, touchStartEntry, touchEntry, allocated, Engine.next]
  · unfold _touchStart
    rw [hbatch, hround]
    simp [touchStartLoop, touchStartEntry, touchEntry]
  · cases hO; rfl
  · cases hO
    exact touchEventOf_pointerId_allocated _ _ _ _ _ _
  · cases hD; rfl
  · cases hD
    exact touchEventOf_pointerId_allocated _ _ _ _ _ _

theorem runOps_nil (host : Host) (L : Listeners) (s : Engine) :
    runOps host L s [] = (s, []) := rfl

theorem runOps_cons (host : Host) (L : Listeners) (s : Engine) (op : Op) (ops : List Op) :
    runOps host L s (op :: ops)
      = ((runOps host L (op.run host L s) ops).1,
         op.dispatched host L s ++ (runOps host L (op.run host L s) ops).2) := rfl

/-- The touch-moves of a tracked contact keep it tracked and add one pointermove each. -/
theorem runOps_moves (host : Host) (L : Listeners) (c : Int) (p : Nat) (moves : List Op)
    (hmoves : ∀ op ∈ moves, op.isMoveOf host c) (rest : List Op) :
    ∀ s : Engine, Dict.get s._T2P c = some p → (∃ st, Dict.get s._pointers p = some st) →
      ∃ (s' : Engine) (trace : List Dispatched),
        runOps host L s (moves ++ rest)
          = ((runOps host L s' rest).1, trace ++ (runOps host L s' rest).2) ∧
        trace.map (fun x => x.event.type) = List.replicate moves.length (.str "pointermove") ∧
        (∀ x ∈ trace, x.event.pointerId = .num p) ∧
        Dict.get s'._T2P c = some p ∧ (∃ st, Dict.get s'._pointers p = some st) := by
  induction moves with
  | nil =>
    intro s hT hreg
    exact ⟨s, [], by simp, rfl, by simp, hT, hreg⟩
  | cons op moves ih =>
    intro s hT hreg
    have hop := hmoves op (List.mem_cons_self _ _)
    cases op with
    | touchMove now d? ls e =>
      obtain ⟨hd, hshape, t, hbatch, rfl⟩ := hop
      obtain ⟨d, rfl⟩ := Option.isSome_iff_exists.mp hd
      obtain ⟨st, hst⟩ := hreg
      obtain ⟨pM, hout, htype, hid⟩ :=
        _touchMove_single host L now s d ls e t p st hshape hbatch hT hst
      obtain ⟨s', trace, hrun, htrace, hids, hT', hreg'⟩ :=
        ih (fun op hop => hmoves op (List.mem_cons_of_mem _ hop))
          { s with _TCurrentTouch := 1 } hT ⟨st, hst⟩
      refine ⟨s', ⟨st.capturePointer.getD t.target, pM⟩ :: trace, ?_, ?_, ?_, hT', hreg'⟩
      · rw [List.cons_append, runOps_cons]
        simp only [Op.run, Op.dispatched, hout]
        rw [hrun]
        simp
      · simp [htrace, htype, List.replicate_succ]
      · intro x hx
        rcases List.mem_cons.mp hx with rfl | hx
        · exact hid
        · exact hids x hx
    | touchStart _ _ _ _ => exact absurd hop (by simp [Op.isMoveOf])
    | touchEnd _ _ _ _ => exact absurd hop (by simp [Op.isMoveOf])
    | touchCancel _ _ _ _ => exact absurd hop (by simp [Op.isMoveOf])
    | mouse _ _ _ _ => exact absurd hop (by simp [Op.isMoveOf])
    | msPointer _ _ _ => exact absurd hop (by simp [Op.isMoveOf])
    | setCapture _ _ => exact absurd hop (by simp [Op.isMoveOf])
    | releaseCapture _ _ => exact absurd hop (by simp [Op.isMoveOf])

/-- The lifecycle of one contact when every gesture occurrence is delivered on an element
that has a configuration (the touched element was attached itself).  On an empty touch
map, a touch-start of the one contact `c`, then any number of touch-moves of `c`, then a
touch-end of `c` (all TouchEvents) dispatch exactly pointerover, pointerdown, one
pointermove per touch-move, pointerup, pointerout, in that order, every event with the
`pointerId` `p` that the touch-start allocated (the counter's value before it);
afterwards `p` is no key of the registry and `c` no key of the touch map. -/
theorem single_contact_lifecycle (host : Host) (L : Listeners) (s : Engine) (c : Int)
    (now0 : Int) (d0 : TargetData) (ls0 : List Listener) (e0 : RawEvent) (t0 : Touch)
    (moves : List Op)
    (now1 : Int) (d1 : TargetData) (ls1 : List Listener) (e1 : RawEvent) (t1 : Touch)
    (hempty : s._T2P = [])
    (hstart : e0.isTouchShaped host = true ∧ e0.changedTouches = [t0] ∧ t0.identifier = c)
    (hmoves : ∀ op ∈ moves, op.isMoveOf host c)
    (hend : e1.isTouchShaped host = true ∧ e1.changedTouches = [t1] ∧ t1.identifier = c) :
    Dict.get (_touchStart host L now0 s d0 ls0 e0).state._T2P c = some s._pointerId ∧
    (runOps host L s
        (.touchStart now0 d0 ls0 e0 :: (moves ++ [.touchEnd now1 (some d1) ls1 e1]))).2.map
        (fun x => x.event.type)
      = [.str "pointerover", .str "pointerdown"] ++
          List.replicate moves.length (.str "pointermove") ++
          [.str "pointerup", .str "pointerout"] ∧
    (∀ x ∈ (runOps host L s
        (.touchStart now0 d0 ls0 e0 :: (moves ++ [.touchEnd now1 (some d1) ls1 e1]))).2,
      x.event.pointerId = .num s._pointerId) ∧
    Dict.get (runOps host L s
        (.touchStart now0 d0 ls0 e0 :: (moves ++ [.touchEnd now1 (some d1) ls1 e1]))).1._pointers
      s._pointerId = none ∧
    Dict.get (runOps host L s
        (.touchStart now0 d0 ls0 e0 :: (moves ++ [.touchEnd now1 (some d1) ls1 e1]))).1._T2P c
      = none := by
  obtain ⟨hshape0, hbatch0, rfl⟩ := hstart
  obtain ⟨hshape1, hbatch1, hc1⟩ := hend
  have hT0 : Dict.get s._T2P t0.identifier = none := by simp [hempty, Dict.get]
  obtain ⟨pO, pD, hdisp, hT2P, hregs, -, -, hOt, hOid, hDt, hDid⟩ :=
    _touchStart_single host L now0 s d0 ls0 e0 t0 hshape0 hbatch0 hT0
  have hT1 : Dict.get (_touchStart host L now0 s d0 ls0 e0).state._T2P t0.identifier
      = some s._pointerId := by
    rw [hT2P]
    exact Dict.get_set_same _ _ _
  have hreg1 : ∃ st, Dict.get (_touchStart host L now0 s d0 ls0 e0).state._pointers s._pointerId
      = some st := by
    rw [hregs]
    exact ⟨_, Dict.get_set_same _ _ _⟩
  obtain ⟨s', trace, hrun, htrace, hids, hT', st', hst'⟩ :=
    runOps_moves host L t0.identifier s._pointerId moves hmoves [.touchEnd now1 (some d1) ls1 e1]
      (_touchStart host L now0 s d0 ls0 e0).state hT1 hreg1
  obtain ⟨pU, pOut, hend, hUt, hUid, hOutt, hOutid⟩ :=
    _touchEnd_single host L now1 s' d1 ls1 e1 t1 s._pointerId st' hshape1 hbatch1
      (by rw [hc1]; exact hT') hst'
  have hall : runOps host L s
      (.touchStart now0 d0 ls0 e0 :: (moves ++ [.touchEnd now1 (some d1) ls1 e1]))
      = ((_touchEnd host L now1 s' (some d1) ls1 e1).state,
          [⟨e0.target, pO⟩, ⟨e0.target, pD⟩] ++ (trace ++
            ((_touchEnd host L now1 s' (some d1) ls1 e1).dispatched ++ []))) := by
    rw [runOps_cons]
    simp only [Op.run, Op.dispatched, hdisp]
    rw [hrun]
    simp only [runOps_cons, runOps_nil, Op.run, Op.dispatched]
  rw [hall]
  refine ⟨hT1, ?_, ?_, ?_, ?_⟩
  · simp [hend, htrace, hOt, hDt, hUt, hOutt]
  · intro x hx
    simp only [hend, List.append_nil, List.mem_append, List.mem_cons, List.mem_singleton,
      List.not_mem_nil, or_false] at hx
    rcases hx with (rfl | rfl) | hx | rfl | rfl
    · exact hOid
    · exact hDid
    · exact hids x hx
    · exact hUid
    · exact hOutid
  · simp [hend, Dict.get_del]
  · simp [hend, Dict.get_del, hc1]

/-- The lifecycle of contact 7 in the initial state with two touch-moves: the trace is
pointerover, pointerdown, pointermove, pointermove, pointerup, pointerout, all with
`pointerId` 2. -/
theorem single_contact_lifecycle_witness :
    Engine.init._T2P = [] ∧
    (∀ op ∈ [Op.touchMove 1001 (some defaultData) [] (sampleTouchEvent "touchmove" [sampleTouch 7]),
        Op.touchMove 1002 (some defaultData) [] (sampleTouchEvent "touchmove" [bareTouch 7])],
      op.isMoveOf touchHost 7) ∧
    (runOps touchHost quiet Engine.init
        [.touchStart 1000 defaultData [] (sampleTouchEvent "touchstart" [sampleTouch 7]),
         .touchMove 1001 (some defaultData) [] (sampleTouchEvent "touchmove" [sampleTouch 7]),
         .touchMove 1002 (some defaultData) [] (sampleTouchEvent "touchmove" [bareTouch 7]),
         .touchEnd 1003 (some defaultData) [] (sampleTouchEvent "touchend" [sampleTouch 7])]).2.map
        (fun x => (x.event.type, x.event.pointerId))
      = [(.str "pointerover", .num 2), (.str "pointerdown", .num 2),
         (.str "pointermove", .num 2), (.str "pointermove", .num 2),
         (.str "pointerup", .num 2), (.str "pointerout", .num 2)] ∧
    Dict.get (runOps touchHost quiet Engine.init
        [.touchStart 1000 defaultData [] (sampleTouchEvent "touchstart" [sampleTouch 7]),
         .touchMove 1001 (some defaultData) [] (sampleTouchEvent "touchmove" [sampleTouch 7]),
         .touchMove 1002 (some defaultData) [] (sampleTouchEvent "touchmove" [bareTouch 7]),
         .touchEnd 1003 (some defaultData) [] (sampleTouchEvent "touchend" [sampleTouch 7])]).1._pointers
      2 = none := by
  have hmoves : ∀ op ∈ [Op.touchMove 1001 (some defaultData) []
        (sampleTouchEvent "touchmove" [sampleTouch 7]),
      Op.touchMove 1002 (some defaultData) [] (sampleTouchEvent "touchmove" [bareTouch 7])],
      op.isMoveOf touchHost 7 := by
    intro op hop
    simp only [List.mem_cons, List.mem_singleton, List.not_mem_nil, or_false] at hop
    rcases hop with rfl | rfl
    · exact ⟨rfl, rfl, _, rfl, rfl⟩
    · exact ⟨rfl, rfl, _, rfl, rfl⟩
  have h := single_contact_lifecycle touchHost quiet Engine.init 7 1000 defaultData []
    (sampleTouchEvent "touchstart" [sampleTouch 7]) (sampleTouch 7) _ 1003 defaultData []
    (sampleTouchEvent "touchend" [sampleTouch 7]) (sampleTouch 7) rfl ⟨rfl, rfl, rfl⟩ hmoves
    ⟨rfl, rfl, rfl⟩
  exact ⟨rfl, hmoves, rfl, h.2.2.2.1⟩

/-- A touch-cancel delivered on an element that has a configuration.  When its only
changed contact is tracked with identity `p`, the handler dispatches exactly pointerup,
pointerout, pointercancel, in that order, all three to the capture target of `p` if it
is set and to the contact's own target otherwise, does not raise, and leaves `p` out of
the registry and the contact out of the touch map.  The handler takes no feedback from
the listeners, and the state `st` of `p`, its recorded `mouseCanceled` included, is
arbitrary. -/
theorem touchCancel_releases (host : Host) (now : Int) (s : Engine) (d : TargetData)
    (ls : List Listener) (e : RawEvent) (t : Touch) (p : Nat) (st : PointerState)
    (hshape : e.isTouchShaped host = true) (hbatch : e.changedTouches = [t])
    (htracked : Dict.get s._T2P t.identifier = some p)
    (hlive : Dict.get s._pointers p = some st) :
    (_touchCancel host now s (some d) ls e).dispatched.map (fun x => (x.target, x.event.type))
      = [(st.capturePointer.getD t.target, .str "pointerup"),
         (st.capturePointer.getD t.target, .str "pointerout"),
         (st.capturePointer.getD t.target, .str "pointercancel")] ∧
    (∀ x ∈ (_touchCancel host now s (some d) ls e).dispatched, x.event.pointerId = .num p) ∧
    (_touchCancel host now s (some d) ls e).threw = false ∧
    Dict.get (_touchCancel host now s (some d) ls e).state._pointers p = none ∧
    Dict.get (_touchCancel host now s (some d) ls e).state._T2P t.identifier = none := by
  obtain ⟨pU, pO, pC, hout, hUt, hUid, hOt, hOid, hCt, hCid⟩ :=
    _touchCancel_single host now s d ls e t p st hshape hbatch htracked hlive
  rw [hout]
  refine ⟨by simp [hUt, hOt, hCt], ?_, rfl, by simp [Dict.get_del], by simp [Dict.get_del]⟩
  intro x hx
  simp only [List.mem_cons, List.mem_singleton, List.not_mem_nil, or_false] at hx
  rcases hx with rfl | rfl | rfl
  · exact hUid
  · exact hOid
  · exact hCid

/-- A touch-cancel of contact 7, tracked with identity 2 that element 12 has captured:
the three events go to element 12 and the identity is released. -/
theorem touchCancel_releases_witness :
    Dict.get (setPointerCapture
        (_touchStart touchHost preventing 1000 Engine.init defaultData []
          (sampleTouchEvent "touchstart" [sampleTouch 7])).state 12 2).state._T2P 7 = some 2 ∧
    Dict.get (setPointerCapture
        (_touchStart touchHost preventing 1000 Engine.init defaultData []
          (sampleTouchEvent "touchstart" [sampleTouch 7])).state 12 2).state._pointers 2
      = some ⟨some 12, some 7, none, some false⟩ ∧
    (_touchCancel touchHost 1001
        (setPointerCapture
          (_touchStart touchHost preventing 1000 Engine.init defaultData []
            (sampleTouchEvent "touchstart" [sampleTouch 7])).state 12 2).state
        (some defaultData) [] (sampleTouchEvent "touchcancel" [sampleTouch 7])).dispatched.map
        (fun x => (x.target, x.event.type))
      = [(12, .str "pointerup"), (12, .str "pointerout"), (12, .str "pointercancel")] ∧
    Dict.get (_touchCancel touchHost 1001
        (setPointerCapture
          (_touchStart touchHost preventing 1000 Engine.init defaultData []
            (sampleTouchEvent "touchstart" [sampleTouch 7])).state 12 2).state
        (some defaultData) [] (sampleTouchEvent "touchcancel" [sampleTouch 7])).state._pointers 2
      = none := by
  have h := touchCancel_releases touchHost 1001
    (setPointerCapture
      (_touchStart touchHost preventing 1000 Engine.init defaultData []
        (sampleTouchEvent "touchstart" [sampleTouch 7])).state 12 2).state
    defaultData [] (sampleTouchEvent "touchcancel" [sampleTouch 7]) (sampleTouch 7) 2
    ⟨some 12, some 7, none, some false⟩ rfl rfl rfl rfl
  exact ⟨rfl, rfl, h.1, h.2.2.2.1⟩

/-! ## The mouse handler -/

/-- A mouse occurrence that is not suppressed dispatches exactly one event in a reachable
state. -/
theorem _mouseCatch_dispatches_one (host : Host) (L : Listeners) (now : Int) (s : Engine)
    (d : TargetData) (ls : List Listener) (e : RawEvent) (hs : Reachable s)
    (hc : isCompatibility now d.lastTouch = false) :
    ∃ s1 mouse eve, trackButtons s e = some s1 ∧ Dict.get s1._pointers 1 = some mouse ∧
      PointerEvent host s1 (kindOf _ME2W3C e.type)
        (some { Props.empty with
          baseEvent := some e, bubbles := .bool e.bubbles, cancelable := .bool e.cancelable,
          relatedTarget :=
            if mouse.capturePointer.getD e.target ≠ e.target then .null else .undefined })
        = some eve ∧
      _mouseCatch host L now s d ls e
        = ⟨s1, some d, ls, [⟨mouse.capturePointer.getD e.target, eve⟩],
            defaultPreventedAfter L (mouse.capturePointer.getD e.target) eve, d.opts.stopBaseEvent.truthy, false⟩ := by
  obtain ⟨m, hm, -⟩ := hs.inv.mouse
  have hs1 : ∃ s1, trackButtons s e = some s1 := by
    unfold trackButtons
    split_ifs
    · rw [hm]
      exact ⟨_, rfl⟩
    · exact ⟨_, rfl⟩
  obtain ⟨s1, hs1⟩ := hs1
  obtain ⟨mouse, hmouse, -⟩ := (trackButtons_inv hs.inv e s1 hs1).mouse
  obtain ⟨eve, heve⟩ := PointerEvent_isSome host s1 (kindOf _ME2W3C e.type)
    (some { Props.empty with
      baseEvent := some e, bubbles := .bool e.bubbles, cancelable := .bool e.cancelable,
      relatedTarget :=
        if mouse.capturePointer.getD e.target ≠ e.target then .null else .undefined })
    ⟨mouse, hmouse⟩
  refine ⟨s1, mouse, eve, hs1, hmouse, heve, ?_⟩
  unfold _mouseCatch
  simp only [hc, Bool.false_eq_true, if_false, hs1, hmouse, heve]

/-- C5: for a mouse occurrence handled in a reachable state on a target whose last touch
occurrence was recorded at time `t`: when `now - t < 400` the handler dispatches nothing,
leaves the statics (the registry and the stored bitmask included) as they were and does
not raise; when `now - t >= 400` it dispatches exactly one synthesized event and does not
raise. -/
theorem mouse_compatibility_window (host : Host) (L : Listeners) (now t : Int) (s : Engine)
    (d : TargetData) (ls : List Listener) (e : RawEvent) (hs : Reachable s)
    (hlast : d.lastTouch = some t) :
    (now - t < 400 →
      (_mouseCatch host L now s d ls e).dispatched = [] ∧
      (_mouseCatch host L now s d ls e).state = s ∧
      (_mouseCatch host L now s d ls e).defaultPrevented = false ∧
      (_mouseCatch host L now s d ls e).threw = false) ∧
    (400 ≤ now - t →
      (∃ x, (_mouseCatch host L now s d ls e).dispatched = [x]) ∧
      (_mouseCatch host L now s d ls e).threw = false) := by
  constructor
  · intro h
    have hc : isCompatibility now d.lastTouch = true := by
      simp [isCompatibility, hlast, h]
    unfold _mouseCatch
    simp [hc]
  · intro h
    have hc : isCompatibility now d.lastTouch = false := by
      simp only [isCompatibility, hlast, decide_eq_false_iff_not]
      omega
    obtain ⟨s1, mouse, eve, -, -, -, hout⟩ :=
      _mouseCatch_dispatches_one host L now s d ls e hs hc
    rw [hout]
    exact ⟨⟨_, rfl⟩, rfl⟩

/-- C5 at a mousedown 399 ms and 400 ms after a touch recorded at time 1000. -/
theorem mouse_compatibility_window_witness :
    Reachable Engine.init ∧
    (_mouseCatch legacyHost quiet 1399 Engine.init ⟨defaultData.opts, some 1000⟩ []
        (sampleMouse "mousedown" 0 none)).dispatched = [] ∧
    (_mouseCatch legacyHost quiet 1399 Engine.init ⟨defaultData.opts, some 1000⟩ []
        (sampleMouse "mousedown" 0 none)).state = Engine.init ∧
    (∃ x, (_mouseCatch legacyHost quiet 1400 Engine.init ⟨defaultData.opts, some 1000⟩ []
        (sampleMouse "mousedown" 0 none)).dispatched = [x]) := by
  have h1 := (mouse_compatibility_window legacyHost quiet 1399 1000 Engine.init
    ⟨defaultData.opts, some 1000⟩ [] (sampleMouse "mousedown" 0 none) Reachable.init rfl).1
    (by decide)
  have h2 := (mouse_compatibility_window legacyHost quiet 1400 1000 Engine.init
    ⟨defaultData.opts, some 1000⟩ [] (sampleMouse "mousedown" 0 none) Reachable.init rfl).2
    (by decide)
  exact ⟨Reachable.init, h1.1, h1.2.1, h2.1⟩

/-! ## Capture -/

/-- C8: `setPointerCapture(id)` and `releasePointerCapture(id)` on an element raise exactly
when `id` is no key of the registry, and then leave the statics as they were and dispatch
no notification.  When they do not raise, the state of `id` has the element (set) or null
(release) as capture target and is otherwise as before, every other registry entry, the
touch map and the counter are as before, and exactly one notification is dispatched, on
the element: gotpointercapture (set) or lostpointercapture (release). -/
theorem capture_calls_contract (s : Engine) (element id : Nat) :
    ((setPointerCapture s element id).threw = true ↔ Dict.has s._pointers id = false) ∧
    ((releasePointerCapture s element id).threw = true ↔ Dict.has s._pointers id = false) ∧
    (Dict.has s._pointers id = false →
      (setPointerCapture s element id).state = s ∧
      (setPointerCapture s element id).notified = [] ∧
      (releasePointerCapture s element id).state = s ∧
      (releasePointerCapture s element id).notified = []) ∧
    (∀ st, Dict.get s._pointers id = some st →
      Dict.get (setPointerCapture s element id).state._pointers id
        = some { st with capturePointer := some element } ∧
      Dict.get (releasePointerCapture s element id).state._pointers id
        = some { st with capturePointer := none } ∧
      (∀ k, k ≠ id →
        Dict.get (setPointerCapture s element id).state._pointers k = Dict.get s._pointers k ∧
        Dict.get (releasePointerCapture s element id).state._pointers k
          = Dict.get s._pointers k) ∧
      (setPointerCapture s element id).state._T2P = s._T2P ∧
      (releasePointerCapture s element id).state._T2P = s._T2P ∧
      (setPointerCapture s element id).state._pointerId = s._pointerId ∧
      (releasePointerCapture s element id).state._pointerId = s._pointerId ∧
      (setPointerCapture s element id).notified = [(element, "gotpointercapture")] ∧
      (releasePointerCapture s element id).notified = [(element, "lostpointercapture")]) := by
  cases hget : Dict.get s._pointers id with
  | none =>
    simp [setPointerCapture, releasePointerCapture, _bindPointer, _unbindPointer, Dict.has, hget]
  | some st =>
    refine ⟨?_, ?_, ?_, ?_⟩
    · simp [setPointerCapture, _bindPointer, Dict.has, hget]
    · simp [releasePointerCapture, _unbindPointer, Dict.has, hget]
    · intro h
      simp [Dict.has, hget] at h
    · intro st' hst'
      have hget' : Dict.get s._pointers id = some st' := hget.trans hst'
      have hset : setPointerCapture s element id
          = ⟨{ s with
                _pointers := Dict.set s._pointers id { st' with capturePointer := some element } },
              [(element, "gotpointercapture")], false⟩ := by
        simp [setPointerCapture, _bindPointer, hget']
      have hrel : releasePointerCapture s element id
          = ⟨{ s with
                _pointers := Dict.set s._pointers id { st' with capturePointer := none } },
              [(element, "lostpointercapture")], false⟩ := by
        simp [releasePointerCapture, _unbindPointer, hget']
      rw [hset, hrel]
      refine ⟨Dict.get_set_same _ _ _, Dict.get_set_same _ _ _, ?_, rfl, rfl, rfl, rfl, rfl, rfl⟩
      intro k hk
      exact ⟨Dict.get_set_ne _ _ (Ne.symm hk), Dict.get_set_ne _ _ (Ne.symm hk)⟩

/-- C7 fails on the code: when element 12 has captured pointer 1 and a mouseover on
element 10 carries `relatedTarget` 11, `_mouseCatch` puts `relatedTarget: null` into the
`props`, but the constructor evaluates `props.relatedTarget || baseEvent.relatedTarget ||
null`, so the event dispatched to element 12 has `relatedTarget` 11, not null. -/
theorem redirected_relatedTarget_not_cleared :
    (_mouseCatch touchHost quiet 1000 (setPointerCapture Engine.init 12 1).state defaultData []
        { sampleMouse "mouseover" 0 (some 0) with relatedTarget := some 11 }).dispatched.map
        (fun x => (x.target, x.event.type, x.event.relatedTarget))
      = [(12, .str "pointerover", .obj 11)] := by
  rfl

/-- C9 (amended): a `releasePointerCapture(X)` call for a live pointer `X`, invoked on an
element `B`, clears the capture target of `X` and dispatches its one lostpointercapture
notification on `B`, the element the call is invoked on, whichever element `A` holds the
capture; the notification reaches `A` when the call is invoked on `A`. -/
theorem release_notifies_calling_element (s : Engine) (X A B : Nat) (st : PointerState)
    (hlive : Dict.get s._pointers X = some st) (hheld : st.capturePointer = some A) :
    (releasePointerCapture s B X).notified = [(B, "lostpointercapture")] ∧
    (B = A → (releasePointerCapture s B X).notified = [(A, "lostpointercapture")]) ∧
    Dict.get (releasePointerCapture s B X).state._pointers X
      = some { st with capturePointer := none } ∧
    (releasePointerCapture s B X).threw = false := by
  have hrel : releasePointerCapture s B X
      = ⟨{ s with _pointers := Dict.set s._pointers X { st with capturePointer := none } },
          [(B, "lostpointercapture")], false⟩ := by
    simp [releasePointerCapture, _unbindPointer, hlive]
  rw [hrel]
  refine ⟨rfl, ?_, Dict.get_set_same _ _ _, rfl⟩
  rintro rfl
  rfl

/-- C9 as stated fails: with the capture of pointer 1 held by element 12, a release
invoked on element 13 dispatches lostpointercapture on element 13 and nothing on
element 12. -/
theorem release_notifies_caller_not_holder :
    Dict.get (setPointerCapture Engine.init 12 1).state._pointers 1
      = some ⟨some 12, none, none, none⟩ ∧
    (releasePointerCapture (setPointerCapture Engine.init 12 1).state 13 1).notified
      = [(13, "lostpointercapture")] ∧
    (12, "lostpointercapture") ∉
      (releasePointerCapture (setPointerCapture Engine.init 12 1).state 13 1).notified := by
  refine ⟨rfl, rfl, ?_⟩
  decide

/-- The amended C9 with the capture of pointer 1 held by element 12 and the release
invoked on element 13. -/
theorem release_notifies_calling_element_witness :
    Dict.get (setPointerCapture Engine.init 12 1).state._pointers 1
      = some ⟨some 12, none, none, none⟩ ∧
    (releasePointerCapture (setPointerCapture Engine.init 12 1).state 13 1).notified
      = [(13, "lostpointercapture")] :=
  ⟨rfl,
    (release_notifies_calling_element (setPointerCapture Engine.init 12 1).state 1 12 13
      ⟨some 12, none, none, none⟩ rfl rfl).1⟩

/-- C10 fails on the code: `RemoveInterpretation` returns at once unless the element has
a property `_pointerEventOpts`, which `InterpretEvents` never sets (it stores
`_pointerEvent`).  After an attach to an element without listeners, the detach leaves the
nine registered listeners and the stored configuration in place.  A detach of an element
that was never attached changes nothing. -/
theorem detach_does_not_undo_attach :
    (RemoveInterpretation touchHost
        (InterpretEvents touchHost ⟨true, none, none, []⟩ none).element).element
      = (InterpretEvents touchHost ⟨true, none, none, []⟩ none).element ∧
    (RemoveInterpretation touchHost
        (InterpretEvents touchHost ⟨true, none, none, []⟩ none).element).element.listeners.length
      = 9 ∧
    (RemoveInterpretation touchHost
        (InterpretEvents touchHost ⟨true, none, none, []⟩ none).element).element._pointerEvent
      = some defaultData ∧
    (RemoveInterpretation touchHost ⟨true, none, none, []⟩).element = ⟨true, none, none, []⟩ := by
  refine ⟨rfl, ?_, rfl, rfl⟩
  decide

/-! ## Routing to the capture target -/

/-- A round of the loop of `_touchMove` for a tracked contact. -/
theorem touchMoveLoop_cons_tracked (host : Host) (L : Listeners) (e : RawEvent) (t : Touch)
    (rest : List Touch) (o : Outcome) (X : Nat) (st : PointerState)
    (hshape : e.isTouchShaped host = true)
    (hT : Dict.get o.state._T2P t.identifier = some X)
    (hreg : Dict.get o.state._pointers X = some st) :
    ∃ pM, touchMoveLoop host L e (t :: rest) o
        = touchMoveLoop host L e rest
            { o with
              state := o.state.next,
              dispatched := o.dispatched ++ [⟨st.capturePointer.getD t.target, pM⟩],
              defaultPrevented :=
                o.defaultPrevented || defaultPreventedAfter L (st.capturePointer.getD t.target) pM } ∧
      pM.type = .str "pointermove" ∧ pM.pointerId = .num X := by
  refine ⟨touchEventOf host o.state (.str POINTER_MOVE) e t, ?_, rfl,
    touchEventOf_pointerId _ _ _ _ _ X hT⟩
  simp only [touchMoveLoop, PointerEvent_touch host _ _ e t hshape, pointerOf, hT, Option.bind,
    hreg]

/-- A round of the loop of `_touchEnd` for a tracked contact. -/
theorem touchEndLoop_cons_tracked (host : Host) (L : Listeners) (e : RawEvent) (t : Touch)
    (rest : List Touch) (o : Outcome) (X : Nat) (st : PointerState)
    (hshape : e.isTouchShaped host = true)
    (hT : Dict.get o.state._T2P t.identifier = some X)
    (hreg : Dict.get o.state._pointers X = some st) :
    ∃ pU pO, touchEndLoop host L e (t :: rest) o
        = touchEndLoop host L e rest
            { o with
              state := (release o.state t X).next,
              dispatched := o.dispatched ++
                [⟨st.capturePointer.getD t.target, pU⟩, ⟨st.capturePointer.getD t.target, pO⟩],
              defaultPrevented :=
                o.defaultPrevented || (defaultPreventedAfter L (st.capturePointer.getD t.target) pU ||
                  defaultPreventedAfter L (st.capturePointer.getD t.target) pO) } ∧
      pU.type = .str "pointerup" ∧ pU.pointerId = .num X ∧
      pO.type = .str "pointerout" ∧ pO.pointerId = .num X := by
  refine ⟨touchEventOf host o.state (.str POINTER_UP) e t, touchEventOf host o.state (.str POINTER_OUT) e t,
    ?_, rfl, touchEventOf_pointerId _ _ _ _ _ X hT, rfl, touchEventOf_pointerId _ _ _ _ _ X hT⟩
  simp only [touchEndLoop, PointerEvent_touch host _ _ e t hshape, hT, hreg]

/-- A round of the loop of `_touchCancel` for a tracked contact. -/
theorem touchCancelLoop_cons_tracked (host : Host) (e : RawEvent) (t : Touch)
    (rest : List Touch) (o : Outcome) (X : Nat) (st : PointerState)
    (hshape : e.isTouchShaped host = true)
    (hT : Dict.get o.state._T2P t.identifier = some X)
    (hreg : Dict.get o.state._pointers X = some st) :
    ∃ pU pO pC, touchCancelLoop host e (t :: rest) o
        = touchCancelLoop host e rest
            { o with
              state := (release o.state t X).next,
              dispatched := o.dispatched ++
                [⟨st.capturePointer.getD t.target, pU⟩, ⟨st.capturePointer.getD t.target, pO⟩,
                 ⟨st.capturePointer.getD t.target, pC⟩] } ∧
      pU.type = .str "pointerup" ∧ pU.pointerId = .num X ∧
      pO.type = .str "pointerout" ∧ pO.pointerId = .num X ∧
      pC.type = .str "pointercancel" ∧ pC.pointerId = .num X := by
  refine ⟨touchEventOf host o.state (.str POINTER_UP) e t, touchEventOf host o.state (.str POINTER_OUT) e t,
    touchEventOf host o.state (.str POINTER_CANCEL) e t, ?_, rfl, touchEventOf_pointerId _ _ _ _ _ X hT,
    rfl, touchEventOf_pointerId _ _ _ _ _ X hT, rfl, touchEventOf_pointerId _ _ _ _ _ X hT⟩
  simp only [touchCancelLoop, PointerEvent_touch host _ _ e t hshape, hT, hreg]

/-- The loops only add to the dispatched events. -/
theorem touchMoveLoop_extends (host : Host) (L : Listeners) (e : RawEvent) (l : List Touch) :
    ∀ o : Outcome, ∃ later, (touchMoveLoop host L e l o).dispatched = o.dispatched ++ later := by
  induction l with
  | nil => intro o; exact ⟨[], by simp [touchMoveLoop]⟩
  | cons t rest ih =>
    intro o
    simp only [touchMoveLoop]
    split
    · exact ⟨[], by simp⟩
    · split
      · exact ⟨[], by simp⟩
      · rename_i _ pM _ _ pointer _
        obtain ⟨later, h⟩ := ih
          { o with
            state := o.state.next,
            dispatched := o.dispatched ++ [⟨pointer.capturePointer.getD t.target, pM⟩],
            defaultPrevented := o.defaultPrevented ||
              defaultPreventedAfter L (pointer.capturePointer.getD t.target) pM }
        exact ⟨_, h.trans (List.append_assoc _ _ _)⟩

theorem touchEndLoop_extends (host : Host) (L : Listeners) (e : RawEvent) (l : List Touch) :
    ∀ o : Outcome, ∃ later, (touchEndLoop host L e l o).dispatched = o.dispatched ++ later := by
  induction l with
  | nil => intro o; exact ⟨[], by simp [touchEndLoop]⟩
  | cons t rest ih =>
    intro o
    simp only [touchEndLoop]
    split
    · exact ⟨[], by simp⟩
    · split
      · exact ⟨[], by simp⟩
      · split
        · rename_i _ p _ _ pointer _ _ _ pU pO _ _
          obtain ⟨later, h⟩ := ih
            { o with
              state := (release o.state t p).next,
              dispatched := o.dispatched ++
                [⟨pointer.capturePointer.getD t.target, pU⟩,
                 ⟨pointer.capturePointer.getD t.target, pO⟩],
              defaultPrevented := o.defaultPrevented ||
                (defaultPreventedAfter L (pointer.capturePointer.getD t.target) pU ||
                  defaultPreventedAfter L (pointer.capturePointer.getD t.target) pO) }
          exact ⟨_, h.trans (List.append_assoc _ _ _)⟩
        · exact ⟨[], by simp⟩

theorem touchCancelLoop_extends (host : Host) (e : RawEvent) (l : List Touch) :
    ∀ o : Outcome, ∃ later, (touchCancelLoop host e l o).dispatched = o.dispatched ++ later := by
  induction l with
  | nil => intro o; exact ⟨[], by simp [touchCancelLoop]⟩
  | cons t rest ih =>
    intro o
    simp only [touchCancelLoop]
    split
    · exact ⟨[], by simp⟩
    · split
      · exact ⟨[], by simp⟩
      · split
        · rename_i _ p _ _ pointer _ _ _ _ pU pO pC _ _ _
          obtain ⟨later, h⟩ := ih
            { o with
              state := (release o.state t p).next,
              dispatched := o.dispatched ++
                [⟨pointer.capturePointer.getD t.target, pU⟩,
                 ⟨pointer.capturePointer.getD t.target, pO⟩,
                 ⟨pointer.capturePointer.getD t.target, pC⟩] }
          exact ⟨_, h.trans (List.append_assoc _ _ _)⟩
        · exact ⟨[], by simp⟩

/-- The loop of `_touchStart` leaves every registry entry below the counter as it is. -/
theorem touchStartLoop_pointer_below (host : Host) (L : Listeners) (e : RawEvent)
    (l : List Touch) :
    ∀ (o : Outcome) (k : Nat), k < o.state._pointerId →
      Dict.get (touchStartLoop host L e l o).state._pointers k = Dict.get o.state._pointers k := by
  induction l with
  | nil => intro o k _; rfl
  | cons touch rest ih =>
    intro o k hk
    simp only [touchStartLoop]
    split_ifs
    · exact ih { o with state := o.state.next } k hk
    · have hne : o.state._pointerId ≠ k := by omega
      split
      · rename_i pO pD _ _
        rw [ih _ k (by simp only [Engine.next]; omega)]
        simp [Engine.next, Dict.get_set, hne]
      · simp [Dict.get_set, hne]

theorem touchMoveLoop_pointers (host : Host) (L : Listeners) (e : RawEvent) (l : List Touch) :
    ∀ o : Outcome, (touchMoveLoop host L e l o).state._pointers = o.state._pointers := by
  induction l with
  | nil => intro o; rfl
  | cons t rest ih =>
    intro o
    simp only [touchMoveLoop]
    split
    · rfl
    · split
      · rfl
      · rw [ih]; rfl

/-- The loops of `_touchEnd` and `_touchCancel` only remove registry entries. -/
theorem touchEndLoop_pointer_of (host : Host) (L : Listeners) (e : RawEvent) (l : List Touch) :
    ∀ (o : Outcome) (k : Nat) (v : PointerState),
      Dict.get (touchEndLoop host L e l o).state._pointers k = some v →
      Dict.get o.state._pointers k = some v := by
  induction l with
  | nil => intro o k v h; exact h
  | cons t rest ih =>
    intro o k v
    simp only [touchEndLoop]
    split
    · exact id
    · split
      · exact id
      · split
        · intro h
          have := ih _ k v h
          simp only [Engine.next, release, Dict.get_del] at this
          split_ifs at this
          exact this
        · exact id

theorem touchCancelLoop_pointer_of (host : Host) (e : RawEvent) (l : List Touch) :
    ∀ (o : Outcome) (k : Nat) (v : PointerState),
      Dict.get (touchCancelLoop host e l o).state._pointers k = some v →
      Dict.get o.state._pointers k = some v := by
  induction l with
  | nil => intro o k v h; exact h
  | cons t rest ih =>
    intro o k v
    simp only [touchCancelLoop]
    split
    · exact id
    · split
      · exact id
      · split
        · intro h
          have := ih _ k v h
          simp only [Engine.next, release, Dict.get_del] at this
          split_ifs at this
          exact this
        · exact id

/-- Tracking the buttons keeps every capture target. -/
theorem trackButtons_capture (s s1 : Engine) (e : RawEvent) (h : trackButtons s e = some s1)
    (k : Nat) :
    (Dict.get s1._pointers k).map PointerState.capturePointer
      = (Dict.get s._pointers k).map PointerState.capturePointer := by
  unfold trackButtons at h
  split_ifs at h
  · cases hm : Dict.get s._pointers 1 with
    | none => simp [hm] at h
    | some mouse =>
      simp only [hm, Option.some.injEq] at h
      subst h
      by_cases hk : 1 = k
      · subst hk
        simp [Dict.get_set, hm]
      · simp [Dict.get_set, hk]
  · simp only [Option.some.injEq] at h
    subst h
    rfl

/-- An operation other than a capture call for `X` keeps the capture target of `X`, as
long as `X` stays registered. -/
theorem Op.run_keeps_capture (host : Host) (L : Listeners) (s : Engine) (hs : Inv s) (op : Op)
    (X : Nat) (hset : ∀ el, op ≠ .setCapture el X) (hrel : ∀ el, op ≠ .releaseCapture el X)
    (st1 st2 : PointerState) (h1 : Dict.get s._pointers X = some st1)
    (h2 : Dict.get (op.run host L s)._pointers X = some st2) :
    st2.capturePointer = st1.capturePointer := by
  have hX : X < s._pointerId := hs.counter.2 X st1 h1
  cases op with
  | touchStart now d ls e =>
    have := touchStartLoop_pointer_below host L e e.changedTouches (touchStartEntry now s d ls) X hX
    simp only [Op.run, _touchStart] at h2
    rw [this] at h2
    have h2' : Dict.get s._pointers X = some st2 := h2
    rw [h1] at h2'
    cases h2'
    rfl
  | touchMove now d? ls e =>
    have h2' : Dict.get s._pointers X = some st2 := by
      cases d? with
      | none => exact h2
      | some d =>
        simp only [Op.run, _touchMove, touchMoveLoop_pointers] at h2
        exact h2
    rw [h1] at h2'
    cases h2'
    rfl
  | touchEnd now d? ls e =>
    have h2' : Dict.get s._pointers X = some st2 := by
      cases d? with
      | none => exact h2
      | some d => exact touchEndLoop_pointer_of host L e e.changedTouches _ X st2 h2
    rw [h1] at h2'
    cases h2'
    rfl
  | touchCancel now d? ls e =>
    have h2' : Dict.get s._pointers X = some st2 := by
      cases d? with
      | none => exact h2
      | some d => exact touchCancelLoop_pointer_of host e e.changedTouches _ X st2 h2
    rw [h1] at h2'
    cases h2'
    rfl
  | mouse now d ls e =>
    simp only [Op.run, _mouseCatch_state] at h2
    split_ifs at h2
    · rw [h1] at h2
      cases h2
      rfl
    · cases ht : trackButtons s e with
      | none =>
        simp only [ht, Option.getD] at h2
        rw [h1] at h2
        cases h2
        rfl
      | some s1 =>
        simp only [ht, Option.getD] at h2
        have := trackButtons_capture s s1 e ht X
        simp only [h1, h2, Option.map, Option.some.injEq] at this
        exact this
  | msPointer d ls e =>
    simp only [Op.run, _msPointerCatch_state] at h2
    rw [h1] at h2
    cases h2
    rfl
  | setCapture element pointerId =>
    have hne : pointerId ≠ X := by
      rintro rfl
      exact hset element rfl
    simp only [Op.run, setPointerCapture, _bindPointer] at h2
    split at h2
    · rw [h1] at h2
      cases h2
      rfl
    · simp only [Dict.get_set, hne, if_false] at h2
      rw [h1] at h2
      cases h2
      rfl
  | releaseCapture element pointerId =>
    have hne : pointerId ≠ X := by
      rintro rfl
      exact hrel element rfl
    simp only [Op.run, releasePointerCapture, _unbindPointer] at h2
    split at h2
    · rw [h1] at h2
      cases h2
      rfl
    · simp only [Dict.get_set, hne, if_false] at h2
      rw [h1] at h2
      cases h2
      rfl

/-- C6: for a live pointer `X` and an element `E`, `setPointerCapture(X)` on `E` makes `E`
the capture target of `X`, `releasePointerCapture(X)` makes it null, and no other operation
changes the capture target of `X` while `X` stays registered.  A mouse occurrence that is
not suppressed is dispatched to the capture target of pointer 1 if it is set and to the
occurrence's own target if it is null; in a touch-move, touch-end or touch-cancel (a
TouchEvent) the events of the round of a contact mapped to `X` are dispatched to the
capture target of `X` if it is set and to the contact's own target if it is null. -/
theorem capture_redirects_until_release (s : Engine) (X E : Nat) (st : PointerState)
    (hlive : Dict.get s._pointers X = some st) :
    Dict.get (setPointerCapture s E X).state._pointers X
      = some { st with capturePointer := some E } ∧
    (∀ B, Dict.get (releasePointerCapture s B X).state._pointers X
      = some { st with capturePointer := none }) ∧
    (∀ (host : Host) (L : Listeners) (s' : Engine) (op : Op) (st1 st2 : PointerState),
      Reachable s' → (∀ el, op ≠ .setCapture el X) → (∀ el, op ≠ .releaseCapture el X) →
      Dict.get s'._pointers X = some st1 → Dict.get (op.run host L s')._pointers X = some st2 →
      st2.capturePointer = st1.capturePointer) ∧
    (∀ (host : Host) (L : Listeners) (now : Int) (d : TargetData) (ls : List Listener)
        (e : RawEvent) (s' : Engine) (m : PointerState),
      Reachable s' → isCompatibility now d.lastTouch = false →
      Dict.get s'._pointers 1 = some m →
      ∃ target eve, (_mouseCatch host L now s' d ls e).dispatched = [⟨target, eve⟩] ∧
        (m.capturePointer = some E → target = E) ∧
        (m.capturePointer = none → target = e.target)) ∧
    (∀ (host : Host) (L : Listeners) (e : RawEvent) (t : Touch) (rest : List Touch)
        (o : Outcome) (st' : PointerState),
      e.isTouchShaped host = true → Dict.get o.state._T2P t.identifier = some X →
      Dict.get o.state._pointers X = some st' →
      ∃ target, (st'.capturePointer = some E → target = E) ∧
        (st'.capturePointer = none → target = t.target) ∧
        (∃ pM later, (touchMoveLoop host L e (t :: rest) o).dispatched
            = o.dispatched ++ [⟨target, pM⟩] ++ later ∧
          pM.type = .str "pointermove" ∧ pM.pointerId = .num X) ∧
        (∃ pU pO later, (touchEndLoop host L e (t :: rest) o).dispatched
            = o.dispatched ++ [⟨target, pU⟩, ⟨target, pO⟩] ++ later ∧
          pU.type = .str "pointerup" ∧ pU.pointerId = .num X ∧
          pO.type = .str "pointerout" ∧ pO.pointerId = .num X) ∧
        (∃ pU pO pC later, (touchCancelLoop host e (t :: rest) o).dispatched
            = o.dispatched ++ [⟨target, pU⟩, ⟨target, pO⟩, ⟨target, pC⟩] ++ later ∧
          pU.type = .str "pointerup" ∧ pU.pointerId = .num X ∧
          pO.type = .str "pointerout" ∧ pO.pointerId = .num X ∧
          pC.type = .str "pointercancel" ∧ pC.pointerId = .num X)) := by
  refine ⟨?_, ?_, ?_, ?_, ?_⟩
  · simp [setPointerCapture, _bindPointer, hlive, Dict.get_set]
  · intro B
    simp [releasePointerCapture, _unbindPointer, hlive, Dict.get_set]
  · intro host L s' op st1 st2 hs' hset hrel h1 h2
    exact Op.run_keeps_capture host L s' hs'.inv op X hset hrel st1 st2 h1 h2
  · intro host L now d ls e s' m hs' hc hm
    obtain ⟨s1, mouse, eve, htrack, hmouse, -, hout⟩ :=
      _mouseCatch_dispatches_one host L now s' d ls e hs' hc
    have hcap := trackButtons_capture s' s1 e htrack 1
    simp only [hm, hmouse, Option.map, Option.some.injEq] at hcap
    refine ⟨mouse.capturePointer.getD e.target, eve, by rw [hout], ?_, ?_⟩
    · intro h
      rw [hcap, h]
      rfl
    · intro h
      rw [hcap, h]
      rfl
  · intro host L e t rest o st' hshape hT hreg
    refine ⟨st'.capturePointer.getD t.target, ?_, ?_, ?_, ?_, ?_⟩
    · intro h
      rw [h]
      rfl
    · intro h
      rw [h]
      rfl
    · obtain ⟨pM, hround, htype, hid⟩ :=
        touchMoveLoop_cons_tracked host L e t rest o X st' hshape hT hreg
      obtain ⟨later, hlater⟩ := touchMoveLoop_extends host L e rest
        { o with
          state := o.state.next,
          dispatched := o.dispatched ++ [⟨st'.capturePointer.getD t.target, pM⟩],
          defaultPrevented := o.defaultPrevented || defaultPreventedAfter L (st'.capturePointer.getD t.target) pM }
      exact ⟨pM, later, by rw [hround, hlater], htype, hid⟩
    · obtain ⟨pU, pO, hround, hUt, hUid, hOt, hOid⟩ :=
        touchEndLoop_cons_tracked host L e t rest o X st' hshape hT hreg
      obtain ⟨later, hlater⟩ := touchEndLoop_extends host L e rest
        { o with
          state := (release o.state t X).next,
          dispatched := o.dispatched ++
            [⟨st'.capturePointer.getD t.target, pU⟩, ⟨st'.capturePointer.getD t.target, pO⟩],
          defaultPrevented :=
            o.defaultPrevented || (defaultPreventedAfter L (st'.capturePointer.getD t.target) pU ||
              defaultPreventedAfter L (st'.capturePointer.getD t.target) pO) }
      exact ⟨pU, pO, later, by rw [hround, hlater], hUt, hUid, hOt, hOid⟩
    · obtain ⟨pU, pO, pC, hround, hUt, hUid, hOt, hOid, hCt, hCid⟩ :=
        touchCancelLoop_cons_tracked host e t rest o X st' hshape hT hreg
      obtain ⟨later, hlater⟩ := touchCancelLoop_extends host e rest
        { o with
          state := (release o.state t X).next,
          dispatched := o.dispatched ++
            [⟨st'.capturePointer.getD t.target, pU⟩, ⟨st'.capturePointer.getD t.target, pO⟩,
             ⟨st'.capturePointer.getD t.target, pC⟩] }
      exact ⟨pU, pO, pC, later, by rw [hround, hlater], hUt, hUid, hOt, hOid, hCt, hCid⟩

/-- C6 at contact 7 with identity 2 on element 10: after element 12 captures pointer 2 a
touch-move is dispatched to element 12, and after the release to element 10 again. -/
theorem capture_redirects_until_release_witness :
    Dict.get (_touchStart touchHost quiet 1000 Engine.init defaultData []
        (sampleTouchEvent "touchstart" [sampleTouch 7])).state._pointers 2
      = some ⟨none, some 7, none, some false⟩ ∧
    Dict.get (setPointerCapture
        (_touchStart touchHost quiet 1000 Engine.init defaultData []
          (sampleTouchEvent "touchstart" [sampleTouch 7])).state 12 2).state._pointers 2
      = some ⟨some 12, some 7, none, some false⟩ ∧
    (_touchMove touchHost quiet 1001
        (setPointerCapture
          (_touchStart touchHost quiet 1000 Engine.init defaultData []
            (sampleTouchEvent "touchstart" [sampleTouch 7])).state 12 2).state
        (some defaultData) [] (sampleTouchEvent "touchmove" [sampleTouch 7])).dispatched.map
        (fun x => (x.target, x.event.type))
      = [(12, .str "pointermove")] ∧
    (_touchMove touchHost quiet 1002
        (releasePointerCapture
          (setPointerCapture
            (_touchStart touchHost quiet 1000 Engine.init defaultData []
              (sampleTouchEvent "touchstart" [sampleTouch 7])).state 12 2).state 12 2).state
        (some defaultData) [] (sampleTouchEvent "touchmove" [sampleTouch 7])).dispatched.map
        (fun x => (x.target, x.event.type))
      = [(10, .str "pointermove")] :=
  ⟨rfl,
    (capture_redirects_until_release
      (_touchStart touchHost quiet 1000 Engine.init defaultData []
        (sampleTouchEvent "touchstart" [sampleTouch 7])).state 2 12
      ⟨none, some 7, none, some false⟩ rfl).1,
    rfl, rfl⟩

/-! ## Vendor pointer occurrences -/

/-- Every entry of the table `_MS2W3C` is one of the ten canonical kinds. -/
theorem _MS2W3C_canonical (name k : String) (h : Dict.get _MS2W3C name = some k) :
    k ∈ canonicalKinds := by
  simp only [_MS2W3C, Dict.get] at h
  split_ifs at h <;>
    · simp only [Option.some.injEq] at h
      subst h
      decide

/-- C21: for a vendor pointer occurrence (an MSPointerEvent on a host that has them)
handled in a reachable state, `_msPointerCatch` dispatches exactly one event to the
occurrence's target, whatever time has passed since the last touch occurrence (the
handler reads neither the clock nor `lastTouch`).  Its `pointerType` is "", "touch", "pen"
or "mouse" for the vendor code 1, 2, 3 or 4; `width`, `height`, `pressure`, `tiltX`,
`tiltY` and `isPrimary` are the source's; and its kind is the entry of the vendor kind in
the table `_MS2W3C`, a canonical kind, whenever the constructor initialises the event,
which it does for a MouseEvent, as every MSPointerEvent is on its host. -/
theorem vendor_occurrence_fields (host : Host) (L : Listeners) (s : Engine) (d : TargetData)
    (ls : List Listener) (e : RawEvent) (hs : Reachable s)
    (hhost : host.hasMSPointerEvent = true) (hvendor : e.isMSPointerEvent = true) :
    ∃ eve, (_msPointerCatch host L s d ls e).dispatched = [⟨e.target, eve⟩] ∧
      (_msPointerCatch host L s d ls e).threw = false ∧
      (e.pointerType = .num 1 → eve.pointerType = .str "") ∧
      (e.pointerType = .num 2 → eve.pointerType = .str "touch") ∧
      (e.pointerType = .num 3 → eve.pointerType = .str "pen") ∧
      (e.pointerType = .num 4 → eve.pointerType = .str "mouse") ∧
      eve.width = .num e.width ∧ eve.height = .num e.height ∧
      eve.pressure = .num e.pressure ∧ eve.tiltX = .num e.tiltX ∧ eve.tiltY = .num e.tiltY ∧
      eve.isPrimary = .bool e.isPrimary ∧
      (e.isMouseEvent = true ∨ e.isTouchEvent = true → eve.type = kindOf _MS2W3C e.type) ∧
      (∀ k, Dict.get _MS2W3C e.type = some k →
        kindOf _MS2W3C e.type = .str k ∧ k ∈ canonicalKinds) := by
  have htable : ∀ k, Dict.get _MS2W3C e.type = some k →
      kindOf _MS2W3C e.type = .str k ∧ k ∈ canonicalKinds := by
    intro k hk
    exact ⟨by simp [kindOf, hk], _MS2W3C_canonical e.type k hk⟩
  obtain ⟨m, hm, -⟩ := hs.inv.mouse
  unfold _msPointerCatch PointerEvent defaultsOf
  dsimp only [Option.getD, Props.empty]
  cases hM : e.isMouseEvent <;> cases hT : e.isTouchEvent <;>
    simp only [hhost, hvendor, Bool.and_self, Bool.true_eq_false, Bool.false_eq_true, if_true,
      if_false, mouseBranch, hm]
  · refine ⟨_, rfl, ?_⟩
    simpa +contextual [vendorBranch, vendorPointerType, JSVal.strictEq, POINTER_TYPE_UNAVAILABLE,
      POINTER_TYPE_TOUCH, POINTER_TYPE_PEN, POINTER_TYPE_MOUSE] using htable
  · refine ⟨_, rfl, ?_⟩
    simpa +contextual [vendorBranch, touchBranch, vendorPointerType, JSVal.strictEq,
      POINTER_TYPE_UNAVAILABLE, POINTER_TYPE_TOUCH, POINTER_TYPE_PEN, POINTER_TYPE_MOUSE]
      using htable
  · split_ifs <;>
    · refine ⟨_, rfl, ?_⟩
      simpa +contextual [vendorBranch, vendorPointerType, JSVal.strictEq,
        POINTER_TYPE_UNAVAILABLE, POINTER_TYPE_TOUCH, POINTER_TYPE_PEN, POINTER_TYPE_MOUSE]
        using htable
  · split_ifs <;>
    · refine ⟨_, rfl, ?_⟩
      simpa +contextual [vendorBranch, vendorPointerType, JSVal.strictEq,
        POINTER_TYPE_UNAVAILABLE, POINTER_TYPE_TOUCH, POINTER_TYPE_PEN, POINTER_TYPE_MOUSE]
        using htable

/-- C21 at an MSPointerMove with vendor code 3 on a target whose last touch was recorded
one millisecond earlier: a pointermove of type "pen" is dispatched, where a mouse
occurrence at that time is suppressed. -/
theorem vendor_occurrence_fields_witness :
    Reachable Engine.init ∧
    isCompatibility 1000 (some 999) = true ∧
    (_mouseCatch vendorHost quiet 1000 Engine.init ⟨defaultData.opts, some 999⟩ []
        (sampleMouse "mousemove" 0 (some 0))).dispatched = [] ∧
    (_msPointerCatch vendorHost quiet Engine.init ⟨defaultData.opts, some 999⟩ []
        (sampleMSPointer "MSPointerMove" 5 (.num 3))).dispatched.map
        (fun x => (x.target, x.event.type, x.event.pointerType, x.event.width, x.event.height,
          x.event.isPrimary))
      = [(10, .str "pointermove", .str "pen", .num 7, .num 8, .bool true)] ∧
    (∃ eve, (_msPointerCatch vendorHost quiet Engine.init ⟨defaultData.opts, some 999⟩ []
        (sampleMSPointer "MSPointerMove" 5 (.num 3))).dispatched = [⟨10, eve⟩]) := by
  obtain ⟨eve, h, -⟩ := vendor_occurrence_fields vendorHost quiet Engine.init
    ⟨defaultData.opts, some 999⟩ [] (sampleMSPointer "MSPointerMove" 5 (.num 3)) Reachable.init
    rfl rfl
  exact ⟨Reachable.init, rfl, rfl, rfl, eve, h⟩

/-! ## Native buttons -/

/-- The `buttons` of an event built from a MouseEvent.  On a host whose MouseEvent has the
read-only attribute the assignment of the constructor is ignored and `buttons` reads 0;
on a host without it `buttons` is the assigned value: the native one when it is truthy,
else the stored bitmask of pointer 1 (`undefined` when that is unset). -/
theorem PointerEvent_mouse_buttons (host : Host) (s : Engine) (type : JSVal) (props : Props)
    (e : RawEvent) (ev : CanonicalEvent) (hsource : props.baseEvent = some e)
    (hmouse : e.isMouseEvent = true)
    (h : PointerEvent host s type (some props) = some ev) :
    ev.buttons =
      if host.hasMouseEventButtons then .num 0
      else if (JSVal.ofOptInt e.buttons).truthy then JSVal.ofOptInt e.buttons
      else JSVal.ofOptInt (mouseButtons s) := by
  unfold PointerEvent defaultsOf at h
  simp only [Option.getD, hsource, hmouse, if_true, mouseBranch] at h
  cases hh : host.hasMouseEventButtons
  all_goals
    simp only [hh, Bool.false_eq_true, if_true, if_false] at h ⊢
    by_cases hb : (JSVal.ofOptInt e.buttons).truthy = true
    · simp only [hb, if_true] at h ⊢
      split_ifs at h <;>
        · simp only [Option.some.injEq] at h
          subst h
          simp [vendorBranch, createEvent, hh]
    · simp only [hb, Bool.false_eq_true, if_false] at h ⊢
      cases hm : Dict.get s._pointers 1 with
      | none => simp [hm] at h
      | some m =>
        simp only [hm] at h
        split_ifs at h <;>
          · simp only [Option.some.injEq] at h
            subst h
            simp [vendorBranch, createEvent, mouseButtons, hm, hh]

/-- C22 fails on the code: the constructor assigns
`pointerEvent.buttons = baseEvent.buttons || _pointers[1].buttons`, and on a host whose
mouse events carry a native `buttons` the created event has the same read-only
attribute, so the assignment is ignored.  On such a host a mousemove with native
`buttons` 4 and a mousedown of button 0 with native `buttons` 1 are both synthesized
with `buttons` 0; the statics are left as they were. -/
theorem native_buttons_not_copied :
    touchHost.hasMouseEventButtons = true ∧
    (_mouseCatch touchHost quiet 1000 Engine.init defaultData []
        (sampleMouse "mousemove" 0 (some 4))).dispatched.map
        (fun x => (x.event.type, x.event.buttons))
      = [(.str "pointermove", .num 0)] ∧
    (_mouseCatch touchHost quiet 1000 Engine.init defaultData []
        (sampleMouse "mousedown" 0 (some 1))).dispatched.map
        (fun x => (x.event.type, x.event.buttons))
      = [(.str "pointerdown", .num 0)] ∧
    (_mouseCatch touchHost quiet 1000 Engine.init defaultData []
        (sampleMouse "mousemove" 0 (some 4))).state = Engine.init := by
  refine ⟨rfl, rfl, rfl, rfl⟩

/-! ## Untracked contacts -/

/-- C23: in a touch-move, touch-end or touch-cancel, the round of a changed contact that
has no entry in the touch map raises: the outcome is the outcome the loop had when it
reached the contact, with the same statics (registry, touch map, counter) and the same
dispatched events, marked as raised. -/
theorem untracked_contact_raises (host : Host) (L : Listeners) (e : RawEvent) (t : Touch)
    (rest : List Touch) (o : Outcome)
    (huntracked : Dict.get o.state._T2P t.identifier = none) :
    touchMoveLoop host L e (t :: rest) o = { o with threw := true } ∧
    touchEndLoop host L e (t :: rest) o = { o with threw := true } ∧
    touchCancelLoop host e (t :: rest) o = { o with threw := true } := by
  refine ⟨?_, ?_, ?_⟩
  · simp only [touchMoveLoop, pointerOf, huntracked, Option.bind]
    split <;> rfl
  · simp only [touchEndLoop, huntracked]
  · simp only [touchCancelLoop, huntracked]

/-- C23 at a touch-move, a touch-end and a touch-cancel of contact 7 in the initial state,
where nothing is tracked. -/
theorem untracked_contact_raises_witness :
    Dict.get (touchEntry 1000 Engine.init defaultData []).state._T2P (sampleTouch 7).identifier
      = none ∧
    (_touchMove touchHost quiet 1000 Engine.init (some defaultData) []
        (sampleTouchEvent "touchmove" [sampleTouch 7]))
      = { touchEntry 1000 Engine.init defaultData [] with threw := true } ∧
    (_touchMove touchHost quiet 1000 Engine.init (some defaultData) []
        (sampleTouchEvent "touchmove" [sampleTouch 7])).dispatched = [] ∧
    (_touchEnd touchHost quiet 1000 Engine.init (some defaultData) []
        (sampleTouchEvent "touchend" [sampleTouch 7])).threw = true ∧
    (_touchCancel touchHost 1000 Engine.init (some defaultData) []
        (sampleTouchEvent "touchcancel" [sampleTouch 7])).threw = true :=
  ⟨rfl,
    (untracked_contact_raises touchHost quiet (sampleTouchEvent "touchmove" [sampleTouch 7])
      (sampleTouch 7) [] (touchEntry 1000 Engine.init defaultData []) rfl).1,
    rfl, rfl, rfl⟩

/-! ## Gesture listeners -/

/-- C24 fails on the code: `_touchEnd` and `_touchCancel` remove the three gesture
listeners from `e.target` on every occurrence.  After a touch-start of contacts 7 and 3
on an element, a touch-end (or a touch-cancel) of contact 7 alone leaves the element
without the touchmove, touchend and touchcancel listeners although contact 3 is still
tracked. -/
theorem gesture_listeners_removed_early :
    (_touchStart touchHost quiet 1000 Engine.init defaultData []
        (sampleTouchEvent "touchstart" [sampleTouch 7, sampleTouch 3])).targetListeners
      = gestureListeners ∧
    (_touchEnd touchHost quiet 1001
        (_touchStart touchHost quiet 1000 Engine.init defaultData []
          (sampleTouchEvent "touchstart" [sampleTouch 7, sampleTouch 3])).state
        (some defaultData) gestureListeners
        (sampleTouchEvent "touchend" [sampleTouch 7])).targetListeners = [] ∧
    Dict.get (_touchEnd touchHost quiet 1001
        (_touchStart touchHost quiet 1000 Engine.init defaultData []
          (sampleTouchEvent "touchstart" [sampleTouch 7, sampleTouch 3])).state
        (some defaultData) gestureListeners
        (sampleTouchEvent "touchend" [sampleTouch 7])).state._T2P 3 = some 3 ∧
    (_touchCancel touchHost 1001
        (_touchStart touchHost quiet 1000 Engine.init defaultData []
          (sampleTouchEvent "touchstart" [sampleTouch 7, sampleTouch 3])).state
        (some defaultData) gestureListeners
        (sampleTouchEvent "touchcancel" [sampleTouch 7])).targetListeners = [] ∧
    Dict.get (_touchCancel touchHost 1001
        (_touchStart touchHost quiet 1000 Engine.init defaultData []
          (sampleTouchEvent "touchstart" [sampleTouch 7, sampleTouch 3])).state
        (some defaultData) gestureListeners
        (sampleTouchEvent "touchcancel" [sampleTouch 7])).state._T2P 3 = some 3 := by
  refine ⟨by decide, by decide, rfl, by decide, rfl⟩

/-! ## No touch recorded -/

/-- C25: an attach that succeeds stores a configuration without `lastTouch`; and on a
target with no recorded `lastTouch`, in a reachable state, the mouse handler dispatches
exactly one synthesized event and does not raise, whatever the current time is: the
difference `Date.now() - undefined` is `NaN`, which is not below 400. -/
theorem mouse_without_touch_never_suppressed (host : Host) (L : Listeners) (now : Int)
    (s : Engine) (d : TargetData) (ls : List Listener) (e : RawEvent) (hs : Reachable s)
    (hnone : d.lastTouch = none) :
    isCompatibility now d.lastTouch = false ∧
    (∃ x, (_mouseCatch host L now s d ls e).dispatched = [x]) ∧
    (_mouseCatch host L now s d ls e).threw = false ∧
    (∀ (element : Element) (options? : Option Options),
      (InterpretEvents host element options?).threw = false →
      ∃ d', (InterpretEvents host element options?).element._pointerEvent = some d' ∧
        d'.lastTouch = none) := by
  have hc : isCompatibility now d.lastTouch = false := by simp [isCompatibility, hnone]
  obtain ⟨s1, mouse, eve, -, -, -, hout⟩ := _mouseCatch_dispatches_one host L now s d ls e hs hc
  rw [hout]
  refine ⟨hc, ⟨_, rfl⟩, rfl, ?_⟩
  intro element options? hthrew
  cases htarget : element.isEventTarget with
  | false => simp [InterpretEvents, htarget] at hthrew
  | true => exact ⟨_, by simp [InterpretEvents, htarget]; rfl, rfl⟩

/-- C25 at a mousemove at time 0 on a freshly attached target. -/
theorem mouse_without_touch_never_suppressed_witness :
    Reachable Engine.init ∧
    (InterpretEvents touchHost ⟨true, none, none, []⟩ none).element._pointerEvent
      = some defaultData ∧
    defaultData.lastTouch = none ∧
    (∃ x, (_mouseCatch touchHost quiet 0 Engine.init defaultData []
        (sampleMouse "mousemove" 0 (some 0))).dispatched = [x]) :=
  ⟨Reachable.init, rfl, rfl,
    (mouse_without_touch_never_suppressed touchHost quiet 0 Engine.init defaultData []
      (sampleMouse "mousemove" 0 (some 0)) Reachable.init rfl).2.1⟩

/-! ## Further properties -/

/-- The kinds `_mouseCatch` synthesizes for the eight mouse names that `InterpretEvents`
registers it for: the seven entries of `_ME2W3C`, each a canonical kind, and `undefined`
for "click". -/
theorem registered_mouse_kinds :
    mouseNames.map (kindOf _ME2W3C)
      = [.str "pointerdown", .str "pointermove", .str "pointerenter", .str "pointerover",
         .str "pointerout", .str "pointerleave", .str "pointerup", .undefined] ∧
    (∀ k ∈ ["pointerdown", "pointermove", "pointerenter", "pointerover", "pointerout",
        "pointerleave", "pointerup"], k ∈ canonicalKinds) := by
  refine ⟨rfl, ?_⟩
  decide

/-- Where the handlers read `defaultPrevented`: in a reachable state a mouse occurrence
that is not suppressed and a vendor pointer occurrence are marked default-prevented
exactly when the flag of the one dispatched event is set; a touch-move of one tracked
contact exactly when that of its pointermove is; a touch-end of one tracked contact
exactly when that of its pointerup or of its pointerout is. -/
theorem prevented_flag_read_by_handlers (host : Host) (L : Listeners) (now : Int) (s : Engine)
    (d : TargetData) (ls : List Listener) (e : RawEvent) (hs : Reachable s) :
    (isCompatibility now d.lastTouch = false →
      ∃ x, (_mouseCatch host L now s d ls e).dispatched = [x] ∧
        (_mouseCatch host L now s d ls e).defaultPrevented = defaultPreventedAfter L x.target x.event) ∧
    (∃ x, (_msPointerCatch host L s d ls e).dispatched = [x] ∧
      (_msPointerCatch host L s d ls e).defaultPrevented = defaultPreventedAfter L x.target x.event) ∧
    (∀ (t : Touch) (p : Nat) (st : PointerState), e.isTouchShaped host = true →
      e.changedTouches = [t] → Dict.get s._T2P t.identifier = some p →
      Dict.get s._pointers p = some st →
      (∃ x, (_touchMove host L now s (some d) ls e).dispatched = [x] ∧
        (_touchMove host L now s (some d) ls e).defaultPrevented = defaultPreventedAfter L x.target x.event) ∧
      (∃ x y, (_touchEnd host L now s (some d) ls e).dispatched = [x, y] ∧
        (_touchEnd host L now s (some d) ls e).defaultPrevented
          = (defaultPreventedAfter L x.target x.event ||
              defaultPreventedAfter L y.target y.event))) := by
  refine ⟨?_, ?_, ?_⟩
  · intro hc
    obtain ⟨s1, mouse, eve, -, -, -, hout⟩ := _mouseCatch_dispatches_one host L now s d ls e hs hc
    rw [hout]
    exact ⟨_, rfl, rfl⟩
  · obtain ⟨m, hm, -⟩ := hs.inv.mouse
    obtain ⟨eve, heve⟩ := PointerEvent_isSome host s (kindOf _MS2W3C e.type)
      (some { Props.empty with
        bubbles := .bool e.bubbles, cancelable := .bool e.cancelable, baseEvent := some e })
      ⟨m, hm⟩
    unfold _msPointerCatch
    simp only [heve]
    exact ⟨_, rfl, rfl⟩
  · intro t p st hshape hbatch hT hreg
    constructor
    · obtain ⟨pM, hout, -⟩ := _touchMove_single host L now s d ls e t p st hshape hbatch hT hreg
      rw [hout]
      exact ⟨_, rfl, rfl⟩
    · obtain ⟨pU, pO, hout, -⟩ :=
        _touchEnd_single host L now s d ls e t p st hshape hbatch hT hreg
      rw [hout]
      exact ⟨_, _, rfl, rfl⟩

/-- The handlers' reading of `defaultPrevented` at a cancelable mousedown in the initial
state with listeners that call `preventDefault()` on every event. -/
theorem prevented_flag_read_by_handlers_witness :
    Reachable Engine.init ∧
    (∃ x, (_mouseCatch touchHost preventing 1000 Engine.init defaultData []
        (sampleMouse "mousedown" 0 (some 1))).dispatched = [x] ∧
      (_mouseCatch touchHost preventing 1000 Engine.init defaultData []
        (sampleMouse "mousedown" 0 (some 1))).defaultPrevented
        = defaultPreventedAfter preventing x.target x.event) ∧
    (_mouseCatch touchHost preventing 1000 Engine.init defaultData []
      (sampleMouse "mousedown" 0 (some 1))).defaultPrevented = true :=
  ⟨Reachable.init,
    (prevented_flag_read_by_handlers touchHost preventing 1000 Engine.init
      defaultData [] (sampleMouse "mousedown" 0 (some 1)) Reachable.init).1 rfl, rfl⟩

/-- What the `buttons` of a synthesized mouse event reads, for a MouseEvent that is not
suppressed, in a reachable state.  On a host whose MouseEvent has the read-only
attribute it is 0 whatever the native value.  On a host without the attribute, a source
without native `buttons` gets the stored bitmask of pointer 1 as it is after the
handler's own tracking.  A source with a native `buttons` leaves the statics, the stored
bitmask included, as they are. -/
theorem synthesized_buttons_by_host (host : Host) (L : Listeners) (now : Int)
    (s : Engine) (d : TargetData) (ls : List Listener) (e : RawEvent) (hs : Reachable s)
    (hmouse : e.isMouseEvent = true) (hc : isCompatibility now d.lastTouch = false) :
    (host.hasMouseEventButtons = true →
      ∃ x, (_mouseCatch host L now s d ls e).dispatched = [x] ∧ x.event.buttons = .num 0) ∧
    (host.hasMouseEventButtons = false → e.buttons = none →
      ∃ x, (_mouseCatch host L now s d ls e).dispatched = [x] ∧
        x.event.buttons
          = JSVal.ofOptInt (mouseButtons (_mouseCatch host L now s d ls e).state)) ∧
    (∀ v, e.buttons = some v → (_mouseCatch host L now s d ls e).state = s) := by
  obtain ⟨s1, mouse, eve, htrack, -, heve, hout⟩ :=
    _mouseCatch_dispatches_one host L now s d ls e hs hc
  have hbuttons := PointerEvent_mouse_buttons host s1 _ _ e eve rfl hmouse heve
  rw [hout]
  refine ⟨?_, ?_, ?_⟩
  · intro hh
    refine ⟨_, rfl, ?_⟩
    rw [hbuttons]
    simp [hh]
  · intro hh hnone
    refine ⟨_, rfl, ?_⟩
    rw [hbuttons]
    simp [hh, hnone, JSVal.ofOptInt, JSVal.truthy]
  · intro v hv
    simp only [trackButtons, hv, Option.isNone_some, Bool.false_and, Bool.false_eq_true,
      if_false, Option.some.injEq] at htrack
    exact htrack.symm

/-- On a host without the attribute, after a tracked press of button 0 a mousemove is
synthesized with `buttons` 1, the stored bitmask. -/
theorem synthesized_buttons_by_host_witness :
    Reachable (_mouseCatch legacyHost quiet 1000 Engine.init defaultData []
      (sampleMouse "mousedown" 0 none)).state ∧
    legacyHost.hasMouseEventButtons = false ∧
    (∃ x, (_mouseCatch legacyHost quiet 1001
        (_mouseCatch legacyHost quiet 1000 Engine.init defaultData []
          (sampleMouse "mousedown" 0 none)).state defaultData []
        (sampleMouse "mousemove" 0 none)).dispatched = [x] ∧ x.event.buttons = .num 1) := by
  have hs : Reachable (_mouseCatch legacyHost quiet 1000 Engine.init defaultData []
      (sampleMouse "mousedown" 0 none)).state :=
    Reachable.step legacyHost quiet Engine.init
      (.mouse 1000 defaultData [] (sampleMouse "mousedown" 0 none)) Reachable.init
  obtain ⟨x, hx, hb⟩ := (synthesized_buttons_by_host legacyHost quiet 1001 _ defaultData []
    (sampleMouse "mousemove" 0 none) hs rfl rfl).2.1 rfl rfl
  exact ⟨hs, rfl, x, hx, hb.trans rfl⟩

/-! ## The prevented flag -/

/-- An event the constructor builds from `{baseEvent: e, touch: touch}` is not cancelable:
the touch handlers pass no `cancelable`, and `Boolean(undefined)` is false. -/
theorem PointerEvent_ofTouch_not_cancelable (host : Host) (s : Engine) (type : JSVal)
    (e : RawEvent) (touch : Touch) (ev : CanonicalEvent)
    (h : PointerEvent host s type (some (Props.ofTouch e touch)) = some ev) :
    ev.cancelable = false := by
  have hu : JSVal.undefined.truthy = false := rfl
  unfold PointerEvent defaultsOf at h
  simp only [Option.getD, Props.ofTouch, Props.empty, hu, mouseBranch] at h
  cases hM : e.isMouseEvent <;> cases hT : e.isTouchEvent <;>
    simp only [hM, hT, Bool.false_eq_true, if_true, if_false] at h
  · split_ifs at h <;>
      · simp only [Option.some.injEq] at h
        subst h
        simp [vendorBranch, createEvent]
  · split_ifs at h <;>
      · simp only [Option.some.injEq] at h
        subst h
        simp [vendorBranch, touchBranch]
  all_goals
    cases hm : Dict.get s._pointers 1 with
    | none =>
      simp only [hm] at h
      split_ifs at h <;>
        · simp only [Option.some.injEq] at h
          subst h
          simp [vendorBranch]
    | some m =>
      simp only [hm] at h
      split_ifs at h <;>
        · simp only [Option.some.injEq] at h
          subst h
          simp [vendorBranch]

/-- The loop of `_touchStart` dispatches events that are not cancelable only, and marks
nothing. -/
theorem touchStartLoop_flags (host : Host) (L : Listeners) (e : RawEvent) (l : List Touch) :
    ∀ o : Outcome,
      (∀ x ∈ o.dispatched, x.event.cancelable = false) ∧ o.defaultPrevented = false →
      (∀ x ∈ (touchStartLoop host L e l o).dispatched, x.event.cancelable = false) ∧
        (touchStartLoop host L e l o).defaultPrevented = false := by
  induction l with
  | nil => intro o h; exact h
  | cons touch rest ih =>
    intro o h
    simp only [touchStartLoop]
    split_ifs
    · exact ih { o with state := o.state.next } h
    · split
      · rename_i pO pD hO hD
        have hcO := PointerEvent_ofTouch_not_cancelable _ _ _ _ _ _ hO
        have hcD := PointerEvent_ofTouch_not_cancelable _ _ _ _ _ _ hD
        apply ih
        refine ⟨?_, by simp [defaultPreventedAfter, hcD, h.2]⟩
        intro x hx
        simp only [List.mem_append, List.mem_cons, List.mem_singleton, List.not_mem_nil,
          or_false] at hx
        rcases hx with hx | rfl | rfl
        · exact h.1 x hx
        · exact hcO
        · exact hcD
      · exact h

/-- The loop of `_touchMove` dispatches events that are not cancelable only, and marks
nothing. -/
theorem touchMoveLoop_flags (host : Host) (L : Listeners) (e : RawEvent) (l : List Touch) :
    ∀ o : Outcome,
      (∀ x ∈ o.dispatched, x.event.cancelable = false) ∧ o.defaultPrevented = false →
      (∀ x ∈ (touchMoveLoop host L e l o).dispatched, x.event.cancelable = false) ∧
        (touchMoveLoop host L e l o).defaultPrevented = false := by
  induction l with
  | nil => intro o h; exact h
  | cons t rest ih =>
    intro o h
    simp only [touchMoveLoop]
    split
    · exact h
    · split
      · exact h
      · rename_i _ pM hM _ pointer _
        have hcM := PointerEvent_ofTouch_not_cancelable _ _ _ _ _ _ hM
        apply ih
        refine ⟨?_, by simp [defaultPreventedAfter, hcM, h.2]⟩
        intro x hx
        simp only [List.mem_append, List.mem_singleton] at hx
        rcases hx with hx | rfl
        · exact h.1 x hx
        · exact hcM

/-- The loop of `_touchEnd` dispatches events that are not cancelable only, and marks
nothing. -/
theorem touchEndLoop_flags (host : Host) (L : Listeners) (e : RawEvent) (l : List Touch) :
    ∀ o : Outcome,
      (∀ x ∈ o.dispatched, x.event.cancelable = false) ∧ o.defaultPrevented = false →
      (∀ x ∈ (touchEndLoop host L e l o).dispatched, x.event.cancelable = false) ∧
        (touchEndLoop host L e l o).defaultPrevented = false := by
  induction l with
  | nil => intro o h; exact h
  | cons t rest ih =>
    intro o h
    simp only [touchEndLoop]
    split
    · exact h
    · split
      · exact h
      · split
        · rename_i _ p _ _ pointer _ _ _ pU pO hU hO
          have hcU := PointerEvent_ofTouch_not_cancelable _ _ _ _ _ _ hU
          have hcO := PointerEvent_ofTouch_not_cancelable _ _ _ _ _ _ hO
          apply ih
          refine ⟨?_, by simp [defaultPreventedAfter, hcU, hcO, h.2]⟩
          intro x hx
          simp only [List.mem_append, List.mem_cons, List.mem_singleton, List.not_mem_nil,
            or_false] at hx
          rcases hx with hx | rfl | rfl
          · exact h.1 x hx
          · exact hcU
          · exact hcO
        · exact h

/-- The loop of `_touchCancel` dispatches events that are not cancelable only, and marks
nothing. -/
theorem touchCancelLoop_flags (host : Host) (e : RawEvent) (l : List Touch) :
    ∀ o : Outcome,
      (∀ x ∈ o.dispatched, x.event.cancelable = false) ∧ o.defaultPrevented = false →
      (∀ x ∈ (touchCancelLoop host e l o).dispatched, x.event.cancelable = false) ∧
        (touchCancelLoop host e l o).defaultPrevented = false := by
  induction l with
  | nil => intro o h; exact h
  | cons t rest ih =>
    intro o h
    simp only [touchCancelLoop]
    split
    · exact h
    · split
      · exact h
      · split
        · rename_i _ p _ _ pointer _ _ _ _ pU pO pC hU hO hC
          have hcU := PointerEvent_ofTouch_not_cancelable _ _ _ _ _ _ hU
          have hcO := PointerEvent_ofTouch_not_cancelable _ _ _ _ _ _ hO
          have hcC := PointerEvent_ofTouch_not_cancelable _ _ _ _ _ _ hC
          apply ih
          refine ⟨?_, h.2⟩
          intro x hx
          simp only [List.mem_append, List.mem_cons, List.mem_singleton, List.not_mem_nil,
            or_false] at hx
          rcases hx with hx | rfl | rfl | rfl
          · exact h.1 x hx
          · exact hcU
          · exact hcO
          · exact hcC
        · exact h

/-- The mouse handler dispatches nothing, or one event whose flag it copies to the raw
occurrence. -/
theorem _mouseCatch_flag (host : Host) (L : Listeners) (now : Int) (s : Engine)
    (d : TargetData) (ls : List Listener) (e : RawEvent) :
    ((_mouseCatch host L now s d ls e).dispatched = [] ∧
      (_mouseCatch host L now s d ls e).defaultPrevented = false) ∨
    ∃ x, (_mouseCatch host L now s d ls e).dispatched = [x] ∧
      (_mouseCatch host L now s d ls e).defaultPrevented
        = defaultPreventedAfter L x.target x.event := by
  unfold _mouseCatch
  split_ifs
  · exact Or.inl ⟨rfl, rfl⟩
  · dsimp only
    split
    · exact Or.inl ⟨rfl, rfl⟩
    · split
      · exact Or.inl ⟨rfl, rfl⟩
      · split
        · exact Or.inl ⟨rfl, rfl⟩
        · exact Or.inr ⟨_, rfl, rfl⟩

/-- The vendor handler dispatches nothing, or one event whose flag it copies to the raw
occurrence. -/
theorem _msPointerCatch_flag (host : Host) (L : Listeners) (s : Engine)
    (d : TargetData) (ls : List Listener) (e : RawEvent) :
    ((_msPointerCatch host L s d ls e).dispatched = [] ∧
      (_msPointerCatch host L s d ls e).defaultPrevented = false) ∨
    ∃ x, (_msPointerCatch host L s d ls e).dispatched = [x] ∧
      (_msPointerCatch host L s d ls e).defaultPrevented
        = defaultPreventedAfter L x.target x.event := by
  unfold _msPointerCatch
  dsimp only
  split
  · exact Or.inl ⟨rfl, rfl⟩
  · exact Or.inr ⟨_, rfl, rfl⟩

/-- The mouse branch of the constructor builds its event with the `cancelable` it is
given. -/
theorem mouseBranch_cancelable (host : Host) (s : Engine) (type : JSVal)
    (bubbles cancelable : Bool) (props : Props) (e : RawEvent) (ev ev1 : CanonicalEvent)
    (h : mouseBranch host s type bubbles cancelable props e ev = some ev1) :
    ev1.cancelable = cancelable := by
  unfold mouseBranch at h
  dsimp only at h
  by_cases hb : (JSVal.ofOptInt e.buttons).truthy = true
  · rw [if_pos hb] at h
    cases h
    rfl
  · rw [if_neg hb] at h
    cases hm : Dict.get s._pointers 1 with
    | none => simp [hm] at h
    | some m =>
      simp only [hm] at h
      cases h
      rfl

/-- What the touch handlers dispatch is not cancelable, and they mark nothing. -/
theorem touch_handlers_flags (host : Host) (L : Listeners) (now : Int) (s : Engine)
    (d : TargetData) (d? : Option TargetData) (ls : List Listener) (e : RawEvent) :
    ((∀ x ∈ (_touchStart host L now s d ls e).dispatched, x.event.cancelable = false) ∧
      (_touchStart host L now s d ls e).defaultPrevented = false) ∧
    ((∀ x ∈ (_touchMove host L now s d? ls e).dispatched, x.event.cancelable = false) ∧
      (_touchMove host L now s d? ls e).defaultPrevented = false) ∧
    ((∀ x ∈ (_touchEnd host L now s d? ls e).dispatched, x.event.cancelable = false) ∧
      (_touchEnd host L now s d? ls e).defaultPrevented = false) ∧
    ((∀ x ∈ (_touchCancel host now s d? ls e).dispatched, x.event.cancelable = false) ∧
      (_touchCancel host now s d? ls e).defaultPrevented = false) := by
  have hnil : ∀ x ∈ ([] : List Dispatched), x.event.cancelable = false := by
    intro x hx
    cases hx
  refine ⟨touchStartLoop_flags host L e _ _ ⟨hnil, rfl⟩, ?_, ?_, ?_⟩
  · cases d? with
    | none => exact ⟨hnil, rfl⟩
    | some d => exact touchMoveLoop_flags host L e _ _ ⟨hnil, rfl⟩
  · cases d? with
    | none => exact ⟨hnil, rfl⟩
    | some d => exact touchEndLoop_flags host L e _ _ ⟨hnil, rfl⟩
  · cases d? with
    | none => exact ⟨hnil, rfl⟩
    | some d => exact touchCancelLoop_flags host e _ _ ⟨hnil, rfl⟩

/-- C17: for each of the six handlers and every event it dispatches for a raw occurrence,
if the event's `defaultPrevented` flag is set after the dispatch then the handler has
called `preventDefault()` on the raw occurrence.  `_mouseCatch` and `_msPointerCatch`
build their event with the `cancelable` of the raw occurrence and copy its flag.  The
touch handlers pass no `cancelable` to the constructor, so the events they dispatch
(the pointerover of a touch-start and the three events of a touch-cancel included) are
not cancelable and their flag is never set, whatever the listeners do. -/
theorem prevented_flag_marks_occurrence (host : Host) (L : Listeners) (now : Int)
    (s : Engine) (d : TargetData) (d? : Option TargetData) (ls : List Listener)
    (e : RawEvent) :
    (∀ x ∈ (_mouseCatch host L now s d ls e).dispatched,
      defaultPreventedAfter L x.target x.event = true →
        (_mouseCatch host L now s d ls e).defaultPrevented = true) ∧
    (∀ x ∈ (_msPointerCatch host L s d ls e).dispatched,
      defaultPreventedAfter L x.target x.event = true →
        (_msPointerCatch host L s d ls e).defaultPrevented = true) ∧
    (∀ x ∈ (_touchStart host L now s d ls e).dispatched,
      defaultPreventedAfter L x.target x.event = true →
        (_touchStart host L now s d ls e).defaultPrevented = true) ∧
    (∀ x ∈ (_touchMove host L now s d? ls e).dispatched,
      defaultPreventedAfter L x.target x.event = true →
        (_touchMove host L now s d? ls e).defaultPrevented = true) ∧
    (∀ x ∈ (_touchEnd host L now s d? ls e).dispatched,
      defaultPreventedAfter L x.target x.event = true →
        (_touchEnd host L now s d? ls e).defaultPrevented = true) ∧
    (∀ x ∈ (_touchCancel host now s d? ls e).dispatched,
      defaultPreventedAfter L x.target x.event = true →
        (_touchCancel host now s d? ls e).defaultPrevented = true) ∧
    (∀ x ∈ (_touchStart host L now s d ls e).dispatched ++
        (_touchMove host L now s d? ls e).dispatched ++
        (_touchEnd host L now s d? ls e).dispatched ++
        (_touchCancel host now s d? ls e).dispatched,
      x.event.cancelable = false ∧ defaultPreventedAfter L x.target x.event = false) ∧
    (∀ x ∈ (_mouseCatch host L now s d ls e).dispatched, e.isMouseEvent = true →
      x.event.cancelable = e.cancelable) := by
  obtain ⟨⟨hS, -⟩, ⟨hM, -⟩, ⟨hE, -⟩, ⟨hC, -⟩⟩ := touch_handlers_flags host L now s d d? ls e
  have hoff : ∀ x : Dispatched, x.event.cancelable = false →
      defaultPreventedAfter L x.target x.event = false := by
    intro x hx
    simp [defaultPreventedAfter, hx]
  refine ⟨?_, ?_, ?_, ?_, ?_, ?_, ?_, ?_⟩
  · intro x hx hflag
    rcases _mouseCatch_flag host L now s d ls e with ⟨h0, -⟩ | ⟨y, hy, hd⟩
    · rw [h0] at hx
      cases hx
    · rw [hy, List.mem_singleton] at hx
      subst hx
      rw [hd, hflag]
  · intro x hx hflag
    rcases _msPointerCatch_flag host L s d ls e with ⟨h0, -⟩ | ⟨y, hy, hd⟩
    · rw [h0] at hx
      cases hx
    · rw [hy, List.mem_singleton] at hx
      subst hx
      rw [hd, hflag]
  · intro x hx hflag
    rw [hoff x (hS x hx)] at hflag
    cases hflag
  · intro x hx hflag
    rw [hoff x (hM x hx)] at hflag
    cases hflag
  · intro x hx hflag
    rw [hoff x (hE x hx)] at hflag
    cases hflag
  · intro x hx hflag
    rw [hoff x (hC x hx)] at hflag
    cases hflag
  · intro x hx
    simp only [List.mem_append] at hx
    rcases hx with ((hx | hx) | hx) | hx
    · exact ⟨hS x hx, hoff x (hS x hx)⟩
    · exact ⟨hM x hx, hoff x (hM x hx)⟩
    · exact ⟨hE x hx, hoff x (hE x hx)⟩
    · exact ⟨hC x hx, hoff x (hC x hx)⟩
  · intro x hx hmouse
    unfold _mouseCatch at hx
    split_ifs at hx
    · cases hx
    · dsimp only at hx
      split at hx
      · cases hx
      · split at hx
        · cases hx
        · split at hx
          · cases hx
          · rename_i _ _ _ _ _ _ eve heve
            simp only [List.mem_singleton] at hx
            subst hx
            unfold PointerEvent defaultsOf at heve
            simp only [Option.getD, hmouse, if_true] at heve
            split at heve
            · cases heve
            · rename_i ev1 hev1
              have hc1 := mouseBranch_cancelable _ _ _ _ _ _ _ _ _ hev1
              split_ifs at heve <;>
                · cases heve
                  simpa [vendorBranch, JSVal.truthy] using hc1

/-! ## Gestures on an element that was not attached -/

/-- C3 fails on the code when the touched element is not the attached one.  `_touchStart`
registers the gesture listeners on `e.target`, and `_touchMove` and `_touchEnd` read
their configuration from `e.currentTarget._pointerEvent`, which for those listeners is
that touched element.  With element 10 attached and contact 7 put on its descendant 11,
the touch-start dispatches pointerover and pointerdown with `pointerId` 2 and registers
the gesture listeners on element 11; the touch-move and the touch-end of contact 7 then
raise before anything is dispatched.  The trace is pointerover, pointerdown only, and
afterwards 2 is still a key of the registry and 7 a key of the touch map. -/
theorem lifecycle_raises_on_descendant :
    (InterpretEvents touchHost plainElement none).element._pointerEvent = some defaultData ∧
    plainElement._pointerEvent = none ∧
    descendantStarted.dispatched.map (fun x => (x.target, x.event.type, x.event.pointerId))
      = [(11, .str "pointerover", .num 2), (11, .str "pointerdown", .num 2)] ∧
    descendantStarted.targetListeners = gestureListeners ∧
    _touchMove touchHost quiet 1001 descendantStarted.state plainElement._pointerEvent
        descendantStarted.targetListeners
        (descendantTouchEvent "touchmove" [descendantTouch 7])
      = ⟨descendantStarted.state, none, gestureListeners, [], false, false, true⟩ ∧
    _touchEnd touchHost quiet 1002 descendantStarted.state plainElement._pointerEvent
        descendantStarted.targetListeners
        (descendantTouchEvent "touchend" [descendantTouch 7])
      = ⟨descendantStarted.state, none, gestureListeners, [], false, false, true⟩ ∧
    (runOps touchHost quiet Engine.init
        [.touchStart 1000 defaultData plainElement.listeners
           (descendantTouchEvent "touchstart" [descendantTouch 7]),
         .touchMove 1001 plainElement._pointerEvent gestureListeners
           (descendantTouchEvent "touchmove" [descendantTouch 7]),
         .touchEnd 1002 plainElement._pointerEvent gestureListeners
           (descendantTouchEvent "touchend" [descendantTouch 7])]).2.map
        (fun x => x.event.type)
      = [.str "pointerover", .str "pointerdown"] ∧
    Dict.get (runOps touchHost quiet Engine.init
        [.touchStart 1000 defaultData plainElement.listeners
           (descendantTouchEvent "touchstart" [descendantTouch 7]),
         .touchMove 1001 plainElement._pointerEvent gestureListeners
           (descendantTouchEvent "touchmove" [descendantTouch 7]),
         .touchEnd 1002 plainElement._pointerEvent gestureListeners
           (descendantTouchEvent "touchend" [descendantTouch 7])]).1._pointers 2
      = some ⟨none, some 7, none, some false⟩ ∧
    Dict.get (runOps touchHost quiet Engine.init
        [.touchStart 1000 defaultData plainElement.listeners
           (descendantTouchEvent "touchstart" [descendantTouch 7]),
         .touchMove 1001 plainElement._pointerEvent gestureListeners
           (descendantTouchEvent "touchmove" [descendantTouch 7]),
         .touchEnd 1002 plainElement._pointerEvent gestureListeners
           (descendantTouchEvent "touchend" [descendantTouch 7])]).1._T2P 7 = some 2 := by
  refine ⟨rfl, rfl, by decide, by decide, rfl, rfl, by decide, rfl, rfl⟩

/-- C4 fails on the code when the touched element is not the attached one, by the same
defect: `_touchCancel` reads its configuration from `e.currentTarget._pointerEvent`, and
the listener sits on the `e.target` of the touch-start.  With element 10 attached and
contact 7 put on its descendant 11, contact 7 is tracked with identity 2; the
touch-cancel of contact 7 raises before anything is dispatched, and 2 stays in the
registry and 7 in the touch map. -/
theorem touchCancel_raises_on_descendant :
    plainElement._pointerEvent = none ∧
    Dict.get descendantStarted.state._T2P 7 = some 2 ∧
    Dict.get descendantStarted.state._pointers 2 = some ⟨none, some 7, none, some false⟩ ∧
    descendantStarted.targetListeners = gestureListeners ∧
    (_touchCancel touchHost 1001 descendantStarted.state plainElement._pointerEvent
        descendantStarted.targetListeners
        (descendantTouchEvent "touchcancel" [descendantTouch 7])).threw = true ∧
    (_touchCancel touchHost 1001 descendantStarted.state plainElement._pointerEvent
        descendantStarted.targetListeners
        (descendantTouchEvent "touchcancel" [descendantTouch 7])).dispatched = [] ∧
    Dict.get (_touchCancel touchHost 1001 descendantStarted.state plainElement._pointerEvent
        descendantStarted.targetListeners
        (descendantTouchEvent "touchcancel" [descendantTouch 7])).state._pointers 2
      = some ⟨none, some 7, none, some false⟩ ∧
    Dict.get (_touchCancel touchHost 1001 descendantStarted.state plainElement._pointerEvent
        descendantStarted.targetListeners
        (descendantTouchEvent "touchcancel" [descendantTouch 7])).state._T2P 7 = some 2 := by
  refine ⟨rfl, rfl, rfl, by decide, rfl, rfl, rfl, rfl⟩

end PointerEventJS
